import Mathlib

/-!
# Dependency resolution and readiness validation of report generation queries

A shallow embedding of `pkg/operator/reporting/validate.go`.

* Go pointers to API objects are modelled by the objects themselves; a getter
  returns either an object or an error (the `(nil, nil)` answer, on which the
  Go code would dereference a nil pointer, is excluded by the type).
* A getter is an interface value and may have effects; it is modelled as a
  function that threads a state of an arbitrary type `σ`.  Every operation
  returns its Go result pair together with the state after its last getter
  call.
* A Go `error` is modelled by its message.
* A Go `map[string]*ReportGenerationQuery` is modelled by an association list
  with at most one entry per key.  Go iterates over a map in an unspecified
  order; the embedding iterates in order of first insertion, and the theorems
  about a traversal result speak of membership and multiplicity only.
* `depth` and `maxDepth` are Go `int`s; they stay within `0 .. 100`, so they
  are modelled by natural numbers.
-/

namespace reporting

/-! ## Data model -/

/-- A Go `error` value, identified with its message. -/
structure Error where
  msg : String
deriving DecidableEq, Repr

/-- Modelled from the spec: the type `metering.ReportGenerationQueryView` is
declared in the API package `pkg/apis/metering/v1alpha1`, which is not part of
the sources at hand; the only field the code reads is the "view disabled"
flag. -/
structure ReportGenerationQueryView where
  Disabled : Bool
deriving DecidableEq, Repr

/-- Modelled from the spec: the type `metering.ReportGenerationQuerySpec` is
declared in the API package `pkg/apis/metering/v1alpha1`, which is not part of
the sources at hand; the fields are the five reference lists and the view
settings the code reads. -/
structure ReportGenerationQuerySpec where
  ReportQueries : List String
  DynamicReportQueries : List String
  DataSources : List String
  Reports : List String
  ScheduledReports : List String
  View : ReportGenerationQueryView
deriving DecidableEq, Repr

/-- Modelled from the spec: the type `metering.ReportGenerationQuery` (the
spec's ReportingDefinition) is declared in the API package
`pkg/apis/metering/v1alpha1`, which is not part of the sources at hand; the
fields are the ones the code reads. `ViewName` is the readiness attribute. -/
structure ReportGenerationQuery where
  Name : String
  Namespace : String
  Spec : ReportGenerationQuerySpec
  ViewName : String
deriving DecidableEq, Repr

/-- Modelled from the spec: the type `metering.ReportDataSource` (the spec's
DataFeed) is declared in the API package, which is not part of the sources at
hand. `TableName` is the readiness attribute. -/
structure ReportDataSource where
  Name : String
  Namespace : String
  TableName : String
deriving DecidableEq, Repr

/-- Modelled from the spec: the status of a `metering.Report`, declared in the
API package, which is not part of the sources at hand. -/
structure ReportStatus where
  TableName : String
deriving DecidableEq, Repr

/-- Modelled from the spec: the type `metering.Report` (the spec's
SingleReport) is declared in the API package, which is not part of the sources
at hand. `Status.TableName` is the readiness attribute. -/
structure Report where
  Name : String
  Namespace : String
  Status : ReportStatus
deriving DecidableEq, Repr

/-- Modelled from the spec: the status of a `metering.ScheduledReport`,
declared in the API package, which is not part of the sources at hand. -/
structure ScheduledReportStatus where
  TableName : String
deriving DecidableEq, Repr

/-- Modelled from the spec: the type `metering.ScheduledReport` is declared in
the API package, which is not part of the sources at hand.
`Status.TableName` is the readiness attribute. -/
structure ScheduledReport where
  Name : String
  Namespace : String
  Status : ScheduledReportStatus
deriving DecidableEq, Repr

/-- The constant `maxDepth` of the package. -/
def maxDepth : Nat := 100

/-- The struct `ReportGenerationQueryDependencies`: the resolved bundle. -/
structure ReportGenerationQueryDependencies where
  ReportGenerationQueries : List ReportGenerationQuery
  DynamicReportGenerationQueries : List ReportGenerationQuery
  ReportDataSources : List ReportDataSource
  Reports : List Report
  ScheduledReports : List ScheduledReport
deriving DecidableEq, Repr

/-- The struct `GenerationQueryDependenciesStatus`. -/
structure GenerationQueryDependenciesStatus where
  UninitializedReportGenerationQueries : List ReportGenerationQuery
  InitializedReportGenerationQueries : List ReportGenerationQuery
  InitializedDynamicReportGenerationQueries : List ReportGenerationQuery
  UninitializedReports : List Report
  InitializedReports : List Report
  UninitializedScheduledReports : List ScheduledReport
  InitializedScheduledReports : List ScheduledReport
  UninitializedReportDataSources : List ReportDataSource
  InitializedReportDataSources : List ReportDataSource
deriving DecidableEq, Repr

/-- The struct `GetDependentGenerationQueriesStatus`. -/
structure GetDependentGenerationQueriesStatus where
  ViewReportGenerationQueries : List ReportGenerationQuery
  DynamicReportGenerationQueries : List ReportGenerationQuery
deriving DecidableEq, Repr

/-! ## Getters -/

/-- The shape shared by the four getter interfaces: a method taking a namespace
and a name and returning `(object, error)`, run in a state of type `σ`. -/
abbrev Getter (σ α : Type) : Type := String → String → σ → Except Error α × σ

/-- The interface `reportGenerationQueryGetter`. -/
abbrev reportGenerationQueryGetter (σ : Type) : Type := Getter σ ReportGenerationQuery

/-- The interface `reportDataSourceGetter`. -/
abbrev reportDataSourceGetter (σ : Type) : Type := Getter σ ReportDataSource

/-- The interface `reportGetter`. -/
abbrev reportGetter (σ : Type) : Type := Getter σ Report

/-- The interface `scheduledReportGetter`. -/
abbrev scheduledReportGetter (σ : Type) : Type := Getter σ ScheduledReport

/-- A getter that is a pure function of namespace and name: it neither reads
nor changes the state. -/
def pureGetter {σ α : Type} (f : String → String → Except Error α) : Getter σ α :=
  fun namespace_ name s => (f namespace_ name, s)

/-- A getter observed by a call log: it behaves as `getter` on the first
component of the state and appends the `(namespace, name)` of every call to
the second. -/
def recording {σ α : Type} (getter : Getter σ α) : Getter (σ × List (String × String)) α :=
  fun namespace_ name s =>
    ((getter namespace_ name s.1).1, ((getter namespace_ name s.1).2, s.2 ++ [(namespace_, name)]))

/-! ## The accumulator map -/

/-- A `map[string]*metering.ReportGenerationQuery`. -/
abbrev Accumulator : Type := List (String × ReportGenerationQuery)

/-- The keys of the map. -/
def Accumulator.keys (m : Accumulator) : List String := m.map Prod.fst

/-- The values of the map, in the order the embedding iterates over it. -/
def Accumulator.values (m : Accumulator) : List ReportGenerationQuery := m.map Prod.snd

/-- The test `_, exists := m[key]`. -/
def Accumulator.contains (m : Accumulator) (key : String) : Bool :=
  m.any (fun e => e.1 == key)

/-- The assignment `m[key] = value`: the entry of an existing key is
overwritten, a new key gets a new entry. -/
def Accumulator.insert : Accumulator → String → ReportGenerationQuery → Accumulator
  | [], key, value => [(key, value)]
  | e :: m, key, value =>
    if e.1 == key then (key, value) :: m else e :: Accumulator.insert m key value

/-! ## Traversal -/

/-- The reference list selected by the flag `dynamicQueries`. -/
def selectQueries (generationQuery : ReportGenerationQuery) (dynamicQueries : Bool) : List String :=
  if dynamicQueries then generationQuery.Spec.DynamicReportQueries
  else generationQuery.Spec.ReportQueries

/-- The message of the error built when the depth bound is reached. -/
def cycleError (depth : Nat) (name : String) : Error :=
  ⟨"detected a cycle at depth " ++ toString depth ++ " for generationQuery " ++ name⟩

/-- A `for _, queryName := range queries` loop whose body may return an error
from the enclosing function: `body` is run on the names in list order, on the
accumulator and state left by the previous iteration, and the first error ends
the loop. -/
def rangeQueries {σ : Type} (body : String → Accumulator → σ → Except Error Accumulator × σ) :
    List String → Accumulator → σ → Except Error Accumulator × σ
  | [], queriesAccumulator, s => (.ok queriesAccumulator, s)
  | queryName :: queries, queriesAccumulator, s =>
    match body queryName queriesAccumulator s with
    | (.error err, s1) => (.error err, s1)
    | (.ok queriesAccumulator1, s1) => rangeQueries body queries queriesAccumulator1 s1

/-- The function `GetDependentGenerationQueriesMemoized`. The Go function
updates the map in place and returns an error or nil; the embedding returns the
updated map when there is no error. -/
def GetDependentGenerationQueriesMemoized {σ : Type} (queryGetter : reportGenerationQueryGetter σ)
    (generationQuery : ReportGenerationQuery) (depth maxDepth : Nat)
    (queriesAccumulator : Accumulator) (dynamicQueries : Bool) (s : σ) :
    Except Error Accumulator × σ :=
  if depth ≥ maxDepth then
    (.error (cycleError depth generationQuery.Name), s)
  else
    rangeQueries
      (fun queryName acc s0 =>
        if acc.contains queryName then (.ok acc, s0)
        else
          match queryGetter generationQuery.Namespace queryName s0 with
          | (.error err, s1) => (.error err, s1)
          | (.ok genQuery, s1) =>
            match GetDependentGenerationQueriesMemoized queryGetter genQuery (depth + 1) maxDepth
                acc dynamicQueries s1 with
            | (.error err, s2) => (.error err, s2)
            | (.ok acc2, s2) => (.ok (acc2.insert genQuery.Name genQuery), s2))
      (selectQueries generationQuery dynamicQueries) queriesAccumulator s
termination_by maxDepth - depth
decreasing_by omega

/-- One iteration of the loop of `GetDependentGenerationQueriesMemoized`, for a
query of namespace `namespace_` processed at depth `depth`. -/
def visitQuery {σ : Type} (queryGetter : reportGenerationQueryGetter σ) (namespace_ : String)
    (depth maxDepth : Nat) (dynamicQueries : Bool) (queryName : String) (acc : Accumulator)
    (s0 : σ) : Except Error Accumulator × σ :=
  if acc.contains queryName then (.ok acc, s0)
  else
    match queryGetter namespace_ queryName s0 with
    | (.error err, s1) => (.error err, s1)
    | (.ok genQuery, s1) =>
      match GetDependentGenerationQueriesMemoized queryGetter genQuery (depth + 1) maxDepth
          acc dynamicQueries s1 with
      | (.error err, s2) => (.error err, s2)
      | (.ok acc2, s2) => (.ok (acc2.insert genQuery.Name genQuery), s2)

/-- The function `GetDependentViewGenerationQueries`. -/
def GetDependentViewGenerationQueries {σ : Type} (queryGetter : reportGenerationQueryGetter σ)
    (generationQuery : ReportGenerationQuery) (s : σ) :
    Except Error (List ReportGenerationQuery) × σ :=
  match GetDependentGenerationQueriesMemoized queryGetter generationQuery 0 maxDepth [] false s with
  | (.error err, s1) => (.error err, s1)
  | (.ok viewReportQueriesAccumulator, s1) => (.ok viewReportQueriesAccumulator.values, s1)

/-- The function `GetDependentDynamicGenerationQueries`. -/
def GetDependentDynamicGenerationQueries {σ : Type} (queryGetter : reportGenerationQueryGetter σ)
    (generationQuery : ReportGenerationQuery) (s : σ) :
    Except Error (List ReportGenerationQuery) × σ :=
  match GetDependentGenerationQueriesMemoized queryGetter generationQuery 0 maxDepth [] true s with
  | (.error err, s1) => (.error err, s1)
  | (.ok dynamicReportQueriesAccumulator, s1) => (.ok dynamicReportQueriesAccumulator.values, s1)

/-- The function `GetDependentGenerationQueries`. -/
def GetDependentGenerationQueries {σ : Type} (queryGetter : reportGenerationQueryGetter σ)
    (generationQuery : ReportGenerationQuery) (s : σ) :
    Except Error GetDependentGenerationQueriesStatus × σ :=
  match GetDependentViewGenerationQueries queryGetter generationQuery s with
  | (.error err, s1) => (.error err, s1)
  | (.ok viewQueries, s1) =>
    match GetDependentDynamicGenerationQueries queryGetter generationQuery s1 with
    | (.error err, s2) => (.error err, s2)
    | (.ok dynamicQueries, s2) =>
      (.ok ⟨viewQueries, dynamicQueries⟩, s2)

/-! ## Flat dependency fetch -/

/-- The loop shared by `GetDependentDataSources`, `GetDependentReports` and
`GetDependentScheduledReports`: the names are fetched in list order in the
given namespace, the results fill a slice of the same length, and the first
error is returned with no slice. -/
def rangeGet {σ α : Type} (getter : Getter σ α) (namespace_ : String) :
    List String → σ → Except Error (List α) × σ
  | [], s => (.ok [], s)
  | name :: names, s =>
    match getter namespace_ name s with
    | (.error err, s1) => (.error err, s1)
    | (.ok item, s1) =>
      match rangeGet getter namespace_ names s1 with
      | (.error err, s2) => (.error err, s2)
      | (.ok items, s2) => (.ok (item :: items), s2)

/-- The function `GetDependentDataSources`. -/
def GetDependentDataSources {σ : Type} (dataSourceGetter : reportDataSourceGetter σ)
    (generationQuery : ReportGenerationQuery) (s : σ) : Except Error (List ReportDataSource) × σ :=
  rangeGet dataSourceGetter generationQuery.Namespace generationQuery.Spec.DataSources s

/-- The function `GetDependentReports`. -/
def GetDependentReports {σ : Type} (reportGetter_ : reportGetter σ)
    (generationQuery : ReportGenerationQuery) (s : σ) : Except Error (List Report) × σ :=
  rangeGet reportGetter_ generationQuery.Namespace generationQuery.Spec.Reports s

/-- The function `GetDependentScheduledReports`. -/
def GetDependentScheduledReports {σ : Type} (scheduledReportGetter_ : scheduledReportGetter σ)
    (generationQuery : ReportGenerationQuery) (s : σ) : Except Error (List ScheduledReport) × σ :=
  rangeGet scheduledReportGetter_ generationQuery.Namespace generationQuery.Spec.ScheduledReports s

/-! ## Readiness partition -/

/-- The partition loop of `GetGenerationQueryDependenciesStatus`: each element
is appended to the first slice when `uninitialized` holds of it and to the
second otherwise. The result is the pair (uninitialized, initialized). -/
def rangePartition {α : Type} (uninitialized : α → Bool) :
    List α → List α → List α → List α × List α
  | [], uninitializedItems, initializedItems => (uninitializedItems, initializedItems)
  | item :: items, uninitializedItems, initializedItems =>
    if uninitialized item then
      rangePartition uninitialized items (uninitializedItems ++ [item]) initializedItems
    else
      rangePartition uninitialized items uninitializedItems (initializedItems ++ [item])

/-- The function `GetGenerationQueryDependenciesStatus`. The four getters run
in the same state. -/
def GetGenerationQueryDependenciesStatus {σ : Type} (queryGetter : reportGenerationQueryGetter σ)
    (dataSourceGetter : reportDataSourceGetter σ) (reportGetter_ : reportGetter σ)
    (scheduledReportGetter_ : scheduledReportGetter σ) (generationQuery : ReportGenerationQuery)
    (s : σ) : Except Error GenerationQueryDependenciesStatus × σ :=
  match GetDependentGenerationQueries queryGetter generationQuery s with
  | (.error err, s1) => (.error err, s1)
  | (.ok dependentQueriesStatus, s1) =>
    match GetDependentDataSources dataSourceGetter generationQuery s1 with
    | (.error err, s2) => (.error err, s2)
    | (.ok dataSources, s2) =>
      match GetDependentReports reportGetter_ generationQuery s2 with
      | (.error err, s3) => (.error err, s3)
      | (.ok reports, s3) =>
        match GetDependentScheduledReports scheduledReportGetter_ generationQuery s3 with
        | (.error err, s4) => (.error err, s4)
        | (.ok scheduledReports, s4) =>
          let dataSourcesSplit :=
            rangePartition (fun dataSource => dataSource.TableName == "") dataSources [] []
          let queriesSplit :=
            rangePartition (fun query => query.ViewName == "")
              dependentQueriesStatus.ViewReportGenerationQueries [] []
          let reportsSplit :=
            rangePartition (fun report => report.Status.TableName == "") reports [] []
          let scheduledReportsSplit :=
            rangePartition (fun scheduledReport => scheduledReport.Status.TableName == "")
              scheduledReports [] []
          (.ok
            { UninitializedReportGenerationQueries := queriesSplit.1
              InitializedReportGenerationQueries := queriesSplit.2
              InitializedDynamicReportGenerationQueries :=
                dependentQueriesStatus.DynamicReportGenerationQueries
              UninitializedReportDataSources := dataSourcesSplit.1
              InitializedReportDataSources := dataSourcesSplit.2
              UninitializedReports := reportsSplit.1
              InitializedReports := reportsSplit.2
              UninitializedScheduledReports := scheduledReportsSplit.1
              InitializedScheduledReports := scheduledReportsSplit.2 }, s4)

/-! ## Validation -/

/-- The function `strings.Join` of the Go standard library. -/
def strings.Join : List String → String → String
  | [], _ => ""
  | [a], _ => a
  | a :: b :: elems, sep => a ++ sep ++ strings.Join (b :: elems) sep

/-- The first loop of `ValidateGenerationQueryDependenciesStatus`: the names of
the queries with a disabled view are appended to the first slice, the names of
the other queries with an empty `ViewName` to the second. The result is the
pair (queriesViewDisabled, uninitializedQueries). -/
def rangeClassify : List ReportGenerationQuery → List String → List String →
    List String × List String
  | [], queriesViewDisabled, uninitializedQueries => (queriesViewDisabled, uninitializedQueries)
  | query :: queries, queriesViewDisabled, uninitializedQueries =>
    if query.Spec.View.Disabled then
      rangeClassify queries (queriesViewDisabled ++ [query.Name]) uninitializedQueries
    else if query.ViewName == "" then
      rangeClassify queries queriesViewDisabled (uninitializedQueries ++ [query.Name])
    else
      rangeClassify queries queriesViewDisabled uninitializedQueries

/-- A loop `for _, x := range xs { names = append(names, x.Name) }`. -/
def rangeNames {α : Type} (name : α → String) : List α → List String → List String
  | [], names => names
  | item :: items, names => rangeNames name items (names ++ [name item])

/-- One of the five statements
`if len(names) != 0 { errs = append(errs, fmt.Sprintf(label + "%s", strings.Join(names, ", "))) }`
of `ValidateGenerationQueryDependenciesStatus`. -/
def appendCategory (errs : List String) (label : String) (names : List String) : List String :=
  if names.length != 0 then errs ++ [label ++ strings.Join names ", "] else errs

/-- The messages `errs` collected by `ValidateGenerationQueryDependenciesStatus`
from its five name slices, in the order of the five `if` statements. -/
def validationErrs (queriesViewDisabled uninitializedDataSources uninitializedQueries
    uninitializedReports uninitializedScheduledReports : List String) : List String :=
  let errs : List String := []
  let errs := appendCategory errs
    "invalid ReportGenerationQuery, references ReportGenerationQueries with spec.view.disabled=true: "
    queriesViewDisabled
  let errs := appendCategory errs
    "ReportGenerationQuery has uninitialized ReportDataSource dependencies: "
    uninitializedDataSources
  let errs := appendCategory errs
    "ReportGenerationQuery has uninitialized ReportGenerationQuery dependencies: "
    uninitializedQueries
  let errs := appendCategory errs
    "ReportGenerationQuery has uninitialized Report dependencies: "
    uninitializedReports
  let errs := appendCategory errs
    "ReportGenerationQuery has uninitialized ScheduledReport dependencies: "
    uninitializedScheduledReports
  errs

/-- The function `ValidateGenerationQueryDependenciesStatus`. -/
def ValidateGenerationQueryDependenciesStatus (depsStatus : GenerationQueryDependenciesStatus) :
    Except Error ReportGenerationQueryDependencies :=
  let classified := rangeClassify depsStatus.UninitializedReportGenerationQueries [] []
  let queriesViewDisabled := classified.1
  let uninitializedQueries := classified.2
  let uninitializedDataSources :=
    rangeNames ReportDataSource.Name depsStatus.UninitializedReportDataSources []
  let uninitializedReports := rangeNames Report.Name depsStatus.UninitializedReports []
  let uninitializedScheduledReports :=
    rangeNames ScheduledReport.Name depsStatus.UninitializedScheduledReports []
  let errs := validationErrs queriesViewDisabled uninitializedDataSources uninitializedQueries
    uninitializedReports uninitializedScheduledReports
  if errs.length != 0 then
    .error ⟨"ReportGenerationQuery dependency validation error: " ++ strings.Join errs ", "⟩
  else
    .ok
      { ReportGenerationQueries := depsStatus.InitializedReportGenerationQueries
        DynamicReportGenerationQueries := depsStatus.InitializedDynamicReportGenerationQueries
        ReportDataSources := depsStatus.InitializedReportDataSources
        Reports := depsStatus.InitializedReports
        ScheduledReports := depsStatus.InitializedScheduledReports }

/-! ## Specification vocabulary -/

/-- A pure getter is name-faithful when a successful `get(ns, name)` returns an
object whose `Name` is `name` and whose `Namespace` is `ns`. -/
def NameFaithful (get : String → String → Except Error ReportGenerationQuery) : Prop :=
  ∀ namespace_ name query, get namespace_ name = .ok query →
    query.Name = name ∧ query.Namespace = namespace_

/-- One reference of the class selected by `dynamicQueries`: `query` lists a
name that the getter resolves, in the namespace of `query`, to `dependency`. -/
def refersTo (get : String → String → Except Error ReportGenerationQuery) (dynamicQueries : Bool)
    (query dependency : ReportGenerationQuery) : Prop :=
  ∃ name, name ∈ selectQueries query dynamicQueries ∧ get query.Namespace name = .ok dependency

/-- A chain of exactly `n` references leading from one query to another. -/
inductive Chain (get : String → String → Except Error ReportGenerationQuery)
    (dynamicQueries : Bool) : Nat → ReportGenerationQuery → ReportGenerationQuery → Prop where
  | refl (query : ReportGenerationQuery) : Chain get dynamicQueries 0 query query
  | step {n : Nat} {query dependency target : ReportGenerationQuery} :
      refersTo get dynamicQueries query dependency → Chain get dynamicQueries n dependency target →
      Chain get dynamicQueries (n + 1) query target

/-- The query `target` is reachable from `query` through one or more
references. -/
def Reachable (get : String → String → Except Error ReportGenerationQuery) (dynamicQueries : Bool)
    (query target : ReportGenerationQuery) : Prop :=
  ∃ n, Chain get dynamicQueries (n + 1) query target

/-- The state left by calling the getter on each of the names in turn. -/
def stateAfter {σ α : Type} (getter : Getter σ α) (namespace_ : String) : List String → σ → σ
  | [], s => s
  | name :: names, s => stateAfter getter namespace_ names (getter namespace_ name s).2

/-! ## Example data -/

/-- A query without dependencies that is not materialised. -/
def leafQuery (name : String) (queries : List String) : ReportGenerationQuery :=
  { Name := name, Namespace := "ns", ViewName := "",
    Spec := { ReportQueries := queries, DynamicReportQueries := [], DataSources := [],
              Reports := [], ScheduledReports := [], View := { Disabled := false } } }

/-- The three queries of the cycle `A → B → C → A`, by position. -/
def cycle3 (i : Nat) : ReportGenerationQuery :=
  if i = 0 then leafQuery "A" ["B"] else if i = 1 then leafQuery "B" ["C"] else leafQuery "C" ["A"]

/-- The getter serving the queries of `cycle3` in namespace `ns`. -/
def cycle3Get (namespace_ name : String) : Except Error ReportGenerationQuery :=
  if namespace_ = "ns" ∧ name = "A" then .ok (cycle3 0)
  else if namespace_ = "ns" ∧ name = "B" then .ok (cycle3 1)
  else if namespace_ = "ns" ∧ name = "C" then .ok (cycle3 2)
  else .error ⟨"NotFound"⟩

/-- The contract of a flat dependency fetch run with a logged getter from the
state `s` and an empty log, where `outcome` is what the fetch of `names` in
the namespace `ns` returned. If every call of the getter succeeds, the fetch
succeeds with a list as long as `names` whose `i`-th element is the result of
the getter for the `i`-th name, and the log holds the names in order. If the
call for the `j`-th name is the first to fail, the fetch returns no list and
the error of that call, and the log holds the first `j + 1` names only. -/
def FlatFetchContract {σ α : Type} (getter : Getter σ α) (ns : String) (names : List String)
    (s : σ) (outcome : Except Error (List α) × (σ × List (String × String))) : Prop :=
  ((∀ i (h : i < names.length),
      ∃ x, (getter ns names[i] (stateAfter getter ns (names.take i) s)).1 = .ok x) →
    ∃ items, outcome = (.ok items, (stateAfter getter ns names s, names.map (Prod.mk ns))) ∧
      items.length = names.length ∧
      ∀ i (h : i < names.length) (h1 : i < items.length),
        (getter ns names[i] (stateAfter getter ns (names.take i) s)).1 = .ok items[i]) ∧
  (∀ j (hj : j < names.length) (e : Error),
    (∀ i (h : i < j),
      ∃ x, (getter ns names[i] (stateAfter getter ns (names.take i) s)).1 = .ok x) →
    (getter ns names[j] (stateAfter getter ns (names.take j) s)).1 = .error e →
    outcome = (.error e, (stateAfter getter ns (names.take (j + 1)) s,
      (names.take (j + 1)).map (Prod.mk ns))))

/-- A query of namespace `ns` with the given flat reference lists and no
reference to other queries. -/
def flatQuery (dataSources reports scheduledReports : List String) : ReportGenerationQuery :=
  { Name := "R", Namespace := "ns", ViewName := "",
    Spec := { ReportQueries := [], DynamicReportQueries := [], DataSources := dataSources,
              Reports := reports, ScheduledReports := scheduledReports,
              View := { Disabled := false } } }

/-- A data source getter that knows every name but `missing`. -/
def dataSourceGet (namespace_ name : String) : Except Error ReportDataSource :=
  if name = "missing" then .error ⟨"NotFound"⟩ else .ok ⟨name, namespace_, ""⟩

/-- The lists `initialized` and `uninitialized` split the list `fetched` by the
test `uninitializedAttr` (the readiness attribute is empty) alone: they are the
sub-sequences of the elements that fail, respectively pass, the test, so that
each fetched element is in exactly one of them and they hold nothing else. -/
def SplitByReadiness {α : Type} (uninitializedAttr : α → Bool)
    (fetched initialized uninitialized : List α) : Prop :=
  initialized = fetched.filter (fun x => !uninitializedAttr x) ∧
  uninitialized = fetched.filter uninitializedAttr ∧
  ∀ x, ((x ∈ initialized ∨ x ∈ uninitialized) ↔ x ∈ fetched) ∧
    ¬ (x ∈ initialized ∧ x ∈ uninitialized)

/-- The local variable `queriesViewDisabled` of
`ValidateGenerationQueryDependenciesStatus` after the first loop: the names
listed in the view-disabled category. -/
def queriesViewDisabled (depsStatus : GenerationQueryDependenciesStatus) : List String :=
  (rangeClassify depsStatus.UninitializedReportGenerationQueries [] []).1

/-- The local variable `uninitializedQueries` of
`ValidateGenerationQueryDependenciesStatus` after the first loop: the names
listed in the uninitialized-query category. -/
def uninitializedQueries (depsStatus : GenerationQueryDependenciesStatus) : List String :=
  (rangeClassify depsStatus.UninitializedReportGenerationQueries [] []).2

/-- A status whose only non-empty list is that of the uninitialized queries. -/
def statusOfUninitialized (queries : List ReportGenerationQuery) :
    GenerationQueryDependenciesStatus :=
  { UninitializedReportGenerationQueries := queries
    InitializedReportGenerationQueries := []
    InitializedDynamicReportGenerationQueries := []
    UninitializedReports := []
    InitializedReports := []
    UninitializedScheduledReports := []
    InitializedScheduledReports := []
    UninitializedReportDataSources := []
    InitializedReportDataSources := [] }

/-- A query of namespace `ns` without references, with the given name, view
name and "view disabled" flag. -/
def viewQuery (name viewName : String) (disabled : Bool) : ReportGenerationQuery :=
  { Name := name, Namespace := "ns", ViewName := viewName,
    Spec := { ReportQueries := [], DynamicReportQueries := [], DataSources := [],
              Reports := [], ScheduledReports := [], View := { Disabled := disabled } } }

/-- A status in which every dependency is initialized. -/
def statusAllInitialized : GenerationQueryDependenciesStatus :=
  { UninitializedReportGenerationQueries := []
    InitializedReportGenerationQueries := [viewQuery "A" "v_a" false]
    InitializedDynamicReportGenerationQueries := [viewQuery "Z" "" true]
    UninitializedReports := []
    InitializedReports := [⟨"r", "ns", ⟨"t_r"⟩⟩]
    UninitializedScheduledReports := []
    InitializedScheduledReports := [⟨"sr", "ns", ⟨"t_sr"⟩⟩]
    UninitializedReportDataSources := []
    InitializedReportDataSources := [⟨"d", "ns", "t_d"⟩] }

/-- A root query `R` with one ordinary dependency `A` and one data source
`D`. -/
def exampleRoot : ReportGenerationQuery :=
  { Name := "R", Namespace := "ns", ViewName := "",
    Spec := { ReportQueries := ["A"], DynamicReportQueries := [], DataSources := ["D"],
              Reports := [], ScheduledReports := [], View := { Disabled := false } } }

/-- A query getter that knows the materialised query `A` only. -/
def exampleQueryGet (namespace_ name : String) : Except Error ReportGenerationQuery :=
  if namespace_ = "ns" ∧ name = "A" then .ok (viewQuery "A" "v_a" false)
  else .error ⟨"NotFound"⟩

/-- A data source getter that knows the data source `D`, which has no table,
only. -/
def exampleDataSourceGet (namespace_ name : String) : Except Error ReportDataSource :=
  if name = "D" then .ok ⟨"D", namespace_, ""⟩ else .error ⟨"NotFound"⟩

/-- The status of the dependencies of `exampleRoot`. -/
def exampleStatus : GenerationQueryDependenciesStatus :=
  { UninitializedReportGenerationQueries := []
    InitializedReportGenerationQueries := [viewQuery "A" "v_a" false]
    InitializedDynamicReportGenerationQueries := []
    UninitializedReports := []
    InitializedReports := []
    UninitializedScheduledReports := []
    InitializedScheduledReports := []
    UninitializedReportDataSources := [⟨"D", "ns", ""⟩]
    InitializedReportDataSources := [] }

/-- The maps a traversal with a pure getter builds in the namespace `ns`: the
entries are added one new key at a time, each key holds the query the getter
returns for it, and every name that query lists is a key added before. -/
inductive TopoAcc (get : String → String → Except Error ReportGenerationQuery) (ns : String)
    (dynamicQueries : Bool) : Accumulator → Prop where
  | nil : TopoAcc get ns dynamicQueries []
  | snoc {acc : Accumulator} {key : String} {value : ReportGenerationQuery} :
      TopoAcc get ns dynamicQueries acc → key ∉ acc.keys → get ns key = .ok value →
      (∀ c, c ∈ selectQueries value dynamicQueries → c ∈ acc.keys) →
      TopoAcc get ns dynamicQueries (acc ++ [(key, value)])

/-- A cycle of references is reachable from the root: some query that is the
root or is reachable from it reaches itself through one or more references. -/
def CycleReachable (get : String → String → Except Error ReportGenerationQuery)
    (dynamicQueries : Bool) (root : ReportGenerationQuery) : Prop :=
  ∃ x, (x = root ∨ Reachable get dynamicQueries root x) ∧ Reachable get dynamicQueries x x

/-- The getter of the diamond `R → A, B`, `A → C`, `B → C`. -/
def diamondGet (namespace_ name : String) : Except Error ReportGenerationQuery :=
  if namespace_ = "ns" ∧ name = "A" then .ok (leafQuery "A" ["C"])
  else if namespace_ = "ns" ∧ name = "B" then .ok (leafQuery "B" ["C"])
  else if namespace_ = "ns" ∧ name = "C" then .ok (leafQuery "C" [])
  else .error ⟨"NotFound"⟩

/-- What the resolved bundle `b` of the root must hold: only ready resources in
its four non-dynamic lists, as queries exactly the queries reachable from the
root through ordinary references, and as data sources, reports and scheduled
reports the resources the getters return for the names the root lists, in
list order. -/
def ResolvedBundleContract (queryGet : String → String → Except Error ReportGenerationQuery)
    (dataSourceGet_ : String → String → Except Error ReportDataSource)
    (reportGet : String → String → Except Error Report)
    (scheduledReportGet : String → String → Except Error ScheduledReport)
    (root : ReportGenerationQuery) (b : ReportGenerationQueryDependencies) : Prop :=
  (∀ q, q ∈ b.ReportGenerationQueries → q.ViewName ≠ "") ∧
  (∀ d, d ∈ b.ReportDataSources → d.TableName ≠ "") ∧
  (∀ r, r ∈ b.Reports → r.Status.TableName ≠ "") ∧
  (∀ r, r ∈ b.ScheduledReports → r.Status.TableName ≠ "") ∧
  (∀ q, q ∈ b.ReportGenerationQueries ↔ Reachable queryGet false root q) ∧
  b.ReportDataSources.map Except.ok = root.Spec.DataSources.map (dataSourceGet_ root.Namespace) ∧
  b.Reports.map Except.ok = root.Spec.Reports.map (reportGet root.Namespace) ∧
  b.ScheduledReports.map Except.ok =
    root.Spec.ScheduledReports.map (scheduledReportGet root.Namespace)

/-- A data source getter that knows the data source `D`, which has the table
`t_d`, only. -/
def readyDataSourceGet (namespace_ name : String) : Except Error ReportDataSource :=
  if name = "D" then .ok ⟨"D", namespace_, "t_d"⟩ else .error ⟨"NotFound"⟩

/-- The status of the dependencies of `exampleRoot` when `D` has a table. -/
def readyStatus : GenerationQueryDependenciesStatus :=
  { UninitializedReportGenerationQueries := []
    InitializedReportGenerationQueries := [viewQuery "A" "v_a" false]
    InitializedDynamicReportGenerationQueries := []
    UninitializedReports := []
    InitializedReports := []
    UninitializedScheduledReports := []
    InitializedScheduledReports := []
    UninitializedReportDataSources := []
    InitializedReportDataSources := [⟨"D", "ns", "t_d"⟩] }

/-- The resolved bundle of `exampleRoot` when `D` has a table. -/
def readyBundle : ReportGenerationQueryDependencies :=
  { ReportGenerationQueries := [viewQuery "A" "v_a" false]
    DynamicReportGenerationQueries := []
    ReportDataSources := [⟨"D", "ns", "t_d"⟩]
    Reports := []
    ScheduledReports := [] }

/-- A getter that is not name-faithful: it answers the name `x` with a query
named `m`, and knows no other name. -/
def aliasGet (_namespace name : String) : Except Error ReportGenerationQuery :=
  if name = "x" then .ok (leafQuery "m" []) else .error ⟨"NotFound"⟩

/-- A getter that knows every name but `missing`: it answers with a query of
that name without references. -/
def missingGet (_namespace name : String) : Except Error ReportGenerationQuery :=
  if name = "missing" then .error ⟨"NotFound"⟩ else .ok (leafQuery name [])

/-- The five violation categories of a status in the fixed order of the error
message (view-disabled queries, uninitialized data sources, uninitialized
queries, uninitialized reports, uninitialized scheduled reports), each with
its label and the names of its resources in the order of the list they come
from. -/
def validationCategories (depsStatus : GenerationQueryDependenciesStatus) :
    List (String × List String) :=
  [("invalid ReportGenerationQuery, references ReportGenerationQueries with spec.view.disabled=true: ",
      (depsStatus.UninitializedReportGenerationQueries.filter
        (fun q => q.Spec.View.Disabled)).map ReportGenerationQuery.Name),
   ("ReportGenerationQuery has uninitialized ReportDataSource dependencies: ",
      depsStatus.UninitializedReportDataSources.map ReportDataSource.Name),
   ("ReportGenerationQuery has uninitialized ReportGenerationQuery dependencies: ",
      (depsStatus.UninitializedReportGenerationQueries.filter
        (fun q => !q.Spec.View.Disabled && q.ViewName == "")).map ReportGenerationQuery.Name),
   ("ReportGenerationQuery has uninitialized Report dependencies: ",
      depsStatus.UninitializedReports.map Report.Name),
   ("ReportGenerationQuery has uninitialized ScheduledReport dependencies: ",
      depsStatus.UninitializedScheduledReports.map ScheduledReport.Name)]

/-- The texts of the non-empty categories: the label followed by the names
joined by a comma and a blank. An empty category contributes nothing. -/
def categoryMessages (categories : List (String × List String)) : List String :=
  (categories.filter (fun c => !c.2.isEmpty)).map (fun c => c.1 ++ strings.Join c.2 ", ")

/-- The validation message as the specification words it: the fixed opening
followed by the texts of the non-empty categories joined by a comma and a
blank. -/
def validationMessage (categories : List (String × List String)) : String :=
  "ReportGenerationQuery dependency validation error: " ++
    strings.Join (categoryMessages categories) ", "

/-- A root query `R` whose only dependency is the dynamic dependency `Z`. -/
def dynamicRoot : ReportGenerationQuery :=
  { Name := "R", Namespace := "ns", ViewName := "",
    Spec := { ReportQueries := [], DynamicReportQueries := ["Z"], DataSources := [],
              Reports := [], ScheduledReports := [], View := { Disabled := false } } }

/-- A query getter that knows the query `Z` only, which has no view name and a
disabled view. -/
def dynamicQueryGet (namespace_ name : String) : Except Error ReportGenerationQuery :=
  if namespace_ = "ns" ∧ name = "Z" then .ok (viewQuery "Z" "" true)
  else .error ⟨"NotFound"⟩

/-- A query getter that knows the query `A` only, which has the view name
`v_a` and a disabled view. -/
def disabledQueryGet (namespace_ name : String) : Except Error ReportGenerationQuery :=
  if namespace_ = "ns" ∧ name = "A" then .ok (viewQuery "A" "v_a" true)
  else .error ⟨"NotFound"⟩

/-- A map is well-keyed when its keys are pairwise distinct and every entry is
stored under the `Name` of the query it holds. -/
def WellKeyed (acc : Accumulator) : Prop :=
  acc.keys.Nodup ∧ ∀ e, e ∈ acc → e.2.Name = e.1

/-- The map a traversal builds on a simple chain `d 0 → d 1 → …`: the entries
of `d (i + k)` down to `d (i + 1)`, the deepest first. -/
def chainAcc (d : Nat → ReportGenerationQuery) (i : Nat) : Nat → Accumulator
  | 0 => []
  | k + 1 => chainAcc d (i + 1) k ++ [((d (i + 1)).Name, d (i + 1))]

/-- The name of the query at position `i` of the example chain: `i` letters. -/
def chainName (i : Nat) : String := String.mk (List.replicate i 'd')

/-- The query at position `i` of the example chain of `n` dependencies. -/
def chainNode (n i : Nat) : ReportGenerationQuery :=
  leafQuery (chainName i) (if i < n then [chainName (i + 1)] else [])

/-- The getter of the example chain of `n` dependencies: a name of `i` letters
resolves to the query at position `i`. -/
def chainGet (n : Nat) (namespace_ name : String) : Except Error ReportGenerationQuery :=
  if namespace_ = "ns" then .ok (chainNode n name.length) else .error ⟨"NotFound"⟩

/-- A query of namespace `ns` with the given ordinary and dynamic reference
lists. -/
def refQuery (name : String) (queries dynamicQueries : List String) : ReportGenerationQuery :=
  { Name := name, Namespace := "ns", ViewName := "",
    Spec := { ReportQueries := queries, DynamicReportQueries := dynamicQueries,
              DataSources := [], Reports := [], ScheduledReports := [],
              View := { Disabled := false } } }

/-- A getter that knows `A`, which lists `B` as an ordinary dependency, and
`B`, which lists nothing. -/
def overlapGet (namespace_ name : String) : Except Error ReportGenerationQuery :=
  if namespace_ = "ns" ∧ name = "A" then .ok (refQuery "A" ["B"] [])
  else if namespace_ = "ns" ∧ name = "B" then .ok (refQuery "B" [] [])
  else .error ⟨"NotFound"⟩

/-- Two queries agree on what a traversal of the class `dynamicQueries` reads
of a query: the name, the namespace and the reference list of that class. -/
def Similar (dynamicQueries : Bool) (q1 q2 : ReportGenerationQuery) : Prop :=
  q1.Name = q2.Name ∧ q1.Namespace = q2.Namespace ∧
    selectQueries q1 dynamicQueries = selectQueries q2 dynamicQueries

/-- Two getters agree for the class `dynamicQueries`: called on the same
namespace and name in the same state, they leave the same state, and both
fail or both return queries that agree. -/
def GettersAgree {σ : Type} (dynamicQueries : Bool) (g1 g2 : reportGenerationQueryGetter σ) :
    Prop :=
  ∀ ns name s, (g1 ns name s).2 = (g2 ns name s).2 ∧
    ((∃ e1 e2, (g1 ns name s).1 = .error e1 ∧ (g2 ns name s).1 = .error e2) ∨
     (∃ q1 q2, (g1 ns name s).1 = .ok q1 ∧ (g2 ns name s).1 = .ok q2 ∧
        Similar dynamicQueries q1 q2))

/-- Two worlds, each a root and a pure getter, agree for the class
`dynamicQueries`: the roots agree, and on every namespace and name both
getters fail or both return queries that agree. The reference lists of the
other class are left free. -/
def WorldsAgree (dynamicQueries : Bool)
    (get1 get2 : String → String → Except Error ReportGenerationQuery)
    (root1 root2 : ReportGenerationQuery) : Prop :=
  Similar dynamicQueries root1 root2 ∧
  ∀ ns name, (∃ e1 e2, get1 ns name = .error e1 ∧ get2 ns name = .error e2) ∨
    (∃ q1 q2, get1 ns name = .ok q1 ∧ get2 ns name = .ok q2 ∧ Similar dynamicQueries q1 q2)

/-- Two runs have the same outcome: they leave the same state, and both fail
or both succeed with results related by `same`. -/
def SameOutcome {σ α : Type} (same : α → α → Prop) (o1 o2 : Except Error α × σ) : Prop :=
  o1.2 = o2.2 ∧
    ((∃ e1 e2, o1.1 = .error e1 ∧ o2.1 = .error e2) ∨
     (∃ a1 a2, o1.1 = .ok a1 ∧ o2.1 = .ok a2 ∧ same a1 a2))

/-- Two lists of queries hold the same set of names. -/
def SameNames (r1 r2 : List ReportGenerationQuery) : Prop :=
  ∀ name, name ∈ r1.map ReportGenerationQuery.Name ↔ name ∈ r2.map ReportGenerationQuery.Name

/-- Two maps have the same keys. -/
def SameKeys (a1 a2 : Accumulator) : Prop := a1.keys = a2.keys

/-- The getter of a world in which the dynamic dependency `Z` lists the
ordinary dependency `O`. -/
def worldGet1 (namespace_ name : String) : Except Error ReportGenerationQuery :=
  if namespace_ = "ns" ∧ name = "Z" then .ok (refQuery "Z" ["O"] [])
  else if namespace_ = "ns" ∧ name = "O" then .ok (refQuery "O" [] [])
  else .error ⟨"NotFound"⟩

/-- The getter of a world in which the dynamic dependency `Z` lists no
ordinary dependency and `O` lists `Z`. -/
def worldGet2 (namespace_ name : String) : Except Error ReportGenerationQuery :=
  if namespace_ = "ns" ∧ name = "Z" then .ok (refQuery "Z" [] [])
  else if namespace_ = "ns" ∧ name = "O" then .ok (refQuery "O" ["Z"] [])
  else .error ⟨"NotFound"⟩

end reporting

/-! # Table provisioning

A shallow embedding of `pkg/hive/result.go`. The helpers `s3Location`,
`dropTable` and `createTable` and the type `Column` are declared in files of
package `hive` that are not part of the sources at hand; they are parameters
of the embedding. A `nil` map or slice argument is the empty list. -/

namespace hive

/-- Modelled from the spec: the interface `Queryer` is declared in a file of
package `hive` that is not part of the sources at hand; the functions here
call its method `Query(query string) error` only. The method may have effects:
it runs in a state of type `σ` and returns an error (`some`) or nil
(`none`). -/
abbrev Queryer (σ : Type) : Type := String → σ → Option reporting.Error × σ

/-- A queryer observed by the log of the queries it executed successfully: it
behaves as `queryer` on the first component of the state and appends every
query that returns no error to the second. -/
def recordingQueryer {σ : Type} (queryer : Queryer σ) : Queryer (σ × List String) :=
  fun query s =>
    match queryer query s.1 with
    | (none, s1) => (none, (s1, s.2 ++ [query]))
    | (some err, s1) => (some err, (s1, s.2))

/-- The function `CreateReportTable`. -/
def CreateReportTable {σ Column : Type}
    (s3Location : String → String → Except reporting.Error String)
    (dropTable : String → Bool → Bool → String)
    (createTable : String → String → String → String → List (String × String) → List Column →
      List Column → Bool → Bool → String)
    (queryer : Queryer σ) (tableName bucket prefix_ : String) (columns : List Column) (s : σ) :
    Option reporting.Error × σ :=
  match s3Location bucket prefix_ with
  | .error err => (some err, s)
  | .ok location =>
    match queryer (dropTable tableName true true) s with
    | (some err, s1) => (some err, s1)
    | (none, s1) =>
      queryer (createTable tableName location "" "" [] columns [] false false) s1

/-- The function `CreateLocalReportTable`. -/
def CreateLocalReportTable {σ Column : Type}
    (dropTable : String → Bool → Bool → String)
    (createTable : String → String → String → String → List (String × String) → List Column →
      List Column → Bool → Bool → String)
    (queryer : Queryer σ) (tableName : String) (columns : List Column) (s : σ) :
    Option reporting.Error × σ :=
  match queryer (dropTable tableName true true) s with
  | (some err, s1) => (some err, s1)
  | (none, s1) =>
    queryer (createTable tableName "" "" "" [] columns [] false true) s1

/-- What a drop-then-create sequence run with a logged queryer from the state
`s` and an empty log does, where `r` is what it returned: when no error is
returned, the log holds the drop query followed by the create query; when an
error is returned, either it is the error of the drop query and the log is
empty, or the drop query was executed, the error is that of the create query,
and the log holds the drop query only. -/
def DropThenCreate {σ : Type} (queryer : Queryer σ) (dropQuery createQuery : String) (s : σ)
    (r : Option reporting.Error × (σ × List String)) : Prop :=
  (r.1 = none → r.2.2 = [dropQuery, createQuery]) ∧
  (∀ err, r.1 = some err →
    (r.2.2 = [] ∧ (queryer dropQuery s).1 = some err) ∨
    (r.2.2 = [dropQuery] ∧ (queryer dropQuery s).1 = none ∧
      (queryer createQuery (queryer dropQuery s).2).1 = some err))

/-- A stand-in for `s3Location`. -/
def exampleLocation (bucket prefix_ : String) : Except reporting.Error String :=
  .ok ("s3a://" ++ bucket ++ "/" ++ prefix_)

/-- A stand-in for `dropTable`. -/
def exampleDropTable (tableName : String) (_ignoreNotExists _purge : Bool) : String :=
  "DROP TABLE " ++ tableName

/-- A stand-in for `createTable`. -/
def exampleCreateTable (tableName location _serdeFmt _format : String)
    (_serdeProps : List (String × String)) (_columns _partitions : List String)
    (_external _ignoreExists : Bool) : String :=
  "CREATE TABLE " ++ tableName ++ " LOCATION " ++ location

/-- A queryer that executes the first query it is given and fails on every
later one; its state counts the queries it was given. -/
def failAfterFirst : Queryer Nat :=
  fun _ n => if n = 0 then (none, n + 1) else (some ⟨"query failed"⟩, n + 1)

/-- A queryer that executes every query. -/
def alwaysOk : Queryer Unit := fun _ s => (none, s)

end hive

namespace reporting

/-! ## Theorems -/

/-- The body of `GetDependentGenerationQueriesMemoized`: the depth check
followed by the loop over the selected reference list. -/
theorem memoized_eq {σ : Type} (queryGetter : reportGenerationQueryGetter σ)
    (generationQuery : ReportGenerationQuery) (depth maxDepth : Nat)
    (queriesAccumulator : Accumulator) (dynamicQueries : Bool) (s : σ) :
    GetDependentGenerationQueriesMemoized queryGetter generationQuery depth maxDepth
      queriesAccumulator dynamicQueries s =
    if depth ≥ maxDepth then (.error (cycleError depth generationQuery.Name), s)
    else rangeQueries (visitQuery queryGetter generationQuery.Namespace depth maxDepth dynamicQueries)
      (selectQueries generationQuery dynamicQueries) queriesAccumulator s := by
  rw [GetDependentGenerationQueriesMemoized]
  split
  · rfl
  · rfl

/-- The text of the cycle error at depth 100. -/
theorem cycleError_maxDepth (name : String) :
    cycleError 100 name = ⟨"detected a cycle at depth 100 for generationQuery " ++ name⟩ := by
  have h : (toString 100 : String) = "100" := by decide
  simp only [cycleError, h]
  congr 1

/-! ### Cycles of ordinary references -/

/-- On a pure cycle the call at depth `100 - m` on the node of position `i`
fails at depth 100, on the node `m` positions further along the cycle. -/
theorem cycle_memoized {σ : Type} (queryGetter : reportGenerationQueryGetter σ) (k : Nat)
    (n : Nat → ReportGenerationQuery) (ns : String) (hk : 1 ≤ k)
    (hns : ∀ i, i < k → (n i).Namespace = ns)
    (hrefs : ∀ i, i < k → (n i).Spec.ReportQueries = [(n ((i + 1) % k)).Name])
    (hget : ∀ i, i < k → ∀ s, (queryGetter ns (n i).Name s).1 = .ok (n i)) :
    ∀ (m depth i : Nat), depth + m = 100 → i < k → ∀ s : σ, ∃ s1,
      GetDependentGenerationQueriesMemoized queryGetter (n i) depth 100 [] false s =
        (.error (cycleError 100 (n ((i + m) % k)).Name), s1) := by
  intro m
  induction m with
  | zero =>
    intro depth i hd hi s
    have hd : depth = 100 := by omega
    subst hd
    refine ⟨s, ?_⟩
    rw [memoized_eq]
    simp [Nat.mod_eq_of_lt hi]
  | succ m ih =>
    intro depth i hd hi s
    have hlt : ¬ depth ≥ 100 := by omega
    have hj : (i + 1) % k < k := Nat.mod_lt _ (by omega)
    obtain ⟨s2, h2⟩ := ih (depth + 1) ((i + 1) % k) (by omega) hj
      (queryGetter ns (n ((i + 1) % k)).Name s).2
    refine ⟨s2, ?_⟩
    have hg := hget _ hj s
    rw [memoized_eq, if_neg hlt]
    simp only [selectQueries, hrefs i hi, rangeQueries, visitQuery, hns i hi]
    generalize queryGetter ns (n ((i + 1) % k)).Name s = r at hg h2
    obtain ⟨r1, r2⟩ := r
    simp only at hg h2
    subst hg
    have hmod : ((i + 1) % k + m) % k = (i + (m + 1)) % k := by
      rw [Nat.mod_add_mod]; congr 1; omega
    rw [hmod] at h2
    simp only [Accumulator.contains, List.any_nil, Bool.false_eq_true, if_false, h2]

/-- Claim C3. For every `k ≥ 1` and every pure cycle of `k` distinct queries
`n 0, …, n (k-1)` of one namespace, where the ordinary list of `n i` is exactly
the name of `n ((i+1) mod k)` and the getter returns `n i` for its name (in
whatever state it is called), `GetDependentViewGenerationQueries` on the root
`n 0` returns no result: it fails with the error whose message is
"detected a cycle at depth 100 for generationQuery " followed by the name of
`n (100 mod k)`, the node processed at depth 100. -/
theorem C3_cycle_fails_at_depth_100 {σ : Type} (queryGetter : reportGenerationQueryGetter σ)
    (k : Nat) (n : Nat → ReportGenerationQuery) (ns : String) (hk : 1 ≤ k)
    (_hdistinct : ∀ i j, i < k → j < k → n i = n j → i = j)
    (hns : ∀ i, i < k → (n i).Namespace = ns)
    (hrefs : ∀ i, i < k → (n i).Spec.ReportQueries = [(n ((i + 1) % k)).Name])
    (hget : ∀ i, i < k → ∀ s, (queryGetter ns (n i).Name s).1 = .ok (n i)) (s : σ) :
    ∃ s1, GetDependentViewGenerationQueries queryGetter (n 0) s =
      (.error ⟨"detected a cycle at depth 100 for generationQuery " ++ (n (100 % k)).Name⟩, s1) := by
  obtain ⟨s1, h⟩ := cycle_memoized queryGetter k n ns hk hns hrefs hget 100 0 0 (by omega)
    (by omega) s
  refine ⟨s1, ?_⟩
  have hmax : maxDepth = 100 := rfl
  rw [GetDependentViewGenerationQueries, hmax, h, Nat.zero_add, cycleError_maxDepth]

/-- Claim C3, witness: the cycle `A → B → C → A` with root `A` fails at depth
100 (not at depth 3), naming `B`. -/
theorem C3_cycle_fails_at_depth_100_witness :
    ∃ s1, GetDependentViewGenerationQueries (pureGetter cycle3Get) (leafQuery "A" ["B"]) () =
      (.error ⟨"detected a cycle at depth 100 for generationQuery B"⟩, s1) := by
  have h := C3_cycle_fails_at_depth_100 (pureGetter cycle3Get) 3 cycle3 "ns" (by decide)
    (by intro i j hi hj; interval_cases i <;> interval_cases j <;> simp [cycle3, leafQuery])
    (by intro i hi; interval_cases i <;> simp [cycle3, leafQuery])
    (by intro i hi; interval_cases i <;> simp [cycle3, leafQuery])
    (by intro i hi s; interval_cases i <;> simp [cycle3, leafQuery, pureGetter, cycle3Get]) ()
  simpa [cycle3, leafQuery] using h

/-! ### Flat dependency fetch -/

/-- The result of a logged getter is the result of the getter. -/
theorem recording_fst {σ α : Type} (getter : Getter σ α) (ns name : String) (s : σ)
    (log : List (String × String)) :
    (recording getter ns name (s, log)).1 = (getter ns name s).1 := rfl

/-- A logged getter leaves the state of the getter and the names it was called
on. -/
theorem stateAfter_recording {σ α : Type} (getter : Getter σ α) (ns : String) :
    ∀ (names : List String) (s : σ) (log : List (String × String)),
      stateAfter (recording getter) ns names (s, log) =
        (stateAfter getter ns names s, log ++ names.map (Prod.mk ns)) := by
  intro names
  induction names with
  | nil => intro s log; simp [stateAfter]
  | cons name names ih =>
    intro s log
    simp [stateAfter, recording, ih]

/-- A fetch whose first call fails returns the error of that call. -/
theorem rangeGet_cons_error {σ α : Type} (getter : Getter σ α) (ns name : String)
    (names : List String) (s : σ) (e : Error) (h : (getter ns name s).1 = .error e) :
    rangeGet getter ns (name :: names) s = (.error e, (getter ns name s).2) := by
  simp only [rangeGet]
  generalize getter ns name s = r at h ⊢
  obtain ⟨r1, r2⟩ := r
  simp only at h
  subst h
  rfl

/-- A fetch whose first call succeeds goes on with the other names. -/
theorem rangeGet_cons_ok {σ α : Type} (getter : Getter σ α) (ns name : String)
    (names : List String) (s : σ) (x : α) (h : (getter ns name s).1 = .ok x) :
    rangeGet getter ns (name :: names) s =
      match rangeGet getter ns names (getter ns name s).2 with
      | (.error err, s2) => (.error err, s2)
      | (.ok items, s2) => (.ok (x :: items), s2) := by
  simp only [rangeGet]
  generalize getter ns name s = r at h ⊢
  obtain ⟨r1, r2⟩ := r
  simp only at h
  subst h
  rfl

/-- A fetch all of whose calls succeed returns their results in order. -/
theorem rangeGet_ok {σ α : Type} (getter : Getter σ α) (ns : String) :
    ∀ (names : List String) (s : σ),
      (∀ i (h : i < names.length),
        ∃ x, (getter ns names[i] (stateAfter getter ns (names.take i) s)).1 = .ok x) →
      ∃ items, rangeGet getter ns names s = (.ok items, stateAfter getter ns names s) ∧
        items.length = names.length ∧
        ∀ i (h : i < names.length) (h1 : i < items.length),
          (getter ns names[i] (stateAfter getter ns (names.take i) s)).1 = .ok items[i] := by
  intro names
  induction names with
  | nil => intro s _; exact ⟨[], by simp [rangeGet, stateAfter]⟩
  | cons name names ih =>
    intro s hall
    obtain ⟨x, hx⟩ := hall 0 (by simp)
    simp only [List.getElem_cons_zero, List.take_zero, stateAfter] at hx
    obtain ⟨items, hrun, hlen, hitems⟩ := ih (getter ns name s).2 (by
      intro i hi
      have := hall (i + 1) (by simpa using hi)
      simpa [stateAfter] using this)
    refine ⟨x :: items, ?_, by simp [hlen], ?_⟩
    · rw [rangeGet_cons_ok getter ns name names s x hx, hrun]
      rfl
    · intro i hi hi1
      cases i with
      | zero => simpa [stateAfter] using hx
      | succ i =>
        have := hitems i (by simpa using hi) (by simpa using hi1)
        simpa [stateAfter] using this

/-- A fetch returns the error of the first call that fails and stops there. -/
theorem rangeGet_error {σ α : Type} (getter : Getter σ α) (ns : String) :
    ∀ (names : List String) (s : σ) (j : Nat) (hj : j < names.length) (e : Error),
      (∀ i (h : i < j),
        ∃ x, (getter ns names[i] (stateAfter getter ns (names.take i) s)).1 = .ok x) →
      (getter ns names[j] (stateAfter getter ns (names.take j) s)).1 = .error e →
      rangeGet getter ns names s = (.error e, stateAfter getter ns (names.take (j + 1)) s) := by
  intro names
  induction names with
  | nil => intro s j hj; simp at hj
  | cons name names ih =>
    intro s j hj e hbefore hfail
    cases j with
    | zero =>
      simp only [List.getElem_cons_zero, List.take_zero, stateAfter] at hfail
      rw [rangeGet_cons_error getter ns name names s e hfail]
      rfl
    | succ j =>
      obtain ⟨x, hx⟩ := hbefore 0 (by omega)
      simp only [List.getElem_cons_zero, List.take_zero, stateAfter] at hx
      have hrun := ih (getter ns name s).2 j (by simpa using hj) e (by
        intro i hi
        have := hbefore (i + 1) (by omega)
        simpa [stateAfter] using this) (by simpa [stateAfter] using hfail)
      rw [rangeGet_cons_ok getter ns name names s x hx, hrun]
      rfl

/-- The flat fetch loop meets its contract. -/
theorem rangeGet_contract {σ α : Type} (getter : Getter σ α) (ns : String) (names : List String)
    (s : σ) :
    FlatFetchContract getter ns names s (rangeGet (recording getter) ns names (s, [])) := by
  constructor
  · intro hall
    obtain ⟨items, hrun, hlen, hitems⟩ := rangeGet_ok (recording getter) ns names (s, []) (by
      intro i hi
      simpa [stateAfter_recording, recording_fst] using hall i hi)
    refine ⟨items, ?_, hlen, ?_⟩
    · simpa [stateAfter_recording] using hrun
    · intro i hi hi1
      simpa [stateAfter_recording, recording_fst] using hitems i hi hi1
  · intro j hj e hbefore hfail
    have hrun := rangeGet_error (recording getter) ns names (s, []) j hj e (by
      intro i hi
      simpa [stateAfter_recording, recording_fst] using hbefore i hi)
      (by simpa [stateAfter_recording, recording_fst] using hfail)
    simpa [stateAfter_recording] using hrun

/-- Claim C6. Each of `GetDependentDataSources`, `GetDependentReports` and
`GetDependentScheduledReports`, run with any getter (whose calls are logged)
on any query, meets the contract of a flat fetch of the query's name list
(`Spec.DataSources`, `Spec.Reports`, `Spec.ScheduledReports`) in the query's
namespace: if the getter succeeds on every name, the result is a list of the
same length whose `i`-th element is the getter's result for the `i`-th name
(a repeated name is fetched again and gives a repeated entry); otherwise no
list is returned but exactly the error of the first failing name, and the
getter is not called on any later name. -/
theorem C6_flat_fetch_in_list_order {σ : Type} (dataSourceGetter : reportDataSourceGetter σ)
    (reportGetter_ : reportGetter σ) (scheduledReportGetter_ : scheduledReportGetter σ)
    (generationQuery : ReportGenerationQuery) (s : σ) :
    FlatFetchContract dataSourceGetter generationQuery.Namespace generationQuery.Spec.DataSources s
      (GetDependentDataSources (recording dataSourceGetter) generationQuery (s, [])) ∧
    FlatFetchContract reportGetter_ generationQuery.Namespace generationQuery.Spec.Reports s
      (GetDependentReports (recording reportGetter_) generationQuery (s, [])) ∧
    FlatFetchContract scheduledReportGetter_ generationQuery.Namespace
      generationQuery.Spec.ScheduledReports s
      (GetDependentScheduledReports (recording scheduledReportGetter_) generationQuery (s, [])) :=
  ⟨rangeGet_contract _ _ _ _, rangeGet_contract _ _ _ _, rangeGet_contract _ _ _ _⟩

/-- Claim C6, witness: the list `d, d` is fetched as two entries by two calls,
and the list `d, missing, e` fails with the error of `missing` after two
calls. -/
theorem C6_flat_fetch_in_list_order_witness :
    (∃ items, GetDependentDataSources (recording (pureGetter dataSourceGet))
        (flatQuery ["d", "d"] [] []) ((), []) = (.ok items, ((), [("ns", "d"), ("ns", "d")])) ∧
      items.length = 2) ∧
    GetDependentDataSources (recording (pureGetter dataSourceGet))
        (flatQuery ["d", "missing", "e"] [] []) ((), []) =
      (.error ⟨"NotFound"⟩, ((), [("ns", "d"), ("ns", "missing")])) := by
  constructor
  · obtain ⟨items, h1, h2, _⟩ :=
      (C6_flat_fetch_in_list_order (pureGetter dataSourceGet) (pureGetter (fun _ _ => .error ⟨""⟩))
        (pureGetter (fun _ _ => .error ⟨""⟩)) (flatQuery ["d", "d"] [] []) ()).1.1 (by
          intro i hi
          simp [flatQuery] at hi
          interval_cases i <;> simp [flatQuery, pureGetter, dataSourceGet])
    exact ⟨items, h1, h2⟩
  · exact (C6_flat_fetch_in_list_order (pureGetter dataSourceGet)
        (pureGetter (fun _ _ => .error ⟨""⟩)) (pureGetter (fun _ _ => .error ⟨""⟩))
        (flatQuery ["d", "missing", "e"] [] []) ()).1.2 1 (by simp [flatQuery]) ⟨"NotFound"⟩
      (by
        intro i hi
        interval_cases i
        simp [flatQuery, pureGetter, dataSourceGet])
      (by simp [flatQuery, pureGetter, dataSourceGet])

/-! ### Partition and validation -/

/-- The partition loop computes the two filtered sub-sequences. -/
theorem rangePartition_eq {α : Type} (p : α → Bool) :
    ∀ (items u i : List α),
      rangePartition p items u i = (u ++ items.filter p, i ++ items.filter (fun x => !p x)) := by
  intro items
  induction items with
  | nil => intro u i; simp [rangePartition]
  | cons x items ih =>
    intro u i
    cases hx : p x <;> simp [rangePartition, hx, ih]

/-- The classification loop lists the names of the queries with a disabled view
and the names of the other queries with an empty view name. -/
theorem rangeClassify_eq :
    ∀ (queries : List ReportGenerationQuery) (d u : List String),
      rangeClassify queries d u =
        (d ++ (queries.filter (fun q => q.Spec.View.Disabled)).map ReportGenerationQuery.Name,
         u ++ (queries.filter (fun q => !q.Spec.View.Disabled && q.ViewName == "")).map
           ReportGenerationQuery.Name) := by
  intro queries
  induction queries with
  | nil => intro d u; simp [rangeClassify]
  | cons q queries ih =>
    intro d u
    cases hd : q.Spec.View.Disabled <;> cases hv : (q.ViewName == "") <;>
      simp [rangeClassify, hd, hv, ih]

/-- The name loop lists the names in order. -/
theorem rangeNames_eq {α : Type} (name : α → String) :
    ∀ (items : List α) (names : List String),
      rangeNames name items names = names ++ items.map name := by
  intro items
  induction items with
  | nil => intro names; simp [rangeNames]
  | cons x items ih => intro names; simp [rangeNames, ih]

/-- A category adds no message exactly when it is empty. -/
theorem appendCategory_eq_nil (errs : List String) (label : String) (names : List String) :
    appendCategory errs label names = [] ↔ errs = [] ∧ names = [] := by
  cases names <;> simp [appendCategory]

/-- No message is collected exactly when the five categories are empty. -/
theorem validationErrs_eq_nil (a b c d e : List String) :
    validationErrs a b c d e = [] ↔ a = [] ∧ b = [] ∧ c = [] ∧ d = [] ∧ e = [] := by
  simp only [validationErrs, appendCategory_eq_nil]
  tauto

/-- The decision of `ValidateGenerationQueryDependenciesStatus` in terms of the
five categories. -/
theorem validate_eq (st : GenerationQueryDependenciesStatus) :
    ValidateGenerationQueryDependenciesStatus st =
      if validationErrs
          ((st.UninitializedReportGenerationQueries.filter (fun q => q.Spec.View.Disabled)).map
            ReportGenerationQuery.Name)
          (st.UninitializedReportDataSources.map ReportDataSource.Name)
          ((st.UninitializedReportGenerationQueries.filter
            (fun q => !q.Spec.View.Disabled && q.ViewName == "")).map ReportGenerationQuery.Name)
          (st.UninitializedReports.map Report.Name)
          (st.UninitializedScheduledReports.map ScheduledReport.Name) = [] then
        .ok ⟨st.InitializedReportGenerationQueries, st.InitializedDynamicReportGenerationQueries,
          st.InitializedReportDataSources, st.InitializedReports, st.InitializedScheduledReports⟩
      else
        .error ⟨"ReportGenerationQuery dependency validation error: " ++ strings.Join
          (validationErrs
            ((st.UninitializedReportGenerationQueries.filter (fun q => q.Spec.View.Disabled)).map
              ReportGenerationQuery.Name)
            (st.UninitializedReportDataSources.map ReportDataSource.Name)
            ((st.UninitializedReportGenerationQueries.filter
              (fun q => !q.Spec.View.Disabled && q.ViewName == "")).map ReportGenerationQuery.Name)
            (st.UninitializedReports.map Report.Name)
            (st.UninitializedScheduledReports.map ScheduledReport.Name)) ", "⟩ := by
  simp only [ValidateGenerationQueryDependenciesStatus, rangeClassify_eq, rangeNames_eq,
    List.nil_append]
  split
  · rename_i h
    rw [if_neg]
    simpa using h
  · rename_i h
    rw [if_pos]
    simpa using h

/-- The statuses on which validation succeeds, and the bundle it returns. -/
theorem validate_ok_iff (st : GenerationQueryDependenciesStatus)
    (b : ReportGenerationQueryDependencies) :
    ValidateGenerationQueryDependenciesStatus st = .ok b ↔
      ((∀ q ∈ st.UninitializedReportGenerationQueries,
          q.Spec.View.Disabled = false ∧ q.ViewName ≠ "") ∧
        st.UninitializedReportDataSources = [] ∧ st.UninitializedReports = [] ∧
        st.UninitializedScheduledReports = []) ∧
      b = ⟨st.InitializedReportGenerationQueries, st.InitializedDynamicReportGenerationQueries,
        st.InitializedReportDataSources, st.InitializedReports, st.InitializedScheduledReports⟩ := by
  rw [validate_eq]
  simp only [validationErrs_eq_nil, List.map_eq_nil_iff, List.filter_eq_nil_iff]
  constructor
  · intro h
    split at h
    · rename_i hc
      obtain ⟨h1, h2, h3, h4, h5⟩ := hc
      refine ⟨⟨?_, h2, h4, h5⟩, ?_⟩
      · intro q hq
        have a1 := h1 q hq
        have a3 := h3 q hq
        cases hd : q.Spec.View.Disabled
        · refine ⟨rfl, ?_⟩
          intro hv
          simp [hd, hv] at a3
        · simp [hd] at a1
      · injection h with h
        exact h.symm
    · cases h
  · rintro ⟨⟨h1, h2, h4, h5⟩, rfl⟩
    rw [if_pos]
    refine ⟨?_, h2, ?_, h4, h5⟩
    · intro q hq
      simp [(h1 q hq).1]
    · intro q hq
      simp [(h1 q hq).1, (h1 q hq).2]

/-- The successful runs of `GetGenerationQueryDependenciesStatus`: the four
fetches succeed one after the other, and the status holds their results split
by the readiness attribute. -/
theorem status_ok {σ : Type} (queryGetter : reportGenerationQueryGetter σ)
    (dataSourceGetter : reportDataSourceGetter σ) (reportGetter_ : reportGetter σ)
    (scheduledReportGetter_ : scheduledReportGetter σ) (generationQuery : ReportGenerationQuery)
    (s s4 : σ) (st : GenerationQueryDependenciesStatus)
    (h : GetGenerationQueryDependenciesStatus queryGetter dataSourceGetter reportGetter_
      scheduledReportGetter_ generationQuery s = (.ok st, s4)) :
    ∃ deps dataSources reports scheduledReports s1 s2 s3,
      GetDependentGenerationQueries queryGetter generationQuery s = (.ok deps, s1) ∧
      GetDependentDataSources dataSourceGetter generationQuery s1 = (.ok dataSources, s2) ∧
      GetDependentReports reportGetter_ generationQuery s2 = (.ok reports, s3) ∧
      GetDependentScheduledReports scheduledReportGetter_ generationQuery s3 =
        (.ok scheduledReports, s4) ∧
      st =
        { UninitializedReportGenerationQueries :=
            deps.ViewReportGenerationQueries.filter (fun q => q.ViewName == "")
          InitializedReportGenerationQueries :=
            deps.ViewReportGenerationQueries.filter (fun q => !(q.ViewName == ""))
          InitializedDynamicReportGenerationQueries := deps.DynamicReportGenerationQueries
          UninitializedReportDataSources := dataSources.filter (fun d => d.TableName == "")
          InitializedReportDataSources := dataSources.filter (fun d => !(d.TableName == ""))
          UninitializedReports := reports.filter (fun r => r.Status.TableName == "")
          InitializedReports := reports.filter (fun r => !(r.Status.TableName == ""))
          UninitializedScheduledReports :=
            scheduledReports.filter (fun r => r.Status.TableName == "")
          InitializedScheduledReports :=
            scheduledReports.filter (fun r => !(r.Status.TableName == "")) } := by
  simp only [GetGenerationQueryDependenciesStatus, rangePartition_eq, List.nil_append] at h
  split at h
  · cases h
  · rename_i deps s1 h1
    split at h
    · cases h
    · rename_i dataSources s2 h2
      split at h
      · cases h
      · rename_i reports s3 h3
        split at h
        · cases h
        · rename_i scheduledReports s4 h4
          simp only [Prod.mk.injEq, Except.ok.injEq] at h
          obtain ⟨h, rfl⟩ := h
          exact ⟨deps, dataSources, reports, scheduledReports, s1, s2, s3, h1, h2, h3, h4, h.symm⟩

/-- Filtering by a test and by its negation splits a list. -/
theorem splitByReadiness_filter {α : Type} (p : α → Bool) (fetched : List α) :
    SplitByReadiness p fetched (fetched.filter (fun x => !p x)) (fetched.filter p) := by
  refine ⟨rfl, rfl, ?_⟩
  intro x
  simp only [List.mem_filter]
  cases p x <;> simp

/-- Claim C7. Whenever `GetGenerationQueryDependenciesStatus` succeeds, its
four fetches have succeeded one after the other, and for each of the four
kinds the fetched nodes are split by the readiness test alone: the initialized
list is the sub-sequence of the fetched nodes whose readiness attribute
(`ViewName` for ordinary queries, `TableName` for data sources,
`Status.TableName` for reports and scheduled reports) is non-empty, the
uninitialized list is the sub-sequence of those whose attribute is empty, both
in the order of the fetched list; every fetched node is in exactly one of the
two lists and no other node is in either. -/
theorem C7_status_splits_by_readiness {σ : Type} (queryGetter : reportGenerationQueryGetter σ)
    (dataSourceGetter : reportDataSourceGetter σ) (reportGetter_ : reportGetter σ)
    (scheduledReportGetter_ : scheduledReportGetter σ) (generationQuery : ReportGenerationQuery)
    (s s4 : σ) (st : GenerationQueryDependenciesStatus)
    (h : GetGenerationQueryDependenciesStatus queryGetter dataSourceGetter reportGetter_
      scheduledReportGetter_ generationQuery s = (.ok st, s4)) :
    ∃ deps dataSources reports scheduledReports s1 s2 s3,
      GetDependentGenerationQueries queryGetter generationQuery s = (.ok deps, s1) ∧
      GetDependentDataSources dataSourceGetter generationQuery s1 = (.ok dataSources, s2) ∧
      GetDependentReports reportGetter_ generationQuery s2 = (.ok reports, s3) ∧
      GetDependentScheduledReports scheduledReportGetter_ generationQuery s3 =
        (.ok scheduledReports, s4) ∧
      SplitByReadiness (fun q => q.ViewName == "") deps.ViewReportGenerationQueries
        st.InitializedReportGenerationQueries st.UninitializedReportGenerationQueries ∧
      SplitByReadiness (fun d => d.TableName == "") dataSources
        st.InitializedReportDataSources st.UninitializedReportDataSources ∧
      SplitByReadiness (fun r => r.Status.TableName == "") reports
        st.InitializedReports st.UninitializedReports ∧
      SplitByReadiness (fun r => r.Status.TableName == "") scheduledReports
        st.InitializedScheduledReports st.UninitializedScheduledReports := by
  obtain ⟨deps, dataSources, reports, scheduledReports, s1, s2, s3, h1, h2, h3, h4, rfl⟩ :=
    status_ok queryGetter dataSourceGetter reportGetter_ scheduledReportGetter_ generationQuery
      s s4 st h
  exact ⟨deps, dataSources, reports, scheduledReports, s1, s2, s3, h1, h2, h3, h4,
    splitByReadiness_filter _ _, splitByReadiness_filter _ _, splitByReadiness_filter _ _,
    splitByReadiness_filter _ _⟩

/-- The run of `GetGenerationQueryDependenciesStatus` on `exampleRoot`. -/
theorem exampleStatus_run :
    GetGenerationQueryDependenciesStatus (pureGetter exampleQueryGet)
      (pureGetter exampleDataSourceGet) (pureGetter (fun _ _ => .error ⟨"NotFound"⟩))
      (pureGetter (fun _ _ => .error ⟨"NotFound"⟩)) exampleRoot () = (.ok exampleStatus, ()) := by
  simp [GetGenerationQueryDependenciesStatus, GetDependentGenerationQueries,
    GetDependentViewGenerationQueries, GetDependentDynamicGenerationQueries,
    GetDependentDataSources, GetDependentReports, GetDependentScheduledReports, memoized_eq,
    rangeQueries, visitQuery, rangeGet, rangePartition, selectQueries, pureGetter, exampleRoot,
    exampleQueryGet, exampleDataSourceGet, exampleStatus, viewQuery, Accumulator.contains,
    Accumulator.insert, Accumulator.values, reporting.maxDepth]

/-- Claim C7, witness: for the root `R` with the materialised dependency `A`
and the data source `D` without a table, the status lists `A` as initialized
and `D` as uninitialized. -/
theorem C7_status_splits_by_readiness_witness :
    ∃ deps dataSources reports scheduledReports s1 s2 s3,
      GetDependentGenerationQueries (pureGetter exampleQueryGet) exampleRoot () = (.ok deps, s1) ∧
      GetDependentDataSources (pureGetter exampleDataSourceGet) exampleRoot s1 =
        (.ok dataSources, s2) ∧
      GetDependentReports (pureGetter (fun _ _ => .error ⟨"NotFound"⟩)) exampleRoot s2 =
        (.ok reports, s3) ∧
      GetDependentScheduledReports (pureGetter (fun _ _ => .error ⟨"NotFound"⟩)) exampleRoot s3 =
        (.ok scheduledReports, ()) ∧
      SplitByReadiness (fun q => q.ViewName == "") deps.ViewReportGenerationQueries
        [viewQuery "A" "v_a" false] [] ∧
      SplitByReadiness (fun d => d.TableName == "") dataSources [] [⟨"D", "ns", ""⟩] ∧
      SplitByReadiness (fun r => r.Status.TableName == "") reports [] [] ∧
      SplitByReadiness (fun r => r.Status.TableName == "") scheduledReports [] [] :=
  C7_status_splits_by_readiness _ _ _ _ exampleRoot () () exampleStatus exampleStatus_run

/-- Claim C8, counterexample: a status whose only uninitialized query has a
view name and an enabled view has a non-empty uninitialized list, yet
validation succeeds, against the claimed equivalence. -/
theorem C8_counterexample :
    ¬ ((∃ e, ValidateGenerationQueryDependenciesStatus
          (statusOfUninitialized [viewQuery "q" "v" false]) = .error e) ↔
        ((statusOfUninitialized [viewQuery "q" "v" false]).UninitializedReportGenerationQueries ≠ []
          ∨ (statusOfUninitialized [viewQuery "q" "v" false]).UninitializedReportDataSources ≠ []
          ∨ (statusOfUninitialized [viewQuery "q" "v" false]).UninitializedReports ≠ []
          ∨ (statusOfUninitialized [viewQuery "q" "v" false]).UninitializedScheduledReports ≠ []))
    := by
  intro h
  obtain ⟨e, he⟩ := h.mpr (Or.inl (by simp [statusOfUninitialized]))
  have hok : ValidateGenerationQueryDependenciesStatus
      (statusOfUninitialized [viewQuery "q" "v" false]) = .ok ⟨[], [], [], [], []⟩ := by
    rw [validate_ok_iff]
    simp [statusOfUninitialized, viewQuery]
  rw [hok] at he
  cases he

/-- Claim C8, amended. For every status value,
`ValidateGenerationQueryDependenciesStatus` returns an error if and only if
some uninitialized query has its view disabled or an empty `ViewName`, or one
of the lists of uninitialized data sources, reports and scheduled reports is
non-empty. Hence, for every status whose uninitialized queries all have a
disabled view or an empty `ViewName`, it returns an error if and only if at
least one of the four uninitialized lists is non-empty. -/
theorem C8_validation_fails_iff_violation (st : GenerationQueryDependenciesStatus) :
    ((∃ e, ValidateGenerationQueryDependenciesStatus st = .error e) ↔
      ((∃ q ∈ st.UninitializedReportGenerationQueries,
          q.Spec.View.Disabled = true ∨ q.ViewName = "") ∨
        st.UninitializedReportDataSources ≠ [] ∨ st.UninitializedReports ≠ [] ∨
        st.UninitializedScheduledReports ≠ [])) ∧
    ((∀ q ∈ st.UninitializedReportGenerationQueries,
        q.Spec.View.Disabled = true ∨ q.ViewName = "") →
      ((∃ e, ValidateGenerationQueryDependenciesStatus st = .error e) ↔
        (st.UninitializedReportGenerationQueries ≠ [] ∨
          st.UninitializedReportDataSources ≠ [] ∨ st.UninitializedReports ≠ [] ∨
          st.UninitializedScheduledReports ≠ []))) := by
  have key : (∃ e, ValidateGenerationQueryDependenciesStatus st = .error e) ↔
      ((∃ q ∈ st.UninitializedReportGenerationQueries,
          q.Spec.View.Disabled = true ∨ q.ViewName = "") ∨
        st.UninitializedReportDataSources ≠ [] ∨ st.UninitializedReports ≠ [] ∨
        st.UninitializedScheduledReports ≠ []) := by
    constructor
    · rintro ⟨e, he⟩
      by_contra hno
      push_neg at hno
      obtain ⟨h1, h2, h3, h4⟩ := hno
      have hok := (validate_ok_iff st _).mpr ⟨⟨fun q hq => ⟨by simpa using (h1 q hq).1, (h1 q hq).2⟩,
        h2, h3, h4⟩, rfl⟩
      rw [hok] at he
      cases he
    · intro hv
      cases hres : ValidateGenerationQueryDependenciesStatus st with
      | error e => exact ⟨e, rfl⟩
      | ok b =>
        exfalso
        obtain ⟨⟨h1, h2, h3, h4⟩, _⟩ := (validate_ok_iff st b).mp hres
        rcases hv with ⟨q, hq, hd | hv⟩ | hv | hv | hv
        · simp [(h1 q hq).1] at hd
        · exact (h1 q hq).2 hv
        · exact hv h2
        · exact hv h3
        · exact hv h4
  refine ⟨key, fun hall => key.trans ?_⟩
  constructor
  · rintro (⟨q, hq, _⟩ | h)
    · exact Or.inl (List.ne_nil_of_mem hq)
    · exact Or.inr h
  · rintro (h | h)
    · obtain ⟨q, hq⟩ := List.exists_mem_of_ne_nil _ h
      exact Or.inl ⟨q, hq, hall q hq⟩
    · exact Or.inr h

/-- Claim C8, witness: a status whose only uninitialized query has an empty
view name fails validation. -/
theorem C8_validation_fails_iff_violation_witness :
    (∀ q ∈ (statusOfUninitialized [viewQuery "q" "" false]).UninitializedReportGenerationQueries,
      q.Spec.View.Disabled = true ∨ q.ViewName = "") ∧
    ∃ e, ValidateGenerationQueryDependenciesStatus
      (statusOfUninitialized [viewQuery "q" "" false]) = .error e :=
  ⟨by simp [statusOfUninitialized, viewQuery],
   ((C8_validation_fails_iff_violation (statusOfUninitialized [viewQuery "q" "" false])).2
      (by simp [statusOfUninitialized, viewQuery])).mpr
      (Or.inl (by simp [statusOfUninitialized]))⟩

/-- Claim C9, counterexample: of two uninitialized queries named `x` with an
empty view name, the first has its view disabled, and yet its name is listed
in the uninitialized-query category as well, because of the second. -/
theorem C9_counterexample :
    viewQuery "x" "" true ∈ (statusOfUninitialized
        [viewQuery "x" "" true, viewQuery "x" "" false]).UninitializedReportGenerationQueries ∧
    (viewQuery "x" "" true).ViewName = "" ∧
    (viewQuery "x" "" true).Spec.View.Disabled = true ∧
    (viewQuery "x" "" true).Name ∈ uninitializedQueries
      (statusOfUninitialized [viewQuery "x" "" true, viewQuery "x" "" false]) := by
  simp [statusOfUninitialized, viewQuery, uninitializedQueries, rangeClassify]

/-- Claim C9, amended. In `ValidateGenerationQueryDependenciesStatus` the
view-disabled category lists the names of the uninitialized queries whose view
is disabled, the uninitialized-query category lists the names of those whose
view is enabled and whose `ViewName` is empty, and no node is placed in both
buckets. When no two distinct nodes of the uninitialized list have the same
name, then for every node of the list with an empty `ViewName`: if its view is
disabled its name is listed in the view-disabled category and not in the
uninitialized-query category, and if its view is enabled its name is listed in
the uninitialized-query category and not in the view-disabled category. -/
theorem C9_view_disabled_or_uninitialized (st : GenerationQueryDependenciesStatus) :
    queriesViewDisabled st =
      (st.UninitializedReportGenerationQueries.filter (fun q => q.Spec.View.Disabled)).map
        ReportGenerationQuery.Name ∧
    uninitializedQueries st =
      (st.UninitializedReportGenerationQueries.filter
        (fun q => !q.Spec.View.Disabled && q.ViewName == "")).map ReportGenerationQuery.Name ∧
    (∀ q, ¬ (q ∈ st.UninitializedReportGenerationQueries.filter (fun q => q.Spec.View.Disabled) ∧
      q ∈ st.UninitializedReportGenerationQueries.filter
        (fun q => !q.Spec.View.Disabled && q.ViewName == ""))) ∧
    ((∀ q1 ∈ st.UninitializedReportGenerationQueries,
        ∀ q2 ∈ st.UninitializedReportGenerationQueries, q1.Name = q2.Name → q1 = q2) →
      ∀ q ∈ st.UninitializedReportGenerationQueries, q.ViewName = "" →
        (q.Spec.View.Disabled = true →
          q.Name ∈ queriesViewDisabled st ∧ q.Name ∉ uninitializedQueries st) ∧
        (q.Spec.View.Disabled = false →
          q.Name ∈ uninitializedQueries st ∧ q.Name ∉ queriesViewDisabled st)) := by
  have h1 : queriesViewDisabled st =
      (st.UninitializedReportGenerationQueries.filter (fun q => q.Spec.View.Disabled)).map
        ReportGenerationQuery.Name := by
    simp [queriesViewDisabled, rangeClassify_eq]
  have h2 : uninitializedQueries st =
      (st.UninitializedReportGenerationQueries.filter
        (fun q => !q.Spec.View.Disabled && q.ViewName == "")).map ReportGenerationQuery.Name := by
    simp [uninitializedQueries, rangeClassify_eq]
  refine ⟨h1, h2, ?_, ?_⟩
  · intro q
    simp only [List.mem_filter]
    rintro ⟨⟨_, hd⟩, ⟨_, hu⟩⟩
    simp [hd] at hu
  · intro huniq q hq hv
    rw [h1, h2]
    simp only [List.mem_map, List.mem_filter]
    constructor
    · intro hd
      refine ⟨⟨q, ⟨hq, hd⟩, rfl⟩, ?_⟩
      rintro ⟨q2, ⟨hq2, hu⟩, hname⟩
      have := huniq q2 hq2 q hq hname
      subst this
      simp [hd] at hu
    · intro hd
      refine ⟨⟨q, ⟨hq, by simp [hd, hv]⟩, rfl⟩, ?_⟩
      rintro ⟨q2, ⟨hq2, hu⟩, hname⟩
      have := huniq q2 hq2 q hq hname
      subst this
      simp [hd] at hu

/-- Claim C9, witness: of the uninitialized queries `x` (view disabled) and
`y` (view enabled), both without a view name, `x` is listed in the
view-disabled category only. -/
theorem C9_view_disabled_or_uninitialized_witness :
    (viewQuery "x" "" true).Name ∈ queriesViewDisabled
        (statusOfUninitialized [viewQuery "x" "" true, viewQuery "y" "" false]) ∧
    (viewQuery "x" "" true).Name ∉ uninitializedQueries
        (statusOfUninitialized [viewQuery "x" "" true, viewQuery "y" "" false]) :=
  ((C9_view_disabled_or_uninitialized
      (statusOfUninitialized [viewQuery "x" "" true, viewQuery "y" "" false])).2.2.2
    (by simp [statusOfUninitialized, viewQuery])
    (viewQuery "x" "" true) (by simp [statusOfUninitialized]) rfl).1 rfl

/-- Claim C10. For every status value on which
`ValidateGenerationQueryDependenciesStatus` succeeds, the five lists of the
returned bundle are the five initialized lists of the status, element for
element and in the same order; the dynamic list is carried through whatever
the `ViewName` or the "view disabled" flag of its elements. -/
theorem C10_bundle_carries_initialized_lists (st : GenerationQueryDependenciesStatus)
    (b : ReportGenerationQueryDependencies)
    (h : ValidateGenerationQueryDependenciesStatus st = .ok b) :
    b.ReportGenerationQueries = st.InitializedReportGenerationQueries ∧
    b.DynamicReportGenerationQueries = st.InitializedDynamicReportGenerationQueries ∧
    b.ReportDataSources = st.InitializedReportDataSources ∧
    b.Reports = st.InitializedReports ∧
    b.ScheduledReports = st.InitializedScheduledReports := by
  obtain ⟨_, rfl⟩ := (validate_ok_iff st b).mp h
  exact ⟨rfl, rfl, rfl, rfl, rfl⟩

/-- Claim C10, witness: a status without uninitialized dependencies, whose
dynamic query has an empty view name and a disabled view, validates to the
bundle of its initialized lists. -/
theorem C10_bundle_carries_initialized_lists_witness :
    ValidateGenerationQueryDependenciesStatus statusAllInitialized =
      .ok ⟨[viewQuery "A" "v_a" false], [viewQuery "Z" "" true], [⟨"d", "ns", "t_d"⟩],
        [⟨"r", "ns", ⟨"t_r"⟩⟩], [⟨"sr", "ns", ⟨"t_sr"⟩⟩]⟩ ∧
    (ReportGenerationQueryDependencies.mk [viewQuery "A" "v_a" false] [viewQuery "Z" "" true]
        [⟨"d", "ns", "t_d"⟩] [⟨"r", "ns", ⟨"t_r"⟩⟩]
        [⟨"sr", "ns", ⟨"t_sr"⟩⟩]).DynamicReportGenerationQueries =
      statusAllInitialized.InitializedDynamicReportGenerationQueries :=
  ⟨rfl, (C10_bundle_carries_initialized_lists statusAllInitialized _ rfl).2.1⟩

/-! ### The accumulator and the loop -/

/-- The membership test of the map is membership in its keys. -/
theorem contains_iff (m : Accumulator) (key : String) :
    m.contains key = true ↔ key ∈ m.keys := by
  simp [Accumulator.contains, Accumulator.keys]

/-- Assigning a new key appends an entry. -/
theorem insert_of_not_mem (m : Accumulator) (key : String) (value : ReportGenerationQuery)
    (h : key ∉ m.keys) : m.insert key value = m ++ [(key, value)] := by
  induction m with
  | nil => rfl
  | cons e m ih =>
    simp only [Accumulator.keys, List.map_cons, List.mem_cons, not_or] at h
    have hne : (e.1 == key) = false := by
      simpa using fun h1 => h.1 h1.symm
    simp only [Accumulator.insert, hne, Bool.false_eq_true, if_false, List.cons_append]
    rw [ih h.2]

/-- Assigning to a key the value every entry of that key already holds leaves
the map as it is. -/
theorem insert_of_mem_same (m : Accumulator) (key : String) (value : ReportGenerationQuery)
    (hmem : key ∈ m.keys) (hsame : ∀ v, (key, v) ∈ m → v = value) : m.insert key value = m := by
  induction m with
  | nil => simp [Accumulator.keys] at hmem
  | cons e m ih =>
    obtain ⟨k, v⟩ := e
    by_cases hk : k = key
    · subst hk
      have := hsame v (by simp)
      subst this
      simp [Accumulator.insert]
    · have hne : (k == key) = false := by simpa using hk
      simp only [Accumulator.insert, hne, Bool.false_eq_true, if_false]
      rw [ih]
      · simpa [Accumulator.keys, Ne.symm hk] using hmem
      · intro v1 hv1
        exact hsame v1 (by simp [hv1])

/-- A loop that ends without error has run its first iteration without error
and then the rest of the loop. -/
theorem rangeQueries_cons_ok {σ : Type}
    (body : String → Accumulator → σ → Except Error Accumulator × σ) (c : String)
    (queries : List String) (acc acc1 : Accumulator) (s s1 : σ)
    (h : rangeQueries body (c :: queries) acc s = (.ok acc1, s1)) :
    ∃ acc0 s0, body c acc s = (.ok acc0, s0) ∧ rangeQueries body queries acc0 s0 = (.ok acc1, s1) := by
  simp only [rangeQueries] at h
  split at h
  · cases h
  · rename_i acc0 s0 hb
    exact ⟨acc0, s0, hb, h⟩

/-- An iteration that ends without error either skipped a name already in the
map, or fetched the name, traversed the fetched query one level deeper without
error, and stored the query under its own name. -/
theorem visitQuery_ok {σ : Type} (queryGetter : reportGenerationQueryGetter σ) (ns : String)
    (depth maxDepth : Nat) (dyn : Bool) (c : String) (acc acc1 : Accumulator) (s s1 : σ)
    (h : visitQuery queryGetter ns depth maxDepth dyn c acc s = (.ok acc1, s1)) :
    (acc.contains c = true ∧ acc1 = acc ∧ s1 = s) ∨
    (acc.contains c = false ∧ ∃ v acc2 sg, queryGetter ns c s = (.ok v, sg) ∧
      GetDependentGenerationQueriesMemoized queryGetter v (depth + 1) maxDepth acc dyn sg =
        (.ok acc2, s1) ∧ acc1 = acc2.insert v.Name v) := by
  simp only [visitQuery] at h
  split at h
  · rename_i hc
    simp only [Prod.mk.injEq, Except.ok.injEq] at h
    exact Or.inl ⟨hc, h.1.symm, h.2.symm⟩
  · rename_i hc
    right
    refine ⟨by simpa using hc, ?_⟩
    split at h
    · cases h
    · rename_i v sg hg
      split at h
      · cases h
      · rename_i acc2 s2 hm
        simp only [Prod.mk.injEq, Except.ok.injEq] at h
        obtain ⟨h1, rfl⟩ := h
        exact ⟨v, acc2, sg, hg, hm, h1.symm⟩

/-! ### Chains of references -/

/-- A chain extended by one reference at its end. -/
theorem Chain.snoc {get : String → String → Except Error ReportGenerationQuery} {dyn : Bool}
    {n : Nat} {a b c : ReportGenerationQuery} (h : Chain get dyn n a b)
    (hbc : refersTo get dyn b c) : Chain get dyn (n + 1) a c := by
  induction h with
  | refl q => exact Chain.step hbc (Chain.refl _)
  | step hab _ ih => exact Chain.step hab (ih hbc)

/-- What one reference reaches is reachable. -/
theorem Reachable.of_refersTo {get : String → String → Except Error ReportGenerationQuery}
    {dyn : Bool} {a b : ReportGenerationQuery} (h : refersTo get dyn a b) :
    Reachable get dyn a b := ⟨0, Chain.step h (Chain.refl _)⟩

/-- What is reachable from a dependency is reachable. -/
theorem Reachable.step {get : String → String → Except Error ReportGenerationQuery}
    {dyn : Bool} {a b c : ReportGenerationQuery} (h : refersTo get dyn a b)
    (hbc : Reachable get dyn b c) : Reachable get dyn a c := by
  obtain ⟨n, hn⟩ := hbc
  exact ⟨n + 1, Chain.step h hn⟩

/-! ### Maps built by a traversal with a pure getter -/

/-- Every key of such a map holds the query the getter returns for it. -/
theorem TopoAcc.get_eq {get : String → String → Except Error ReportGenerationQuery} {ns : String}
    {dyn : Bool} {acc : Accumulator} (h : TopoAcc get ns dyn acc) :
    ∀ k v, (k, v) ∈ acc → get ns k = .ok v := by
  induction h with
  | nil => intro k v hkv; simp at hkv
  | snoc _ _ hget _ ih =>
    intro k v hkv
    rcases List.mem_append.mp hkv with hkv | hkv
    · exact ih k v hkv
    · simp only [List.mem_singleton, Prod.mk.injEq] at hkv
      obtain ⟨rfl, rfl⟩ := hkv
      exact hget

/-- Every name listed by a query of such a map is a key of the map. -/
theorem TopoAcc.closed {get : String → String → Except Error ReportGenerationQuery} {ns : String}
    {dyn : Bool} {acc : Accumulator} (h : TopoAcc get ns dyn acc) :
    ∀ k v, (k, v) ∈ acc → ∀ c, c ∈ selectQueries v dyn → c ∈ acc.keys := by
  induction h with
  | nil => intro k v hkv; simp at hkv
  | snoc _ _ _ hch ih =>
    intro k v hkv c hc
    simp only [Accumulator.keys, List.map_append, List.mem_append]
    left
    rcases List.mem_append.mp hkv with hkv | hkv
    · exact ih k v hkv c hc
    · simp only [List.mem_singleton, Prod.mk.injEq] at hkv
      obtain ⟨rfl, rfl⟩ := hkv
      exact hch c hc

/-- The keys of such a map are pairwise distinct. -/
theorem TopoAcc.nodup_keys {get : String → String → Except Error ReportGenerationQuery}
    {ns : String} {dyn : Bool} {acc : Accumulator} (h : TopoAcc get ns dyn acc) :
    acc.keys.Nodup := by
  induction h with
  | nil => simp [Accumulator.keys]
  | snoc _ hnew _ _ ih =>
    simp only [Accumulator.keys, List.map_append, List.map_cons, List.map_nil]
    rw [List.nodup_append]
    refine ⟨ih, by simp, ?_⟩
    intro a ha hb
    simp only [List.mem_singleton] at hb
    subst hb
    exact hnew ha

/-- A key of a map has an entry. -/
theorem exists_of_mem_keys (acc : Accumulator) (k : String) (h : k ∈ acc.keys) :
    ∃ v, (k, v) ∈ acc := by
  simp only [Accumulator.keys, List.mem_map] at h
  obtain ⟨⟨k1, v⟩, hmem, rfl⟩ := h
  exact ⟨v, hmem⟩

/-- The key of an entry is a key. -/
theorem mem_keys_of_mem (acc : Accumulator) (k : String) (v : ReportGenerationQuery)
    (h : (k, v) ∈ acc) : k ∈ acc.keys := by
  simp only [Accumulator.keys, List.mem_map]
  exact ⟨(k, v), h, rfl⟩

/-- With a name-faithful getter, what a query of such a map refers to is in the
map. -/
theorem TopoAcc.refersTo_mem {get : String → String → Except Error ReportGenerationQuery}
    {ns : String} {dyn : Bool} {acc : Accumulator} (hf : NameFaithful get)
    (h : TopoAcc get ns dyn acc) (k : String) (v w : ReportGenerationQuery) (hkv : (k, v) ∈ acc)
    (hvw : refersTo get dyn v w) : (w.Name, w) ∈ acc := by
  obtain ⟨c, hc, hget⟩ := hvw
  have hns : v.Namespace = ns := (hf ns k v (h.get_eq k v hkv)).2
  rw [hns] at hget
  obtain ⟨w1, hw1⟩ := exists_of_mem_keys acc c (h.closed k v hkv c hc)
  have := h.get_eq c w1 hw1
  rw [hget] at this
  injection this with this
  subst this
  rw [(hf ns c w hget).1]
  exact hw1

/-- With a name-faithful getter, the end of a chain starting in such a map is
in the map. -/
theorem TopoAcc.chain_mem {get : String → String → Except Error ReportGenerationQuery}
    {ns : String} {dyn : Bool} {acc : Accumulator} (hf : NameFaithful get)
    (h : TopoAcc get ns dyn acc) {n : Nat} {v w : ReportGenerationQuery}
    (hc : Chain get dyn n v w) : ∀ k, (k, v) ∈ acc → (w.Name, w) ∈ acc := by
  induction hc with
  | refl q =>
    intro k hkv
    rw [(hf ns k q (h.get_eq k q hkv)).1]
    exact hkv
  | step hab _ ih =>
    intro k hkv
    exact ih _ (h.refersTo_mem hf k _ _ hkv hab)

/-- With a name-faithful getter, no query of such a map reaches itself. -/
theorem TopoAcc.acyclic {get : String → String → Except Error ReportGenerationQuery}
    {ns : String} {dyn : Bool} {acc : Accumulator} (hf : NameFaithful get)
    (h : TopoAcc get ns dyn acc) : ∀ k v, (k, v) ∈ acc → ¬ Reachable get dyn v v := by
  induction h with
  | nil => intro k v hkv; simp at hkv
  | @snoc acc key value hacc hnew hget hch ih =>
    intro k v hkv hcyc
    rcases List.mem_append.mp hkv with hkv | hkv
    · exact ih k v hkv hcyc
    · simp only [List.mem_singleton, Prod.mk.injEq] at hkv
      obtain ⟨rfl, rfl⟩ := hkv
      obtain ⟨n, hn⟩ := hcyc
      cases hn with
      | step hab hrest =>
        rename_i w
        obtain ⟨c, hc, hgc⟩ := hab
        have hns : v.Namespace = ns := (hf ns k v hget).2
        rw [hns] at hgc
        obtain ⟨w1, hw1⟩ := exists_of_mem_keys acc c (hch c hc)
        have := hacc.get_eq c w1 hw1
        rw [hgc] at this
        injection this with this
        subst this
        have hv := hacc.chain_mem hf hrest c hw1
        rw [(hf ns k v hget).1] at hv
        exact hnew (mem_keys_of_mem acc k v hv)

/-! ### Soundness of the traversal with a pure getter -/

/-- Storing a fetched query after its own traversal keeps the map well-formed
and adds at most that query. -/
theorem TopoAcc.insert {get : String → String → Except Error ReportGenerationQuery} {ns : String}
    {dyn : Bool} {acc : Accumulator} (hf : NameFaithful get) (h : TopoAcc get ns dyn acc)
    (c : String) (v : ReportGenerationQuery) (hget : get ns c = .ok v)
    (hch : ∀ c1, c1 ∈ selectQueries v dyn → c1 ∈ acc.keys) :
    TopoAcc get ns dyn (acc.insert v.Name v) ∧ c ∈ (acc.insert v.Name v).keys ∧
      (acc.insert v.Name v = acc ∨ acc.insert v.Name v = acc ++ [(c, v)]) := by
  have hname : v.Name = c := (hf ns c v hget).1
  rw [hname]
  by_cases hmem : c ∈ acc.keys
  · have hsame : acc.insert c v = acc := by
      apply insert_of_mem_same acc c v hmem
      intro v1 hv1
      have := h.get_eq c v1 hv1
      rw [hget] at this
      injection this with this
      exact this.symm
    rw [hsame]
    exact ⟨h, hmem, Or.inl rfl⟩
  · rw [insert_of_not_mem acc c v hmem]
    refine ⟨TopoAcc.snoc h hmem hget hch, ?_, Or.inr rfl⟩
    simp [Accumulator.keys]

/-- Soundness of the traversal. With a name-faithful pure getter, a call that
returns without error on a well-formed map returns a well-formed map that
extends it, holds every name listed by the query as a key, and whose new
entries are reachable from the query. -/
theorem memoized_sound {σ : Type} (get : String → String → Except Error ReportGenerationQuery)
    (hf : NameFaithful get) (ns : String) (dyn : Bool) (maxDepth : Nat) :
    ∀ (n depth : Nat), maxDepth - depth = n →
    ∀ (q : ReportGenerationQuery) (acc acc1 : Accumulator) (s s1 : σ), q.Namespace = ns →
      TopoAcc get ns dyn acc →
      GetDependentGenerationQueriesMemoized (pureGetter get) q depth maxDepth acc dyn s =
        (.ok acc1, s1) →
      TopoAcc get ns dyn acc1 ∧ (∀ c, c ∈ selectQueries q dyn → c ∈ acc1.keys) ∧
        ∃ B, acc1 = acc ++ B ∧ ∀ e, e ∈ B → Reachable get dyn q e.2 := by
  intro n
  induction n with
  | zero =>
    intro depth hd q acc acc1 s s1 _ _ h
    rw [memoized_eq, if_pos (by omega)] at h
    cases h
  | succ n ih =>
    intro depth hd q acc acc1 s s1 hns hacc h
    rw [memoized_eq, if_neg (by omega)] at h
    have loop : ∀ (queries : List String), (∀ c, c ∈ queries → c ∈ selectQueries q dyn) →
        ∀ (acc acc1 : Accumulator) (s s1 : σ), TopoAcc get ns dyn acc →
        rangeQueries (visitQuery (pureGetter get) q.Namespace depth maxDepth dyn) queries acc s =
          (.ok acc1, s1) →
        TopoAcc get ns dyn acc1 ∧ (∀ c, c ∈ queries → c ∈ acc1.keys) ∧
          ∃ B, acc1 = acc ++ B ∧ ∀ e, e ∈ B → Reachable get dyn q e.2 := by
      intro queries
      induction queries with
      | nil =>
        intro _ acc acc1 s s1 hacc h
        simp only [rangeQueries, Prod.mk.injEq, Except.ok.injEq] at h
        obtain ⟨rfl, _⟩ := h
        exact ⟨hacc, by simp, [], by simp, by simp⟩
      | cons c queries ihq =>
        intro hsub acc acc1 s s1 hacc h
        obtain ⟨acc0, s0, hbody, hrest⟩ := rangeQueries_cons_ok _ _ _ _ _ _ _ h
        have hstep : TopoAcc get ns dyn acc0 ∧ c ∈ acc0.keys ∧
            ∃ B, acc0 = acc ++ B ∧ ∀ e, e ∈ B → Reachable get dyn q e.2 := by
          rcases visitQuery_ok _ _ _ _ _ _ _ _ _ _ hbody with ⟨hc, rfl, _⟩ | ⟨_, v, acc2, sg, hg, hm, rfl⟩
          · exact ⟨hacc, (contains_iff _ _).mp hc, [], by simp, by simp⟩
          · simp only [pureGetter, Prod.mk.injEq] at hg
            obtain ⟨hg, rfl⟩ := hg
            have hqv : refersTo get dyn q v := ⟨c, hsub c (by simp), hg⟩
            rw [hns] at hg
            obtain ⟨h2, hch, B2, rfl, hB2⟩ :=
              ih (depth + 1) (by omega) v acc acc2 s s0 (hf ns c v hg).2 hacc hm
            obtain ⟨h3, hc3, hins⟩ := h2.insert hf c v hg hch
            refine ⟨h3, hc3, ?_⟩
            rcases hins with hins | hins
            · rw [hins]
              exact ⟨B2, rfl, fun e he => Reachable.step hqv (hB2 e he)⟩
            · rw [hins]
              refine ⟨B2 ++ [(c, v)], by simp, ?_⟩
              intro e he
              rcases List.mem_append.mp he with he | he
              · exact Reachable.step hqv (hB2 e he)
              · simp only [List.mem_singleton] at he
                subst he
                exact Reachable.of_refersTo hqv
        obtain ⟨h0, hc0, B0, rfl, hB0⟩ := hstep
        obtain ⟨h1, hq1, B1, rfl, hB1⟩ :=
          ihq (fun c1 hc1 => hsub c1 (by simp [hc1])) _ _ _ _ h0 hrest
        refine ⟨h1, ?_, B0 ++ B1, by simp, ?_⟩
        · intro c1 hc1
          rcases List.mem_cons.mp hc1 with rfl | hc1
          · simp only [Accumulator.keys, List.map_append, List.mem_append] at hc0 ⊢
            exact Or.inl hc0
          · exact hq1 c1 hc1
        · intro e he
          rcases List.mem_append.mp he with he | he
          · exact hB0 e he
          · exact hB1 e he
    exact loop _ (fun c hc => hc) acc acc1 s s1 hacc h

/-- The result of a traversal from the empty map with a name-faithful pure
getter: the queries of the returned map are pairwise distinct, they are the
queries reachable from the root, and none of them reaches itself. -/
theorem traversal_sound {σ : Type} (get : String → String → Except Error ReportGenerationQuery)
    (hf : NameFaithful get) (dyn : Bool) (maxDepth : Nat) (root : ReportGenerationQuery)
    (acc1 : Accumulator) (s s1 : σ)
    (h : GetDependentGenerationQueriesMemoized (pureGetter get) root 0 maxDepth [] dyn s =
      (.ok acc1, s1)) :
    acc1.values.Nodup ∧ (∀ v, v ∈ acc1.values ↔ Reachable get dyn root v) ∧
      (∀ v, v ∈ acc1.values → ¬ Reachable get dyn v v) := by
  obtain ⟨htopo, hch, B, hB, hreach⟩ :=
    memoized_sound get hf root.Namespace dyn maxDepth _ 0 rfl root [] acc1 s s1 rfl
      TopoAcc.nil h
  simp only [List.nil_append] at hB
  subst hB
  have hval : ∀ v, v ∈ Accumulator.values acc1 → ∃ k, (k, v) ∈ acc1 := by
    intro v hv
    simp only [Accumulator.values, List.mem_map] at hv
    obtain ⟨⟨k, v1⟩, hmem, rfl⟩ := hv
    exact ⟨k, hmem⟩
  refine ⟨?_, ?_, ?_⟩
  · have hkeys : acc1.values.map ReportGenerationQuery.Name = acc1.keys := by
      simp only [Accumulator.values, Accumulator.keys, List.map_map]
      apply List.map_congr_left
      intro e he
      exact (hf root.Namespace e.1 e.2 (htopo.get_eq e.1 e.2 he)).1
    have hnd := htopo.nodup_keys
    rw [← hkeys] at hnd
    exact List.Nodup.of_map _ hnd
  · intro v
    constructor
    · intro hv
      obtain ⟨k, hk⟩ := hval v hv
      exact hreach _ hk
    · rintro ⟨n, hn⟩
      cases hn with
      | step hab hrest =>
        rename_i w
        obtain ⟨c, hc, hgc⟩ := hab
        obtain ⟨w1, hw1⟩ := exists_of_mem_keys acc1 c (hch c hc)
        have := htopo.get_eq c w1 hw1
        rw [hgc] at this
        injection this with this
        subst this
        have hv := htopo.chain_mem hf hrest c hw1
        simp only [Accumulator.values, List.mem_map]
        exact ⟨(v.Name, v), hv, rfl⟩
  · intro v hv
    obtain ⟨k, hk⟩ := hval v hv
    exact htopo.acyclic hf k v hk

/-! ### Completeness of the traversal with a pure getter -/

/-- An iteration on a name that is in the map leaves the map as it is. -/
theorem visitQuery_contains {σ : Type} (queryGetter : reportGenerationQueryGetter σ) (ns : String)
    (depth maxDepth : Nat) (dyn : Bool) (c : String) (acc : Accumulator) (s : σ)
    (h : acc.contains c = true) :
    visitQuery queryGetter ns depth maxDepth dyn c acc s = (.ok acc, s) := by
  simp [visitQuery, h]

/-- An iteration on a name that is not in the map and on which the getter
fails returns the error of the getter. -/
theorem visitQuery_get_error {σ : Type} (queryGetter : reportGenerationQueryGetter σ)
    (ns : String) (depth maxDepth : Nat) (dyn : Bool) (c : String) (acc : Accumulator) (s sg : σ)
    (e : Error) (h : acc.contains c = false) (hg : queryGetter ns c s = (.error e, sg)) :
    visitQuery queryGetter ns depth maxDepth dyn c acc s = (.error e, sg) := by
  simp [visitQuery, h, hg]

/-- An iteration on a name that is not in the map fetches it, traverses the
fetched query one level deeper and, if that succeeds, stores the query under
its name. -/
theorem visitQuery_get_ok {σ : Type} (queryGetter : reportGenerationQueryGetter σ)
    (ns : String) (depth maxDepth : Nat) (dyn : Bool) (c : String) (acc acc2 : Accumulator)
    (s sg s2 : σ) (v : ReportGenerationQuery) (h : acc.contains c = false)
    (hg : queryGetter ns c s = (.ok v, sg))
    (hm : GetDependentGenerationQueriesMemoized queryGetter v (depth + 1) maxDepth acc dyn sg =
      (.ok acc2, s2)) :
    visitQuery queryGetter ns depth maxDepth dyn c acc s = (.ok (acc2.insert v.Name v), s2) := by
  simp [visitQuery, h, hg, hm]

/-- Completeness of the traversal. With a pure getter, if every name listed by
the root or by a query reachable from it resolves and every chain from the
root has fewer than 100 references, the call at depth `depth` on the end of a
chain of `depth` references from the root returns without error. -/
theorem memoized_complete {σ : Type} (get : String → String → Except Error ReportGenerationQuery)
    (dyn : Bool) (root : ReportGenerationQuery)
    (hres : ∀ n q, Chain get dyn n root q → ∀ c, c ∈ selectQueries q dyn →
      ∃ v, get q.Namespace c = .ok v)
    (hbound : ∀ n q, Chain get dyn n root q → n < 100) :
    ∀ (n depth : Nat), depth + n = 100 → ∀ (q : ReportGenerationQuery) (acc : Accumulator)
      (s : σ), Chain get dyn depth root q →
      ∃ acc1, GetDependentGenerationQueriesMemoized (pureGetter get) q depth 100 acc dyn s =
        (.ok acc1, s) := by
  intro n
  induction n with
  | zero =>
    intro depth hd q acc s hq
    have := hbound depth q hq
    omega
  | succ n ih =>
    intro depth hd q acc s hq
    rw [memoized_eq, if_neg (by omega)]
    have loop : ∀ (queries : List String), (∀ c, c ∈ queries → c ∈ selectQueries q dyn) →
        ∀ (acc : Accumulator), ∃ acc1,
          rangeQueries (visitQuery (pureGetter get) q.Namespace depth 100 dyn) queries acc s =
            (.ok acc1, s) := by
      intro queries
      induction queries with
      | nil => intro _ acc; exact ⟨acc, rfl⟩
      | cons c queries ihq =>
        intro hsub acc
        have hbody : ∃ acc0, visitQuery (pureGetter get) q.Namespace depth 100 dyn c acc s =
            (.ok acc0, s) := by
          cases hc : acc.contains c with
          | true => exact ⟨acc, visitQuery_contains _ _ _ _ _ _ _ _ hc⟩
          | false =>
            obtain ⟨v, hv⟩ := hres depth q hq c (hsub c (by simp))
            obtain ⟨acc2, h2⟩ := ih (depth + 1) (by omega) v acc s
              (hq.snoc ⟨c, hsub c (by simp), hv⟩)
            exact ⟨_, visitQuery_get_ok _ _ _ _ _ _ _ _ _ _ _ v hc (by simp [pureGetter, hv]) h2⟩
        obtain ⟨acc0, h0⟩ := hbody
        obtain ⟨acc1, h1⟩ := ihq (fun c1 hc1 => hsub c1 (by simp [hc1])) acc0
        exact ⟨acc1, by simp only [rangeQueries, h0, h1]⟩
    exact loop _ (fun c hc => hc) acc

/-! ### The two traversals -/

/-- The ordinary traversal returns the queries of the map of a successful
call at depth 0. -/
theorem view_of_ok {σ : Type} (queryGetter : reportGenerationQueryGetter σ)
    (root : ReportGenerationQuery) (acc : Accumulator) (s s1 : σ)
    (h : GetDependentGenerationQueriesMemoized queryGetter root 0 100 [] false s = (.ok acc, s1)) :
    GetDependentViewGenerationQueries queryGetter root s = (.ok acc.values, s1) := by
  have hmax : maxDepth = 100 := rfl
  rw [GetDependentViewGenerationQueries, hmax, h]

/-- The ordinary traversal returns the error of a failed call at depth 0. -/
theorem view_of_error {σ : Type} (queryGetter : reportGenerationQueryGetter σ)
    (root : ReportGenerationQuery) (e : Error) (s s1 : σ)
    (h : GetDependentGenerationQueriesMemoized queryGetter root 0 100 [] false s = (.error e, s1)) :
    GetDependentViewGenerationQueries queryGetter root s = (.error e, s1) := by
  have hmax : maxDepth = 100 := rfl
  rw [GetDependentViewGenerationQueries, hmax, h]

/-- The dynamic traversal returns the queries of the map of a successful call
at depth 0. -/
theorem dynamic_of_ok {σ : Type} (queryGetter : reportGenerationQueryGetter σ)
    (root : ReportGenerationQuery) (acc : Accumulator) (s s1 : σ)
    (h : GetDependentGenerationQueriesMemoized queryGetter root 0 100 [] true s = (.ok acc, s1)) :
    GetDependentDynamicGenerationQueries queryGetter root s = (.ok acc.values, s1) := by
  have hmax : maxDepth = 100 := rfl
  rw [GetDependentDynamicGenerationQueries, hmax, h]

/-- The dynamic traversal returns the error of a failed call at depth 0. -/
theorem dynamic_of_error {σ : Type} (queryGetter : reportGenerationQueryGetter σ)
    (root : ReportGenerationQuery) (e : Error) (s s1 : σ)
    (h : GetDependentGenerationQueriesMemoized queryGetter root 0 100 [] true s = (.error e, s1)) :
    GetDependentDynamicGenerationQueries queryGetter root s = (.error e, s1) := by
  have hmax : maxDepth = 100 := rfl
  rw [GetDependentDynamicGenerationQueries, hmax, h]

/-- A successful ordinary traversal comes from a successful call at depth 0. -/
theorem view_ok_inv {σ : Type} (queryGetter : reportGenerationQueryGetter σ)
    (root : ReportGenerationQuery) (result : List ReportGenerationQuery) (s s1 : σ)
    (h : GetDependentViewGenerationQueries queryGetter root s = (.ok result, s1)) :
    ∃ acc, GetDependentGenerationQueriesMemoized queryGetter root 0 100 [] false s =
      (.ok acc, s1) ∧ result = acc.values := by
  have hmax : maxDepth = 100 := rfl
  rw [GetDependentViewGenerationQueries, hmax] at h
  split at h
  · cases h
  · rename_i acc s2 hm
    simp only [Prod.mk.injEq, Except.ok.injEq] at h
    obtain ⟨rfl, rfl⟩ := h
    exact ⟨acc, hm, rfl⟩

/-- A successful dynamic traversal comes from a successful call at depth 0. -/
theorem dynamic_ok_inv {σ : Type} (queryGetter : reportGenerationQueryGetter σ)
    (root : ReportGenerationQuery) (result : List ReportGenerationQuery) (s s1 : σ)
    (h : GetDependentDynamicGenerationQueries queryGetter root s = (.ok result, s1)) :
    ∃ acc, GetDependentGenerationQueriesMemoized queryGetter root 0 100 [] true s =
      (.ok acc, s1) ∧ result = acc.values := by
  have hmax : maxDepth = 100 := rfl
  rw [GetDependentDynamicGenerationQueries, hmax] at h
  split at h
  · cases h
  · rename_i acc s2 hm
    simp only [Prod.mk.injEq, Except.ok.injEq] at h
    obtain ⟨rfl, rfl⟩ := h
    exact ⟨acc, hm, rfl⟩

/-- With a name-faithful pure getter, a successful call at depth 0 from the
empty map shows that no cycle is reachable from the root. -/
theorem traversal_acyclic {σ : Type} (get : String → String → Except Error ReportGenerationQuery)
    (hf : NameFaithful get) (dyn : Bool) (maxDepth : Nat) (root : ReportGenerationQuery)
    (acc1 : Accumulator) (s s1 : σ)
    (h : GetDependentGenerationQueriesMemoized (pureGetter get) root 0 maxDepth [] dyn s =
      (.ok acc1, s1)) : ¬ CycleReachable get dyn root := by
  obtain ⟨_, hmem, hacyc⟩ := traversal_sound get hf dyn maxDepth root acc1 s s1 h
  rintro ⟨x, hx, hcyc⟩
  rcases hx with rfl | hx
  · exact hacyc x ((hmem x).mpr hcyc) hcyc
  · exact hacyc x ((hmem x).mpr hx) hcyc

/-- The queries of the diamond live in the namespace `ns`. -/
theorem leafQuery_namespace (name : String) (queries : List String) :
    (leafQuery name queries).Namespace = "ns" := rfl

/-- The ordinary references of a query of the diamond. -/
theorem leafQuery_queries (name : String) (queries : List String) :
    selectQueries (leafQuery name queries) false = queries := rfl

/-- The getter of the diamond is name-faithful. -/
theorem diamondGet_faithful : NameFaithful diamondGet := by
  intro ns name q h
  simp only [diamondGet] at h
  split_ifs at h with h1 h2 h3
  · injection h with h
    subst h
    exact ⟨h1.2.symm, h1.1.symm⟩
  · injection h with h
    subst h
    exact ⟨h2.2.symm, h2.1.symm⟩
  · injection h with h
    subst h
    exact ⟨h3.2.symm, h3.1.symm⟩

/-- The only chain from `C` is the empty one. -/
theorem diamond_chain_C (n : Nat) (q : ReportGenerationQuery)
    (h : Chain diamondGet false n (leafQuery "C" []) q) : n = 0 ∧ q = leafQuery "C" [] := by
  cases h with
  | refl => exact ⟨rfl, rfl⟩
  | step hab _ =>
    obtain ⟨c, hc, _⟩ := hab
    simp [leafQuery_queries] at hc

/-- The chains from `A` and from `B`. -/
theorem diamond_chain_AB (name : String) (n : Nat) (q : ReportGenerationQuery)
    (h : Chain diamondGet false n (leafQuery name ["C"]) q) :
    (n = 0 ∧ q = leafQuery name ["C"]) ∨ (n = 1 ∧ q = leafQuery "C" []) := by
  cases h with
  | refl => exact Or.inl ⟨rfl, rfl⟩
  | step hab hrest =>
    obtain ⟨c, hc, hg⟩ := hab
    simp only [leafQuery_queries, List.mem_singleton] at hc
    subst hc
    simp [leafQuery_namespace, diamondGet] at hg
    subst hg
    obtain ⟨rfl, rfl⟩ := diamond_chain_C _ _ hrest
    exact Or.inr ⟨rfl, rfl⟩

/-- The chains from the root of the diamond. -/
theorem diamond_chain_R (n : Nat) (q : ReportGenerationQuery)
    (h : Chain diamondGet false n (leafQuery "R" ["A", "B"]) q) :
    (n = 0 ∧ q = leafQuery "R" ["A", "B"]) ∨
    (n = 1 ∧ (q = leafQuery "A" ["C"] ∨ q = leafQuery "B" ["C"])) ∨
    (n = 2 ∧ q = leafQuery "C" []) := by
  cases h with
  | refl => exact Or.inl ⟨rfl, rfl⟩
  | step hab hrest =>
    obtain ⟨c, hc, hg⟩ := hab
    simp only [leafQuery_queries, List.mem_cons, List.mem_singleton, List.not_mem_nil,
      or_false] at hc
    rcases hc with rfl | rfl
    · simp [leafQuery_namespace, diamondGet] at hg
      subst hg
      rcases diamond_chain_AB _ _ _ hrest with ⟨rfl, rfl⟩ | ⟨rfl, rfl⟩
      · exact Or.inr (Or.inl ⟨rfl, Or.inl rfl⟩)
      · exact Or.inr (Or.inr ⟨rfl, rfl⟩)
    · simp [leafQuery_namespace, diamondGet] at hg
      subst hg
      rcases diamond_chain_AB _ _ _ hrest with ⟨rfl, rfl⟩ | ⟨rfl, rfl⟩
      · exact Or.inr (Or.inl ⟨rfl, Or.inr rfl⟩)
      · exact Or.inr (Or.inr ⟨rfl, rfl⟩)

/-- Claim C1. For every pure name-faithful getter and every root such that
every name listed by the root or by a query reachable from it through
ordinary references resolves, the reachable ordinary-reference graph is
acyclic, and every chain of ordinary references from the root has fewer than
100 references, `GetDependentViewGenerationQueries` returns no error, and its
result holds exactly the queries reachable from the root through one or more
ordinary references, each exactly once (also when a query is referenced along
several paths). -/
theorem C1_traversal_returns_reachable_set {σ : Type}
    (get : String → String → Except Error ReportGenerationQuery) (root : ReportGenerationQuery)
    (s : σ) (hf : NameFaithful get)
    (hres : ∀ n q, Chain get false n root q → ∀ c, c ∈ q.Spec.ReportQueries →
      ∃ v, get q.Namespace c = .ok v)
    (_hacyclic : ∀ q, (q = root ∨ Reachable get false root q) → ¬ Reachable get false q q)
    (hbound : ∀ n q, Chain get false n root q → n < 100) :
    ∃ result, GetDependentViewGenerationQueries (pureGetter get) root s = (.ok result, s) ∧
      result.Nodup ∧ (∀ q, q ∈ result ↔ Reachable get false root q) ∧
      ∀ q, Reachable get false root q → result.count q = 1 := by
  obtain ⟨acc1, h⟩ := memoized_complete get false root hres hbound 100 0 (by omega) root []
    s (Chain.refl root)
  obtain ⟨hnd, hmem, _⟩ := traversal_sound get hf false 100 root acc1 s s h
  refine ⟨acc1.values, view_of_ok _ _ _ _ _ h, hnd, hmem, ?_⟩
  intro q hq
  exact List.count_eq_one_of_mem hnd ((hmem q).mpr hq)

/-- Claim C1, witness: on the diamond `R → A, B`, `A → C`, `B → C` the
traversal succeeds and returns `A`, `B` and `C`, each once. -/
theorem C1_traversal_returns_reachable_set_witness :
    ∃ result, GetDependentViewGenerationQueries (pureGetter diamondGet)
        (leafQuery "R" ["A", "B"]) () = (.ok result, ()) ∧
      result.Nodup ∧ (∀ q, q ∈ result ↔ Reachable diamondGet false (leafQuery "R" ["A", "B"]) q) ∧
      ∀ q, Reachable diamondGet false (leafQuery "R" ["A", "B"]) q → result.count q = 1 :=
  C1_traversal_returns_reachable_set diamondGet (leafQuery "R" ["A", "B"]) () diamondGet_faithful
    (by
      intro n q hq c hc
      rcases diamond_chain_R n q hq with ⟨_, rfl⟩ | ⟨_, rfl | rfl⟩ | ⟨_, rfl⟩
      · simp only [leafQuery, List.mem_cons, List.mem_singleton, List.not_mem_nil, or_false] at hc
        rcases hc with rfl | rfl <;> simp [leafQuery, diamondGet]
      · simp only [leafQuery, List.mem_singleton] at hc
        subst hc
        simp [leafQuery, diamondGet]
      · simp only [leafQuery, List.mem_singleton] at hc
        subst hc
        simp [leafQuery, diamondGet]
      · simp [leafQuery] at hc)
    (by
      rintro q (rfl | ⟨m, hm⟩) ⟨n, hn⟩
      · rcases diamond_chain_R _ _ hn with ⟨h0, _⟩ | ⟨_, h1 | h1⟩ | ⟨_, h1⟩
        · omega
        · simp [leafQuery] at h1
        · simp [leafQuery] at h1
        · simp [leafQuery] at h1
      · rcases diamond_chain_R _ _ hm with ⟨h0, _⟩ | ⟨_, rfl | rfl⟩ | ⟨_, rfl⟩
        · omega
        · rcases diamond_chain_AB _ _ _ hn with ⟨h0, _⟩ | ⟨_, h1⟩
          · omega
          · simp [leafQuery] at h1
        · rcases diamond_chain_AB _ _ _ hn with ⟨h0, _⟩ | ⟨_, h1⟩
          · omega
          · simp [leafQuery] at h1
        · have := (diamond_chain_C _ _ hn).1
          omega)
    (by
      intro n q hq
      rcases diamond_chain_R n q hq with ⟨h0, _⟩ | ⟨h0, _⟩ | ⟨h0, _⟩ <;> omega)

/-- Claim C4. For every pure name-faithful getter and every root, if a cycle
of ordinary references is reachable from the root (the root, or a query
reachable from it, reaches itself through one or more ordinary references),
`GetDependentViewGenerationQueries` returns an error; equivalently, whenever
it succeeds no such cycle is reachable. The same holds for
`GetDependentDynamicGenerationQueries` and dynamic references. -/
theorem C4_reachable_cycle_is_rejected {σ : Type}
    (get : String → String → Except Error ReportGenerationQuery) (hf : NameFaithful get)
    (root : ReportGenerationQuery) (s : σ) :
    (CycleReachable get false root →
      ∃ e s1, GetDependentViewGenerationQueries (pureGetter get) root s = (.error e, s1)) ∧
    (∀ result s1, GetDependentViewGenerationQueries (pureGetter get) root s = (.ok result, s1) →
      ¬ CycleReachable get false root) ∧
    (CycleReachable get true root →
      ∃ e s1, GetDependentDynamicGenerationQueries (pureGetter get) root s = (.error e, s1)) ∧
    (∀ result s1, GetDependentDynamicGenerationQueries (pureGetter get) root s = (.ok result, s1) →
      ¬ CycleReachable get true root) := by
  refine ⟨?_, ?_, ?_, ?_⟩
  · intro hcyc
    rcases hm : GetDependentGenerationQueriesMemoized (pureGetter get) root 0 100 [] false s
      with ⟨r, s1⟩
    cases r with
    | error e => exact ⟨e, s1, view_of_error _ _ _ _ _ hm⟩
    | ok acc => exact absurd hcyc (traversal_acyclic get hf false 100 root acc s s1 hm)
  · intro result s1 h
    obtain ⟨acc, hm, _⟩ := view_ok_inv _ _ _ _ _ h
    exact traversal_acyclic get hf false 100 root acc s s1 hm
  · intro hcyc
    rcases hm : GetDependentGenerationQueriesMemoized (pureGetter get) root 0 100 [] true s
      with ⟨r, s1⟩
    cases r with
    | error e => exact ⟨e, s1, dynamic_of_error _ _ _ _ _ hm⟩
    | ok acc => exact absurd hcyc (traversal_acyclic get hf true 100 root acc s s1 hm)
  · intro result s1 h
    obtain ⟨acc, hm, _⟩ := dynamic_ok_inv _ _ _ _ _ h
    exact traversal_acyclic get hf true 100 root acc s s1 hm

/-- The getter of the cycle `A → B → C → A` is name-faithful. -/
theorem cycle3Get_faithful : NameFaithful cycle3Get := by
  intro ns name q h
  simp only [cycle3Get] at h
  split_ifs at h with h1 h2 h3
  · injection h with h
    subst h
    exact ⟨h1.2.symm, h1.1.symm⟩
  · injection h with h
    subst h
    exact ⟨h2.2.symm, h2.1.symm⟩
  · injection h with h
    subst h
    exact ⟨h3.2.symm, h3.1.symm⟩

/-- In the cycle `A → B → C → A` the query `A` reaches itself. -/
theorem cycle3_reachable : Reachable cycle3Get false (cycle3 0) (cycle3 0) := by
  have h1 : refersTo cycle3Get false (cycle3 0) (cycle3 1) :=
    ⟨"B", by simp [selectQueries, cycle3, leafQuery], by simp [cycle3Get, cycle3, leafQuery]⟩
  have h2 : refersTo cycle3Get false (cycle3 1) (cycle3 2) :=
    ⟨"C", by simp [selectQueries, cycle3, leafQuery], by simp [cycle3Get, cycle3, leafQuery]⟩
  have h3 : refersTo cycle3Get false (cycle3 2) (cycle3 0) :=
    ⟨"A", by simp [selectQueries, cycle3, leafQuery], by simp [cycle3Get, cycle3, leafQuery]⟩
  exact ⟨2, Chain.step h1 (Chain.step h2 (Chain.step h3 (Chain.refl _)))⟩

/-- Claim C4, witness: the root `A` of the cycle `A → B → C → A` reaches
itself, and the ordinary traversal from it returns an error. -/
theorem C4_reachable_cycle_is_rejected_witness :
    CycleReachable cycle3Get false (cycle3 0) ∧
    ∃ e s1, GetDependentViewGenerationQueries (pureGetter cycle3Get) (cycle3 0) () =
      (.error e, s1) :=
  ⟨⟨cycle3 0, Or.inl rfl, cycle3_reachable⟩,
   (C4_reachable_cycle_is_rejected cycle3Get cycle3Get_faithful (cycle3 0) ()).1
     ⟨cycle3 0, Or.inl rfl, cycle3_reachable⟩⟩

/-! ### The resolved bundle -/

/-- A successful `GetDependentGenerationQueries` is a successful ordinary
traversal followed by a successful dynamic traversal. -/
theorem queries_ok_inv {σ : Type} (queryGetter : reportGenerationQueryGetter σ)
    (root : ReportGenerationQuery) (deps : GetDependentGenerationQueriesStatus) (s s1 : σ)
    (h : GetDependentGenerationQueries queryGetter root s = (.ok deps, s1)) :
    ∃ views dyns s0, GetDependentViewGenerationQueries queryGetter root s = (.ok views, s0) ∧
      GetDependentDynamicGenerationQueries queryGetter root s0 = (.ok dyns, s1) ∧
      deps = ⟨views, dyns⟩ := by
  simp only [GetDependentGenerationQueries] at h
  split at h
  · cases h
  · rename_i views s0 hv
    split at h
    · cases h
    · rename_i dyns s2 hd
      simp only [Prod.mk.injEq, Except.ok.injEq] at h
      obtain ⟨rfl, rfl⟩ := h
      exact ⟨views, dyns, s0, hv, hd, rfl⟩

/-- A successful flat fetch with a pure getter returns what the getter returns
for each name, in list order. -/
theorem rangeGet_pure_ok {σ α : Type} (f : String → String → Except Error α) (ns : String) :
    ∀ (names : List String) (items : List α) (s s1 : σ),
      rangeGet (pureGetter f) ns names s = (.ok items, s1) →
      items.map Except.ok = names.map (f ns) := by
  intro names
  induction names with
  | nil =>
    intro items s s1 h
    simp only [rangeGet, Prod.mk.injEq, Except.ok.injEq] at h
    obtain ⟨rfl, _⟩ := h
    rfl
  | cons name names ih =>
    intro items s s1 h
    cases hf : f ns name with
    | error e => simp [rangeGet, pureGetter, hf] at h
    | ok x =>
      simp only [rangeGet, pureGetter, hf] at h
      split at h
      · cases h
      · rename_i rest s2 hrest
        simp only [Prod.mk.injEq, Except.ok.injEq] at h
        obtain ⟨rfl, _⟩ := h
        simp only [List.map_cons, hf]
        rw [ih rest s s2 hrest]

/-- When no element passes a test, the elements that fail it are all the
elements. -/
theorem filter_not_of_filter_eq_nil {α : Type} (p : α → Bool) (l : List α)
    (h : l.filter p = []) : l.filter (fun x => !p x) = l := by
  rw [List.filter_eq_self]
  intro a ha
  have := List.filter_eq_nil_iff.mp h a ha
  simpa using this

/-- Claim C2. For every name-faithful pure query getter, all pure getters of
the other kinds and every root, if `GetGenerationQueryDependenciesStatus`
succeeds and `ValidateGenerationQueryDependenciesStatus` succeeds on its
result, the returned bundle holds only ready resources in its four
non-dynamic lists (non-empty `ViewName`, `TableName`, `Status.TableName`), its
`ReportGenerationQueries` are exactly the queries reachable from the root
through ordinary references, and its `ReportDataSources`, `Reports` and
`ScheduledReports` are the resources the getters return for the root's
`Spec.DataSources`, `Spec.Reports` and `Spec.ScheduledReports`, in list
order. -/
theorem C2_validated_bundle_is_ready_and_complete {σ : Type}
    (queryGet : String → String → Except Error ReportGenerationQuery)
    (dataSourceGet_ : String → String → Except Error ReportDataSource)
    (reportGet : String → String → Except Error Report)
    (scheduledReportGet : String → String → Except Error ScheduledReport)
    (hf : NameFaithful queryGet) (root : ReportGenerationQuery) (s s4 : σ)
    (st : GenerationQueryDependenciesStatus) (b : ReportGenerationQueryDependencies)
    (hst : GetGenerationQueryDependenciesStatus (pureGetter queryGet) (pureGetter dataSourceGet_)
      (pureGetter reportGet) (pureGetter scheduledReportGet) root s = (.ok st, s4))
    (hb : ValidateGenerationQueryDependenciesStatus st = .ok b) :
    ResolvedBundleContract queryGet dataSourceGet_ reportGet scheduledReportGet root b := by
  obtain ⟨deps, ds, rs, srs, s1, s2, s3, hq, hds, hrs, hsrs, rfl⟩ := status_ok _ _ _ _ _ _ _ _ hst
  obtain ⟨⟨hu, hd0, hr0, hs0⟩, rfl⟩ := (validate_ok_iff _ b).mp hb
  simp only at hu hd0 hr0 hs0
  obtain ⟨views, dyns, s0, hv, _, rfl⟩ := queries_ok_inv _ _ _ _ _ hq
  obtain ⟨acc, hm, rfl⟩ := view_ok_inv _ _ _ _ _ hv
  obtain ⟨_, hmem, _⟩ := traversal_sound queryGet hf false 100 root acc s s0 hm
  have hq0 : acc.values.filter (fun q => q.ViewName == "") = [] := by
    rw [List.filter_eq_nil_iff]
    intro q hq hv
    exact (hu q (List.mem_filter.mpr ⟨hq, hv⟩)).2 (by simpa using hv)
  have e1 := filter_not_of_filter_eq_nil _ _ hq0
  have e2 := filter_not_of_filter_eq_nil _ _ hd0
  have e3 := filter_not_of_filter_eq_nil _ _ hr0
  have e4 := filter_not_of_filter_eq_nil _ _ hs0
  refine ⟨?_, ?_, ?_, ?_, ?_, ?_, ?_, ?_⟩
  · intro q hq
    simpa using (List.mem_filter.mp hq).2
  · intro d hd
    simpa using (List.mem_filter.mp hd).2
  · intro r hr
    simpa using (List.mem_filter.mp hr).2
  · intro r hr
    simpa using (List.mem_filter.mp hr).2
  · intro q
    simp only [e1]
    exact hmem q
  · simp only [e2]
    exact rangeGet_pure_ok _ _ _ _ _ _ hds
  · simp only [e3]
    exact rangeGet_pure_ok _ _ _ _ _ _ hrs
  · simp only [e4]
    exact rangeGet_pure_ok _ _ _ _ _ _ hsrs

/-- The getter of `exampleRoot` is name-faithful. -/
theorem exampleQueryGet_faithful : NameFaithful exampleQueryGet := by
  intro ns name q h
  simp only [exampleQueryGet] at h
  split_ifs at h with h1
  injection h with h
  subst h
  exact ⟨h1.2.symm, h1.1.symm⟩

/-- The run of `GetGenerationQueryDependenciesStatus` on `exampleRoot` when
`D` has a table. -/
theorem readyStatus_run :
    GetGenerationQueryDependenciesStatus (pureGetter exampleQueryGet)
      (pureGetter readyDataSourceGet) (pureGetter (fun _ _ => .error ⟨"NotFound"⟩))
      (pureGetter (fun _ _ => .error ⟨"NotFound"⟩)) exampleRoot () = (.ok readyStatus, ()) := by
  simp [GetGenerationQueryDependenciesStatus, GetDependentGenerationQueries,
    GetDependentViewGenerationQueries, GetDependentDynamicGenerationQueries,
    GetDependentDataSources, GetDependentReports, GetDependentScheduledReports, memoized_eq,
    rangeQueries, visitQuery, rangeGet, rangePartition, selectQueries, pureGetter, exampleRoot,
    exampleQueryGet, readyDataSourceGet, readyStatus, viewQuery, Accumulator.contains,
    Accumulator.insert, Accumulator.values, reporting.maxDepth]

/-- Claim C2, witness: for the root `R` with the materialised dependency `A`
and the data source `D` with a table, resolution and validation succeed and
the bundle holds `A` and `D`. -/
theorem C2_validated_bundle_is_ready_and_complete_witness :
    ValidateGenerationQueryDependenciesStatus readyStatus = .ok readyBundle ∧
    ResolvedBundleContract exampleQueryGet readyDataSourceGet (fun _ _ => .error ⟨"NotFound"⟩)
      (fun _ _ => .error ⟨"NotFound"⟩) exampleRoot readyBundle :=
  ⟨rfl, C2_validated_bundle_is_ready_and_complete exampleQueryGet readyDataSourceGet _ _
    exampleQueryGet_faithful exampleRoot () () readyStatus readyBundle readyStatus_run rfl⟩

/-! ### Failure of the getter during a traversal -/

/-- A loop over a list whose first part ends without error goes on with the
second part, from the map and the state the first part left. -/
theorem rangeQueries_append_ok {σ : Type}
    (body : String → Accumulator → σ → Except Error Accumulator × σ) (rest : List String) :
    ∀ (p : List String) (acc acc1 : Accumulator) (s s1 : σ),
      rangeQueries body p acc s = (.ok acc1, s1) →
      rangeQueries body (p ++ rest) acc s = rangeQueries body rest acc1 s1 := by
  intro p
  induction p with
  | nil =>
    intro acc acc1 s s1 h
    simp only [rangeQueries, Prod.mk.injEq, Except.ok.injEq] at h
    obtain ⟨rfl, rfl⟩ := h
    rfl
  | cons c p ih =>
    intro acc acc1 s s1 h
    obtain ⟨acc0, s0, hb, hrest⟩ := rangeQueries_cons_ok _ _ _ _ _ _ _ h
    simp only [List.cons_append, rangeQueries, hb]
    exact ih acc0 acc1 s0 s1 hrest

/-- Claim C5, counterexample: the getter answers `x` with a query named `m`
and fails on `m`. For the root listing `x, m`, the name `x` resolves and is
traversed successfully, the getter fails on `m`, and yet the traversal
succeeds: `m` is already a key of the map when the loop reaches it, so it is
skipped and the getter is not called on it. -/
theorem C5_counterexample :
    (leafQuery "R" ["x", "m"]).Spec.ReportQueries = ["x"] ++ ["m"] ++ [] ∧
    rangeQueries (visitQuery (pureGetter aliasGet) (leafQuery "R" ["x", "m"]).Namespace 0 maxDepth
        false) ["x"] [] () = (.ok [("m", leafQuery "m" [])], ()) ∧
    aliasGet (leafQuery "R" ["x", "m"]).Namespace "m" = .error ⟨"NotFound"⟩ ∧
    GetDependentViewGenerationQueries (pureGetter aliasGet) (leafQuery "R" ["x", "m"]) () =
      (.ok [leafQuery "m" []], ()) := by
  refine ⟨rfl, ?_, rfl, ?_⟩
  · simp [memoized_eq, rangeQueries, visitQuery, selectQueries, pureGetter, aliasGet, leafQuery,
      Accumulator.contains, Accumulator.insert, reporting.maxDepth]
  · simp [GetDependentViewGenerationQueries, memoized_eq, rangeQueries, visitQuery,
      selectQueries, pureGetter, aliasGet, leafQuery, Accumulator.contains, Accumulator.insert,
      Accumulator.values, reporting.maxDepth]

/-- Claim C5, amended. For every getter (run with a call log) and every root
whose ordinary list is `p ++ [m] ++ rest`, where the loop over `p` ends
without error, `m` is not a key of the map at that point, and the getter
then fails on `m` with the error `e`: `GetDependentViewGenerationQueries`
returns no result and exactly the error `e`, and the call log is the log of
the loop over `p` followed by the call on `m`, so the getter is called on no
name of `rest` that was not fetched while processing `p`. -/
theorem C5_getter_failure_is_propagated {σ : Type} (queryGetter : reportGenerationQueryGetter σ)
    (root : ReportGenerationQuery) (p : List String) (m : String) (rest : List String)
    (e : Error) (s s1 : σ) (acc1 : Accumulator) (log1 : List (String × String))
    (hlist : root.Spec.ReportQueries = p ++ [m] ++ rest)
    (hp : rangeQueries (visitQuery (recording queryGetter) root.Namespace 0 maxDepth false) p []
      (s, []) = (.ok acc1, (s1, log1)))
    (hm : acc1.contains m = false)
    (he : (queryGetter root.Namespace m s1).1 = .error e) :
    GetDependentViewGenerationQueries (recording queryGetter) root (s, []) =
      (.error e, ((queryGetter root.Namespace m s1).2, log1 ++ [(root.Namespace, m)])) := by
  have hmax : maxDepth = 100 := rfl
  rw [hmax] at hp
  apply view_of_error
  rw [memoized_eq, if_neg (by omega)]
  have hsel : selectQueries root false = p ++ (m :: rest) := by
    simp [selectQueries, hlist]
  rw [hsel, rangeQueries_append_ok _ _ _ _ _ _ _ hp]
  have hcall : recording queryGetter root.Namespace m (s1, log1) =
      (.error e, ((queryGetter root.Namespace m s1).2, log1 ++ [(root.Namespace, m)])) := by
    simp only [recording, he]
  simp only [rangeQueries, visitQuery_get_error _ _ _ _ _ _ _ _ _ _ hm hcall]

/-- Claim C5, witness: the root lists `a, missing, b` and the getter returns
NotFound for `missing`; the traversal returns that error after the calls on
`a` and `missing`, without a call on `b`. -/
theorem C5_getter_failure_is_propagated_witness :
    GetDependentViewGenerationQueries (recording (pureGetter missingGet))
        (leafQuery "R" ["a", "missing", "b"]) ((), []) =
      (.error ⟨"NotFound"⟩, ((), [("ns", "a"), ("ns", "missing")])) :=
  C5_getter_failure_is_propagated (pureGetter missingGet) (leafQuery "R" ["a", "missing", "b"])
    ["a"] "missing" ["b"] ⟨"NotFound"⟩ () () [("a", leafQuery "a" [])] [("ns", "a")] rfl
    (by
      simp [memoized_eq, rangeQueries, visitQuery, selectQueries, pureGetter, recording,
        missingGet, leafQuery, Accumulator.contains, Accumulator.insert, reporting.maxDepth])
    (by simp [Accumulator.contains]) (by simp [pureGetter, missingGet])

/-! ### The validation message -/

/-- One category statement appends the text of its category when the category
is not empty. -/
theorem appendCategory_eq (errs : List String) (label : String) (names : List String) :
    appendCategory errs label names = errs ++ categoryMessages [(label, names)] := by
  cases names <;> simp [appendCategory, categoryMessages]

/-- The texts of a list of categories, one category at a time. -/
theorem categoryMessages_cons (c : String × List String) (cs : List (String × List String)) :
    categoryMessages (c :: cs) = categoryMessages [c] ++ categoryMessages cs := by
  cases h : c.2.isEmpty <;> simp [categoryMessages, List.filter_cons, h]

/-- The messages collected from the five name slices are the texts of the
non-empty categories in the fixed order. -/
theorem validationErrs_eq (st : GenerationQueryDependenciesStatus) :
    validationErrs
      ((st.UninitializedReportGenerationQueries.filter (fun q => q.Spec.View.Disabled)).map
        ReportGenerationQuery.Name)
      (st.UninitializedReportDataSources.map ReportDataSource.Name)
      ((st.UninitializedReportGenerationQueries.filter
        (fun q => !q.Spec.View.Disabled && q.ViewName == "")).map ReportGenerationQuery.Name)
      (st.UninitializedReports.map Report.Name)
      (st.UninitializedScheduledReports.map ScheduledReport.Name) =
    categoryMessages (validationCategories st) := by
  simp only [validationErrs, appendCategory_eq, List.nil_append, validationCategories]
  rw [categoryMessages_cons _ (_ :: _), categoryMessages_cons _ (_ :: _),
    categoryMessages_cons _ (_ :: _), categoryMessages_cons _ (_ :: _)]
  simp only [List.append_assoc]

/-- A failed validation returns the validation message of the categories of
the status. -/
theorem validate_error (st : GenerationQueryDependenciesStatus) (e : Error)
    (h : ValidateGenerationQueryDependenciesStatus st = .error e) :
    e = ⟨validationMessage (validationCategories st)⟩ := by
  rw [validate_eq, validationErrs_eq] at h
  split at h
  · cases h
  · injection h with h
    exact h.symm

/-- Claim C11. For every status value on which
`ValidateGenerationQueryDependenciesStatus` fails, the error message is
"ReportGenerationQuery dependency validation error: " followed by the texts of
the non-empty categories joined by ", ", in the fixed order view-disabled
queries, uninitialized data sources, uninitialized queries, uninitialized
reports, uninitialized scheduled reports; the text of a category is its fixed
label followed by the names of its resources, in the order of the input list,
joined by ", "; an empty category contributes nothing; and the message is a
function of the four uninitialized lists only: a status with the same
uninitialized lists fails with the same error. -/
theorem C11_validation_message (st : GenerationQueryDependenciesStatus) (e : Error)
    (h : ValidateGenerationQueryDependenciesStatus st = .error e) :
    e.msg = validationMessage (validationCategories st) ∧
    ∀ st1 : GenerationQueryDependenciesStatus,
      st1.UninitializedReportGenerationQueries = st.UninitializedReportGenerationQueries →
      st1.UninitializedReportDataSources = st.UninitializedReportDataSources →
      st1.UninitializedReports = st.UninitializedReports →
      st1.UninitializedScheduledReports = st.UninitializedScheduledReports →
      ValidateGenerationQueryDependenciesStatus st1 = .error e := by
  have he := validate_error st e h
  refine ⟨by rw [he], ?_⟩
  intro st1 h1 h2 h3 h4
  rw [validate_eq] at h ⊢
  rw [h1, h2, h3, h4]
  split at h
  · cases h
  · rename_i hne
    rw [if_neg hne]
    exact h

/-- Claim C11, witness: with the uninitialized queries `x` (view disabled),
`y` and `z` (view enabled, no view name), validation fails with the message
that lists `x` in the first category and `y, z` in the third. -/
theorem C11_validation_message_witness :
    ValidateGenerationQueryDependenciesStatus (statusOfUninitialized
        [viewQuery "y" "" false, viewQuery "x" "" true, viewQuery "z" "" false]) =
      .error ⟨"ReportGenerationQuery dependency validation error: invalid ReportGenerationQuery, references ReportGenerationQueries with spec.view.disabled=true: x, ReportGenerationQuery has uninitialized ReportGenerationQuery dependencies: y, z"⟩ ∧
    "ReportGenerationQuery dependency validation error: invalid ReportGenerationQuery, references ReportGenerationQueries with spec.view.disabled=true: x, ReportGenerationQuery has uninitialized ReportGenerationQuery dependencies: y, z" =
      validationMessage (validationCategories (statusOfUninitialized
        [viewQuery "y" "" false, viewQuery "x" "" true, viewQuery "z" "" false])) :=
  ⟨rfl, (C11_validation_message (statusOfUninitialized
      [viewQuery "y" "" false, viewQuery "x" "" true, viewQuery "z" "" false])
    ⟨"ReportGenerationQuery dependency validation error: invalid ReportGenerationQuery, references ReportGenerationQueries with spec.view.disabled=true: x, ReportGenerationQuery has uninitialized ReportGenerationQuery dependencies: y, z"⟩
    rfl).1⟩

/-! ### Roots with a single dependency -/

/-- A pair whose first component is known. -/
theorem pair_of_fst {α β : Type} (x : α × β) (a : α) (h : x.1 = a) : x = (a, x.2) := by
  obtain ⟨x1, x2⟩ := x
  simp only at h
  rw [h]

/-- Below the depth bound, the traversal of a query that lists no name leaves
the map and the state as they are. -/
theorem memoized_leaf {σ : Type} (queryGetter : reportGenerationQueryGetter σ)
    (q : ReportGenerationQuery) (depth maxDepth : Nat) (acc : Accumulator) (dyn : Bool) (s : σ)
    (hd : depth < maxDepth) (hq : selectQueries q dyn = []) :
    GetDependentGenerationQueriesMemoized queryGetter q depth maxDepth acc dyn s = (.ok acc, s) := by
  rw [memoized_eq, if_neg (by omega), hq]
  rfl

/-- The traversal of a root that lists one name, resolved to a query that
lists none, returns the map holding that query, after one call of the
getter. -/
theorem memoized_single {σ : Type} (queryGetter : reportGenerationQueryGetter σ)
    (root v : ReportGenerationQuery) (c : String) (dyn : Bool) (s : σ)
    (hroot : selectQueries root dyn = [c])
    (hget : (queryGetter root.Namespace c s).1 = .ok v) (hv : selectQueries v dyn = []) :
    GetDependentGenerationQueriesMemoized queryGetter root 0 100 [] dyn s =
      (.ok [(v.Name, v)], (queryGetter root.Namespace c s).2) := by
  rw [memoized_eq, if_neg (by omega), hroot]
  have hstep := visitQuery_get_ok queryGetter root.Namespace 0 100 dyn c [] []
    s (queryGetter root.Namespace c s).2 (queryGetter root.Namespace c s).2 v
    (by simp [Accumulator.contains]) (pair_of_fst _ _ hget)
    (memoized_leaf queryGetter v 1 100 [] dyn _ (by omega) hv)
  simp only [rangeQueries, hstep]
  rfl

/-- When its four fetches succeed one after the other,
`GetGenerationQueryDependenciesStatus` succeeds with their results split by
the readiness attribute. -/
theorem status_of_ok {σ : Type} (queryGetter : reportGenerationQueryGetter σ)
    (dataSourceGetter : reportDataSourceGetter σ) (reportGetter_ : reportGetter σ)
    (scheduledReportGetter_ : scheduledReportGetter σ) (generationQuery : ReportGenerationQuery)
    (s s1 s2 s3 s4 : σ) (deps : GetDependentGenerationQueriesStatus)
    (dataSources : List ReportDataSource) (reports : List Report)
    (scheduledReports : List ScheduledReport)
    (h1 : GetDependentGenerationQueries queryGetter generationQuery s = (.ok deps, s1))
    (h2 : GetDependentDataSources dataSourceGetter generationQuery s1 = (.ok dataSources, s2))
    (h3 : GetDependentReports reportGetter_ generationQuery s2 = (.ok reports, s3))
    (h4 : GetDependentScheduledReports scheduledReportGetter_ generationQuery s3 =
      (.ok scheduledReports, s4)) :
    GetGenerationQueryDependenciesStatus queryGetter dataSourceGetter reportGetter_
      scheduledReportGetter_ generationQuery s =
      (.ok
        { UninitializedReportGenerationQueries :=
            deps.ViewReportGenerationQueries.filter (fun q => q.ViewName == "")
          InitializedReportGenerationQueries :=
            deps.ViewReportGenerationQueries.filter (fun q => !(q.ViewName == ""))
          InitializedDynamicReportGenerationQueries := deps.DynamicReportGenerationQueries
          UninitializedReportDataSources := dataSources.filter (fun d => d.TableName == "")
          InitializedReportDataSources := dataSources.filter (fun d => !(d.TableName == ""))
          UninitializedReports := reports.filter (fun r => r.Status.TableName == "")
          InitializedReports := reports.filter (fun r => !(r.Status.TableName == ""))
          UninitializedScheduledReports :=
            scheduledReports.filter (fun r => r.Status.TableName == "")
          InitializedScheduledReports :=
            scheduledReports.filter (fun r => !(r.Status.TableName == "")) }, s4) := by
  simp only [GetGenerationQueryDependenciesStatus, h1, h2, h3, h4, rangePartition_eq,
    List.nil_append]

/-- When both traversals succeed, `GetDependentGenerationQueries` succeeds with
their results. -/
theorem queries_of_ok {σ : Type} (queryGetter : reportGenerationQueryGetter σ)
    (root : ReportGenerationQuery) (views dyns : List ReportGenerationQuery) (s s0 s1 : σ)
    (hv : GetDependentViewGenerationQueries queryGetter root s = (.ok views, s0))
    (hd : GetDependentDynamicGenerationQueries queryGetter root s0 = (.ok dyns, s1)) :
    GetDependentGenerationQueries queryGetter root s = (.ok ⟨views, dyns⟩, s1) := by
  simp only [GetDependentGenerationQueries, hv, hd]

/-- The text of the opening followed by the data source category. -/
theorem dataSource_message (name : String) :
    "ReportGenerationQuery dependency validation error: " ++
      ("ReportGenerationQuery has uninitialized ReportDataSource dependencies: " ++ name) =
    "ReportGenerationQuery dependency validation error: ReportGenerationQuery has uninitialized ReportDataSource dependencies: " ++ name := by
  rw [← String.append_assoc]
  rfl

/-- Claim C12. For every root whose only ordinary dependency is a query `A`
with a non-empty `ViewName` and no ordinary references of its own, whose only
data source is `D` with an empty `TableName`, and which has no dynamic, report
or scheduled-report dependencies, the getters resolving these names:
`GetGenerationQueryDependenciesStatus` succeeds and
`ValidateGenerationQueryDependenciesStatus` fails on its result with exactly
the message "ReportGenerationQuery dependency validation error:
ReportGenerationQuery has uninitialized ReportDataSource dependencies: "
followed by the name of `D`; the message lists `D` under the data source
category and says nothing of `A`. -/
theorem C12_uninitialized_data_source_message {σ : Type}
    (queryGetter : reportGenerationQueryGetter σ) (dataSourceGetter : reportDataSourceGetter σ)
    (reportGetter_ : reportGetter σ) (scheduledReportGetter_ : scheduledReportGetter σ)
    (root A : ReportGenerationQuery) (D : ReportDataSource) (s : σ)
    (hqueries : root.Spec.ReportQueries = [A.Name])
    (hdynamic : root.Spec.DynamicReportQueries = [])
    (hsources : root.Spec.DataSources = [D.Name])
    (hreports : root.Spec.Reports = [])
    (hscheduled : root.Spec.ScheduledReports = [])
    (hA : ∀ s, (queryGetter root.Namespace A.Name s).1 = .ok A)
    (hAview : A.ViewName ≠ "") (hAqueries : A.Spec.ReportQueries = [])
    (hD : ∀ s, (dataSourceGetter root.Namespace D.Name s).1 = .ok D)
    (hDtable : D.TableName = "") :
    ∃ st s1, GetGenerationQueryDependenciesStatus queryGetter dataSourceGetter reportGetter_
        scheduledReportGetter_ root s = (.ok st, s1) ∧
      ValidateGenerationQueryDependenciesStatus st = .error
        ⟨"ReportGenerationQuery dependency validation error: ReportGenerationQuery has uninitialized ReportDataSource dependencies: " ++ D.Name⟩ := by
  have hview := view_of_ok _ _ _ _ _ (memoized_single queryGetter root A A.Name false s
    (by simp [selectQueries, hqueries]) (hA s) (by simp [selectQueries, hAqueries]))
  have hdyn := dynamic_of_ok _ _ _ _ _ (memoized_leaf queryGetter root 0 100 [] true
    (queryGetter root.Namespace A.Name s).2 (by omega) (by simp [selectQueries, hdynamic]))
  have hdeps := queries_of_ok _ _ _ _ _ _ _ hview hdyn
  have hds : GetDependentDataSources dataSourceGetter root (queryGetter root.Namespace A.Name s).2 =
      (.ok [D], (dataSourceGetter root.Namespace D.Name
        (queryGetter root.Namespace A.Name s).2).2) := by
    rw [GetDependentDataSources, hsources, rangeGet_cons_ok _ _ _ _ _ D (hD _)]
    rfl
  have hrs : GetDependentReports reportGetter_ root (dataSourceGetter root.Namespace D.Name
      (queryGetter root.Namespace A.Name s).2).2 = (.ok [], (dataSourceGetter root.Namespace
        D.Name (queryGetter root.Namespace A.Name s).2).2) := by
    rw [GetDependentReports, hreports]
    rfl
  have hsrs : GetDependentScheduledReports scheduledReportGetter_ root
      (dataSourceGetter root.Namespace D.Name (queryGetter root.Namespace A.Name s).2).2 =
      (.ok [], (dataSourceGetter root.Namespace D.Name
        (queryGetter root.Namespace A.Name s).2).2) := by
    rw [GetDependentScheduledReports, hscheduled]
    rfl
  refine ⟨_, _, status_of_ok _ _ _ _ _ _ _ _ _ _ _ _ _ _ hdeps hds hrs hsrs, ?_⟩
  have hAb : (A.ViewName == "") = false := by simpa using hAview
  have hDb : (D.TableName == "") = true := by simpa using hDtable
  rw [validate_eq, validationErrs_eq]
  have hcat : categoryMessages (validationCategories
      { UninitializedReportGenerationQueries :=
          (Accumulator.values [(A.Name, A)]).filter (fun q => q.ViewName == "")
        InitializedReportGenerationQueries :=
          (Accumulator.values [(A.Name, A)]).filter (fun q => !(q.ViewName == ""))
        InitializedDynamicReportGenerationQueries := Accumulator.values []
        UninitializedReportDataSources := [D].filter (fun d => d.TableName == "")
        InitializedReportDataSources := [D].filter (fun d => !(d.TableName == ""))
        UninitializedReports := ([] : List Report).filter (fun r => r.Status.TableName == "")
        InitializedReports := ([] : List Report).filter (fun r => !(r.Status.TableName == ""))
        UninitializedScheduledReports :=
          ([] : List ScheduledReport).filter (fun r => r.Status.TableName == "")
        InitializedScheduledReports :=
          ([] : List ScheduledReport).filter (fun r => !(r.Status.TableName == "")) }) =
      ["ReportGenerationQuery has uninitialized ReportDataSource dependencies: " ++ D.Name] := by
    simp [validationCategories, categoryMessages, Accumulator.values, List.filter_cons, hAb, hDb,
      strings.Join]
  simp only [hcat]
  rw [if_neg (by simp)]
  simp only [strings.Join, dataSource_message]

/-- Claim C12, witness: the root `R` with the ordinary dependency `A` (view
`v_a`) and the data source `D` (no table) resolves, and validation fails with
the message that lists `D` under the data source category. -/
theorem C12_uninitialized_data_source_message_witness :
    ∃ st s1, GetGenerationQueryDependenciesStatus (pureGetter exampleQueryGet)
        (pureGetter exampleDataSourceGet) (pureGetter (fun _ _ => .error ⟨"NotFound"⟩))
        (pureGetter (fun _ _ => .error ⟨"NotFound"⟩)) exampleRoot () = (.ok st, s1) ∧
      ValidateGenerationQueryDependenciesStatus st = .error
        ⟨"ReportGenerationQuery dependency validation error: ReportGenerationQuery has uninitialized ReportDataSource dependencies: D"⟩ :=
  C12_uninitialized_data_source_message (pureGetter exampleQueryGet)
    (pureGetter exampleDataSourceGet) (pureGetter (fun _ _ => .error ⟨"NotFound"⟩))
    (pureGetter (fun _ _ => .error ⟨"NotFound"⟩)) exampleRoot (viewQuery "A" "v_a" false)
    ⟨"D", "ns", ""⟩ () rfl rfl rfl rfl rfl
    (by intro s; simp [pureGetter, exampleQueryGet, exampleRoot, viewQuery])
    (by simp [viewQuery]) rfl
    (by intro s; simp [pureGetter, exampleDataSourceGet, exampleRoot]) rfl

/-- Claim C13. For every root whose dynamic list is exactly the name of `Z`
and whose ordinary, data-source, report and scheduled-report lists are empty,
with a getter that resolves that name to `Z` and `Z` having no dynamic
references of its own: `GetGenerationQueryDependenciesStatus` followed by
`ValidateGenerationQueryDependenciesStatus` succeeds, the dynamic list of the
bundle is exactly `Z` and its other four lists are empty, whatever the
`ViewName` and the "view disabled" flag of `Z` are. -/
theorem C13_dynamic_dependency_is_accepted {σ : Type}
    (queryGetter : reportGenerationQueryGetter σ) (dataSourceGetter : reportDataSourceGetter σ)
    (reportGetter_ : reportGetter σ) (scheduledReportGetter_ : scheduledReportGetter σ)
    (root Z : ReportGenerationQuery) (s : σ)
    (hqueries : root.Spec.ReportQueries = [])
    (hdynamic : root.Spec.DynamicReportQueries = [Z.Name])
    (hsources : root.Spec.DataSources = [])
    (hreports : root.Spec.Reports = [])
    (hscheduled : root.Spec.ScheduledReports = [])
    (hZ : ∀ s, (queryGetter root.Namespace Z.Name s).1 = .ok Z)
    (hZdynamic : Z.Spec.DynamicReportQueries = []) :
    ∃ st s1, GetGenerationQueryDependenciesStatus queryGetter dataSourceGetter reportGetter_
        scheduledReportGetter_ root s = (.ok st, s1) ∧
      ValidateGenerationQueryDependenciesStatus st = .ok ⟨[], [Z], [], [], []⟩ := by
  have hview := view_of_ok _ _ _ _ _ (memoized_leaf queryGetter root 0 100 [] false s
    (by omega) (by simp [selectQueries, hqueries]))
  have hdyn := dynamic_of_ok _ _ _ _ _ (memoized_single queryGetter root Z Z.Name true s
    (by simp [selectQueries, hdynamic]) (hZ s) (by simp [selectQueries, hZdynamic]))
  have hdeps := queries_of_ok _ _ _ _ _ _ _ hview hdyn
  have hds : GetDependentDataSources dataSourceGetter root (queryGetter root.Namespace Z.Name s).2 =
      (.ok [], (queryGetter root.Namespace Z.Name s).2) := by
    rw [GetDependentDataSources, hsources]
    rfl
  have hrs : GetDependentReports reportGetter_ root (queryGetter root.Namespace Z.Name s).2 =
      (.ok [], (queryGetter root.Namespace Z.Name s).2) := by
    rw [GetDependentReports, hreports]
    rfl
  have hsrs : GetDependentScheduledReports scheduledReportGetter_ root
      (queryGetter root.Namespace Z.Name s).2 = (.ok [], (queryGetter root.Namespace Z.Name s).2) := by
    rw [GetDependentScheduledReports, hscheduled]
    rfl
  refine ⟨_, _, status_of_ok _ _ _ _ _ _ _ _ _ _ _ _ _ _ hdeps hds hrs hsrs, ?_⟩
  rw [validate_ok_iff]
  simp [Accumulator.values]

/-- Claim C13, witness: the root `R` with the only dependency `Z`, a dynamic
dependency without a view name and with a disabled view, resolves and
validates, and the bundle holds `Z` in its dynamic list only. -/
theorem C13_dynamic_dependency_is_accepted_witness :
    ∃ st s1, GetGenerationQueryDependenciesStatus (pureGetter dynamicQueryGet)
        (pureGetter exampleDataSourceGet) (pureGetter (fun _ _ => .error ⟨"NotFound"⟩))
        (pureGetter (fun _ _ => .error ⟨"NotFound"⟩)) dynamicRoot () = (.ok st, s1) ∧
      ValidateGenerationQueryDependenciesStatus st = .ok ⟨[], [viewQuery "Z" "" true], [], [], []⟩ :=
  C13_dynamic_dependency_is_accepted (pureGetter dynamicQueryGet)
    (pureGetter exampleDataSourceGet) (pureGetter (fun _ _ => .error ⟨"NotFound"⟩))
    (pureGetter (fun _ _ => .error ⟨"NotFound"⟩)) dynamicRoot (viewQuery "Z" "" true) ()
    rfl rfl rfl rfl rfl
    (by intro s; simp [pureGetter, dynamicQueryGet, dynamicRoot, viewQuery]) rfl

/-! ### Dependencies with a disabled view -/

/-- The getter that serves `A` with a disabled view is name-faithful. -/
theorem disabledQueryGet_faithful : NameFaithful disabledQueryGet := by
  intro ns name q h
  simp only [disabledQueryGet] at h
  split_ifs at h with h1
  injection h with h
  subst h
  exact ⟨h1.2.symm, h1.1.symm⟩

/-- Claim C14, the code at the failing input. The root `R` lists the ordinary
dependency `A`, which has its view disabled and the view name `v_a`, and the
data source `D`, which has a table; the getters are name-faithful.
`GetGenerationQueryDependenciesStatus` succeeds and lists `A` as initialized,
and `ValidateGenerationQueryDependenciesStatus` succeeds on that status and
returns `A` in the bundle, although `A` has its view disabled: the check of the
flag runs over the uninitialized queries only. -/
theorem C14_view_disabled_dependency_validates :
    NameFaithful disabledQueryGet ∧
    refersTo disabledQueryGet false exampleRoot (viewQuery "A" "v_a" true) ∧
    (viewQuery "A" "v_a" true).Spec.View.Disabled = true ∧
    ∃ st, GetGenerationQueryDependenciesStatus (pureGetter disabledQueryGet)
        (pureGetter readyDataSourceGet) (pureGetter (fun _ _ => .error ⟨"NotFound"⟩))
        (pureGetter (fun _ _ => .error ⟨"NotFound"⟩)) exampleRoot () = (.ok st, ()) ∧
      st.InitializedReportGenerationQueries = [viewQuery "A" "v_a" true] ∧
      ValidateGenerationQueryDependenciesStatus st =
        .ok ⟨[viewQuery "A" "v_a" true], [], [⟨"D", "ns", "t_d"⟩], [], []⟩ := by
  refine ⟨disabledQueryGet_faithful, ⟨"A", by simp [selectQueries, exampleRoot],
    by simp [disabledQueryGet, exampleRoot]⟩, rfl, ?_⟩
  refine ⟨{ UninitializedReportGenerationQueries := []
            InitializedReportGenerationQueries := [viewQuery "A" "v_a" true]
            InitializedDynamicReportGenerationQueries := []
            UninitializedReports := []
            InitializedReports := []
            UninitializedScheduledReports := []
            InitializedScheduledReports := []
            UninitializedReportDataSources := []
            InitializedReportDataSources := [⟨"D", "ns", "t_d"⟩] }, ?_, rfl, rfl⟩
  simp [GetGenerationQueryDependenciesStatus, GetDependentGenerationQueries,
    GetDependentViewGenerationQueries, GetDependentDynamicGenerationQueries,
    GetDependentDataSources, GetDependentReports, GetDependentScheduledReports, memoized_eq,
    rangeQueries, visitQuery, rangeGet, rangePartition, selectQueries, pureGetter, exampleRoot,
    disabledQueryGet, readyDataSourceGet, viewQuery, Accumulator.contains,
    Accumulator.insert, Accumulator.values, reporting.maxDepth]

/-! ### No partial success -/

/-- A returned pair holds a result or an error, not both and not neither. -/
theorem result_or_error {σ α : Type} (r : Except Error α × σ) :
    (∃ a s, r = (.ok a, s)) ↔ ¬ ∃ e s, r = (.error e, s) := by
  obtain ⟨r1, r2⟩ := r
  cases r1 with
  | error e =>
    constructor
    · rintro ⟨a, s, h⟩
      cases h
    · intro h
      exact absurd ⟨e, r2, rfl⟩ h
  | ok a =>
    constructor
    · rintro _ ⟨e, s, h⟩
      cases h
    · intro _
      exact ⟨a, r2, rfl⟩

/-- Claim C15. There is no partial success: for every input,
`GetGenerationQueryDependenciesStatus` and
`ValidateGenerationQueryDependenciesStatus` each return either a result or an
error, never both and never neither; and
`GetGenerationQueryDependenciesStatus` returns, unchanged, the error of the
first of its five steps that fails, in the order ordinary traversal, dynamic
traversal, data-source fetch, report fetch, scheduled-report fetch, in the
state that step left (so that no getter is called by a later step), and
succeeds when the five steps succeed. -/
theorem C15_no_partial_success {σ : Type} (queryGetter : reportGenerationQueryGetter σ)
    (dataSourceGetter : reportDataSourceGetter σ) (reportGetter_ : reportGetter σ)
    (scheduledReportGetter_ : scheduledReportGetter σ) (root : ReportGenerationQuery) (s : σ) :
    ((∃ st s1, GetGenerationQueryDependenciesStatus queryGetter dataSourceGetter reportGetter_
        scheduledReportGetter_ root s = (.ok st, s1)) ↔
      ¬ ∃ e s1, GetGenerationQueryDependenciesStatus queryGetter dataSourceGetter reportGetter_
        scheduledReportGetter_ root s = (.error e, s1)) ∧
    (∀ st, (∃ b, ValidateGenerationQueryDependenciesStatus st = .ok b) ↔
      ¬ ∃ e, ValidateGenerationQueryDependenciesStatus st = .error e) ∧
    (∀ e s1, GetDependentViewGenerationQueries queryGetter root s = (.error e, s1) →
      GetGenerationQueryDependenciesStatus queryGetter dataSourceGetter reportGetter_
        scheduledReportGetter_ root s = (.error e, s1)) ∧
    (∀ views s1 e s2, GetDependentViewGenerationQueries queryGetter root s = (.ok views, s1) →
      GetDependentDynamicGenerationQueries queryGetter root s1 = (.error e, s2) →
      GetGenerationQueryDependenciesStatus queryGetter dataSourceGetter reportGetter_
        scheduledReportGetter_ root s = (.error e, s2)) ∧
    (∀ views s1 dyns s2 e s3,
      GetDependentViewGenerationQueries queryGetter root s = (.ok views, s1) →
      GetDependentDynamicGenerationQueries queryGetter root s1 = (.ok dyns, s2) →
      GetDependentDataSources dataSourceGetter root s2 = (.error e, s3) →
      GetGenerationQueryDependenciesStatus queryGetter dataSourceGetter reportGetter_
        scheduledReportGetter_ root s = (.error e, s3)) ∧
    (∀ views s1 dyns s2 dataSources s3 e s4,
      GetDependentViewGenerationQueries queryGetter root s = (.ok views, s1) →
      GetDependentDynamicGenerationQueries queryGetter root s1 = (.ok dyns, s2) →
      GetDependentDataSources dataSourceGetter root s2 = (.ok dataSources, s3) →
      GetDependentReports reportGetter_ root s3 = (.error e, s4) →
      GetGenerationQueryDependenciesStatus queryGetter dataSourceGetter reportGetter_
        scheduledReportGetter_ root s = (.error e, s4)) ∧
    (∀ views s1 dyns s2 dataSources s3 reports s4 e s5,
      GetDependentViewGenerationQueries queryGetter root s = (.ok views, s1) →
      GetDependentDynamicGenerationQueries queryGetter root s1 = (.ok dyns, s2) →
      GetDependentDataSources dataSourceGetter root s2 = (.ok dataSources, s3) →
      GetDependentReports reportGetter_ root s3 = (.ok reports, s4) →
      GetDependentScheduledReports scheduledReportGetter_ root s4 = (.error e, s5) →
      GetGenerationQueryDependenciesStatus queryGetter dataSourceGetter reportGetter_
        scheduledReportGetter_ root s = (.error e, s5)) ∧
    (∀ views s1 dyns s2 dataSources s3 reports s4 scheduledReports s5,
      GetDependentViewGenerationQueries queryGetter root s = (.ok views, s1) →
      GetDependentDynamicGenerationQueries queryGetter root s1 = (.ok dyns, s2) →
      GetDependentDataSources dataSourceGetter root s2 = (.ok dataSources, s3) →
      GetDependentReports reportGetter_ root s3 = (.ok reports, s4) →
      GetDependentScheduledReports scheduledReportGetter_ root s4 = (.ok scheduledReports, s5) →
      ∃ st, GetGenerationQueryDependenciesStatus queryGetter dataSourceGetter reportGetter_
        scheduledReportGetter_ root s = (.ok st, s5)) := by
  refine ⟨result_or_error _, ?_, ?_, ?_, ?_, ?_, ?_, ?_⟩
  · intro st
    cases h : ValidateGenerationQueryDependenciesStatus st with
    | error e =>
      constructor
      · rintro ⟨b, hb⟩
        cases hb
      · intro hn
        exact absurd ⟨e, rfl⟩ hn
    | ok b =>
      constructor
      · rintro _ ⟨e, he⟩
        cases he
      · intro _
        exact ⟨b, rfl⟩
  · intro e s1 h1
    simp only [GetGenerationQueryDependenciesStatus, GetDependentGenerationQueries, h1]
  · intro views s1 e s2 h1 h2
    simp only [GetGenerationQueryDependenciesStatus, GetDependentGenerationQueries, h1, h2]
  · intro views s1 dyns s2 e s3 h1 h2 h3
    simp only [GetGenerationQueryDependenciesStatus, GetDependentGenerationQueries, h1, h2, h3]
  · intro views s1 dyns s2 dataSources s3 e s4 h1 h2 h3 h4
    simp only [GetGenerationQueryDependenciesStatus, GetDependentGenerationQueries, h1, h2, h3,
      h4]
  · intro views s1 dyns s2 dataSources s3 reports s4 e s5 h1 h2 h3 h4 h5
    simp only [GetGenerationQueryDependenciesStatus, GetDependentGenerationQueries, h1, h2, h3,
      h4, h5]
  · intro views s1 dyns s2 dataSources s3 reports s4 scheduledReports s5 h1 h2 h3 h4 h5
    exact ⟨_, status_of_ok _ _ _ _ _ _ _ _ _ _ _ _ _ _ (queries_of_ok _ _ _ _ _ _ _ h1 h2) h3 h4
      h5⟩

/-- Claim C15, witness: for the root `R` with the ordinary dependency `A` and
the data source `D`, with logged getters of which the data source getter
fails, the ordinary and the dynamic traversal succeed, the data source fetch
fails, and `GetGenerationQueryDependenciesStatus` returns that error with the
log of the calls on `A` and `D` only. -/
theorem C15_no_partial_success_witness :
    GetGenerationQueryDependenciesStatus (recording (pureGetter exampleQueryGet))
      (recording (pureGetter (fun _ _ => .error ⟨"NotFound"⟩)))
      (recording (pureGetter (fun _ _ => .error ⟨"unused"⟩)))
      (recording (pureGetter (fun _ _ => .error ⟨"unused"⟩))) exampleRoot ((), []) =
    (.error ⟨"NotFound"⟩, ((), [("ns", "A"), ("ns", "D")])) :=
  (C15_no_partial_success (recording (pureGetter exampleQueryGet))
    (recording (pureGetter (fun _ _ => .error ⟨"NotFound"⟩)))
    (recording (pureGetter (fun _ _ => .error ⟨"unused"⟩)))
    (recording (pureGetter (fun _ _ => .error ⟨"unused"⟩))) exampleRoot ((), [])).2.2.2.2.1
    [viewQuery "A" "v_a" false] ((), [("ns", "A")]) [] ((), [("ns", "A")]) ⟨"NotFound"⟩
    ((), [("ns", "A"), ("ns", "D")])
    (by
      simp [GetDependentViewGenerationQueries, memoized_eq, rangeQueries, visitQuery,
        selectQueries, pureGetter, recording, exampleRoot, exampleQueryGet, viewQuery,
        Accumulator.contains, Accumulator.insert, Accumulator.values, reporting.maxDepth])
    (by
      simp [GetDependentDynamicGenerationQueries, memoized_eq, rangeQueries, selectQueries,
        exampleRoot, Accumulator.values, reporting.maxDepth])
    (by simp [GetDependentDataSources, rangeGet, pureGetter, recording, exampleRoot])

/-! ### The map of a traversal with an arbitrary getter -/

/-- Assigning to a key keeps the keys when the key is there and appends it
otherwise. -/
theorem insert_keys (m : Accumulator) (key : String) (value : ReportGenerationQuery) :
    (m.insert key value).keys = if key ∈ m.keys then m.keys else m.keys ++ [key] := by
  induction m with
  | nil => simp [Accumulator.insert, Accumulator.keys]
  | cons e m ih =>
    by_cases hk : e.1 = key
    · simp [Accumulator.insert, Accumulator.keys, hk]
    · have hne : (e.1 == key) = false := by simpa using hk
      simp only [Accumulator.insert, hne, Bool.false_eq_true, if_false]
      simp only [Accumulator.keys, List.map_cons, List.mem_cons] at ih ⊢
      rw [ih]
      by_cases hmem : key ∈ List.map Prod.fst m
      · simp [hmem]
      · simp [hmem, Ne.symm hk]

/-- An entry of a map after an assignment is the assigned entry or an entry of
the map before. -/
theorem mem_insert (m : Accumulator) (key : String) (value : ReportGenerationQuery)
    (e : String × ReportGenerationQuery) (h : e ∈ m.insert key value) :
    e = (key, value) ∨ e ∈ m := by
  induction m with
  | nil =>
    simp only [Accumulator.insert, List.mem_singleton] at h
    exact Or.inl h
  | cons e0 m ih =>
    simp only [Accumulator.insert] at h
    split at h
    · rcases List.mem_cons.mp h with h | h
      · exact Or.inl h
      · exact Or.inr (List.mem_cons_of_mem _ h)
    · rcases List.mem_cons.mp h with h | h
      · exact Or.inr (by simp [h])
      · rcases ih h with h | h
        · exact Or.inl h
        · exact Or.inr (List.mem_cons_of_mem _ h)

/-- Storing a query under its own name keeps a map well-keyed. -/
theorem WellKeyed.insert_name {acc : Accumulator} (h : WellKeyed acc) (v : ReportGenerationQuery) :
    WellKeyed (acc.insert v.Name v) := by
  constructor
  · rw [insert_keys]
    split
    · exact h.1
    · rename_i hnew
      rw [List.nodup_append]
      refine ⟨h.1, by simp, ?_⟩
      intro a ha hb
      simp only [List.mem_singleton] at hb
      subst hb
      exact hnew ha
  · intro e he
    rcases mem_insert _ _ _ _ he with rfl | he
    · rfl
    · exact h.2 e he

/-- Whatever the getter, a call that returns without error on a well-keyed map
returns a well-keyed map. -/
theorem memoized_wellKeyed {σ : Type} (queryGetter : reportGenerationQueryGetter σ) (dyn : Bool)
    (maxDepth : Nat) :
    ∀ (n depth : Nat), maxDepth - depth = n →
    ∀ (q : ReportGenerationQuery) (acc acc1 : Accumulator) (s s1 : σ), WellKeyed acc →
      GetDependentGenerationQueriesMemoized queryGetter q depth maxDepth acc dyn s =
        (.ok acc1, s1) → WellKeyed acc1 := by
  intro n
  induction n with
  | zero =>
    intro depth hd q acc acc1 s s1 _ h
    rw [memoized_eq, if_pos (by omega)] at h
    cases h
  | succ n ih =>
    intro depth hd q acc acc1 s s1 hacc h
    rw [memoized_eq, if_neg (by omega)] at h
    have loop : ∀ (queries : List String) (acc acc1 : Accumulator) (s s1 : σ), WellKeyed acc →
        rangeQueries (visitQuery queryGetter q.Namespace depth maxDepth dyn) queries acc s =
          (.ok acc1, s1) → WellKeyed acc1 := by
      intro queries
      induction queries with
      | nil =>
        intro acc acc1 s s1 hacc h
        simp only [rangeQueries, Prod.mk.injEq, Except.ok.injEq] at h
        obtain ⟨rfl, _⟩ := h
        exact hacc
      | cons c queries ihq =>
        intro acc acc1 s s1 hacc h
        obtain ⟨acc0, s0, hbody, hrest⟩ := rangeQueries_cons_ok _ _ _ _ _ _ _ h
        refine ihq acc0 acc1 s0 s1 ?_ hrest
        rcases visitQuery_ok _ _ _ _ _ _ _ _ _ _ hbody with
          ⟨_, rfl, _⟩ | ⟨_, v, acc2, sg, _, hm, rfl⟩
        · exact hacc
        · exact (ih (depth + 1) (by omega) v acc acc2 sg s0 hacc hm).insert_name v
    exact loop _ acc acc1 s s1 hacc h

/-- The queries of a well-keyed map have pairwise distinct names. -/
theorem WellKeyed.nodup_names {acc : Accumulator} (h : WellKeyed acc) :
    (acc.values.map ReportGenerationQuery.Name).Nodup := by
  have hkeys : acc.values.map ReportGenerationQuery.Name = acc.keys := by
    simp only [Accumulator.values, Accumulator.keys, List.map_map]
    apply List.map_congr_left
    intro e he
    exact h.2 e he
  rw [hkeys]
  exact h.1

/-- An iteration on a name that is not in the map, fetched without error, but
whose traversal fails, returns the error and no map. -/
theorem visitQuery_rec_error {σ : Type} (queryGetter : reportGenerationQueryGetter σ)
    (ns : String) (depth maxDepth : Nat) (dyn : Bool) (c : String) (acc : Accumulator)
    (s sg s2 : σ) (v : ReportGenerationQuery) (e : Error) (h : acc.contains c = false)
    (hg : queryGetter ns c s = (.ok v, sg))
    (hm : GetDependentGenerationQueriesMemoized queryGetter v (depth + 1) maxDepth acc dyn sg =
      (.error e, s2)) :
    visitQuery queryGetter ns depth maxDepth dyn c acc s = (.error e, s2) := by
  simp [visitQuery, h, hg, hm]

/-- Claim C17. For every getter, name-faithful or not, and every root:
whenever `GetDependentViewGenerationQueries` or
`GetDependentDynamicGenerationQueries` succeeds, no two elements of the
returned list have the same `Name`; during the traversal the map stays
well-keyed (distinct keys, every entry stored under the `Name` of the query
it holds) across every call that returns without error; and an iteration of
the loop changes the map only by storing the fetched query under its `Name`
after the recursive call on that query has returned without error, while a
failed fetch or a failed recursive call ends the iteration with the error. -/
theorem C17_results_keyed_by_name {σ : Type} (queryGetter : reportGenerationQueryGetter σ)
    (root : ReportGenerationQuery) (s : σ) :
    (∀ result s1, GetDependentViewGenerationQueries queryGetter root s = (.ok result, s1) →
      (result.map ReportGenerationQuery.Name).Nodup) ∧
    (∀ result s1, GetDependentDynamicGenerationQueries queryGetter root s = (.ok result, s1) →
      (result.map ReportGenerationQuery.Name).Nodup) ∧
    (∀ (q : ReportGenerationQuery) (depth maxDepth : Nat) (acc acc1 : Accumulator) (dyn : Bool)
      (s0 s1 : σ), WellKeyed acc →
      GetDependentGenerationQueriesMemoized queryGetter q depth maxDepth acc dyn s0 =
        (.ok acc1, s1) → WellKeyed acc1) ∧
    (∀ (ns : String) (depth maxDepth : Nat) (dyn : Bool) (c : String) (acc acc1 : Accumulator)
      (s0 s1 : σ), visitQuery queryGetter ns depth maxDepth dyn c acc s0 = (.ok acc1, s1) →
      (acc.contains c = true ∧ acc1 = acc ∧ s1 = s0) ∨
      (acc.contains c = false ∧ ∃ v acc2 sg, queryGetter ns c s0 = (.ok v, sg) ∧
        GetDependentGenerationQueriesMemoized queryGetter v (depth + 1) maxDepth acc dyn sg =
          (.ok acc2, s1) ∧ acc1 = acc2.insert v.Name v)) ∧
    (∀ (ns : String) (depth maxDepth : Nat) (dyn : Bool) (c : String) (acc : Accumulator)
      (s0 sg s2 : σ) (v : ReportGenerationQuery) (e : Error), acc.contains c = false →
      queryGetter ns c s0 = (.ok v, sg) →
      GetDependentGenerationQueriesMemoized queryGetter v (depth + 1) maxDepth acc dyn sg =
        (.error e, s2) →
      visitQuery queryGetter ns depth maxDepth dyn c acc s0 = (.error e, s2)) := by
  have hnil : WellKeyed [] := ⟨by simp [Accumulator.keys], by simp⟩
  refine ⟨?_, ?_, ?_, ?_, ?_⟩
  · intro result s1 h
    obtain ⟨acc, hm, rfl⟩ := view_ok_inv _ _ _ _ _ h
    exact (memoized_wellKeyed queryGetter false 100 _ 0 rfl root [] acc s s1 hnil hm).nodup_names
  · intro result s1 h
    obtain ⟨acc, hm, rfl⟩ := dynamic_ok_inv _ _ _ _ _ h
    exact (memoized_wellKeyed queryGetter true 100 _ 0 rfl root [] acc s s1 hnil hm).nodup_names
  · intro q depth maxDepth acc acc1 dyn s0 s1 hacc h
    exact memoized_wellKeyed queryGetter dyn maxDepth _ depth rfl q acc acc1 s0 s1 hacc h
  · intro ns depth maxDepth dyn c acc acc1 s0 s1 h
    exact visitQuery_ok _ _ _ _ _ _ _ _ _ _ h
  · intro ns depth maxDepth dyn c acc s0 sg s2 v e hc hg hm
    exact visitQuery_rec_error _ _ _ _ _ _ _ _ _ _ _ _ hc hg hm

/-- Claim C17, witness: with the getter that answers `x` with a query named
`m`, the traversal of the root listing `x, m` succeeds with the one query
`m`, stored under its own name. -/
theorem C17_results_keyed_by_name_witness :
    GetDependentViewGenerationQueries (pureGetter aliasGet) (leafQuery "R" ["x", "m"]) () =
      (.ok [leafQuery "m" []], ()) ∧
    ([leafQuery "m" []].map ReportGenerationQuery.Name).Nodup :=
  have hrun : GetDependentViewGenerationQueries (pureGetter aliasGet) (leafQuery "R" ["x", "m"])
      () = (.ok [leafQuery "m" []], ()) := by
    simp [GetDependentViewGenerationQueries, memoized_eq, rangeQueries, visitQuery,
      selectQueries, pureGetter, aliasGet, leafQuery, Accumulator.contains, Accumulator.insert,
      Accumulator.values, reporting.maxDepth]
  ⟨hrun, (C17_results_keyed_by_name (pureGetter aliasGet) (leafQuery "R" ["x", "m"]) ()).1
    _ _ hrun⟩

/-! ### Simple chains -/

/-- The keys of the map built on a chain. -/
theorem mem_chainAcc_keys (d : Nat → ReportGenerationQuery) :
    ∀ (k i : Nat) (c : String), c ∈ (chainAcc d i k).keys →
      ∃ j, i < j ∧ j ≤ i + k ∧ c = (d j).Name := by
  intro k
  induction k with
  | zero => intro i c h; simp [chainAcc, Accumulator.keys] at h
  | succ k ih =>
    intro i c h
    simp only [chainAcc, Accumulator.keys, List.map_append, List.map_cons, List.map_nil,
      List.mem_append, List.mem_singleton] at h
    rcases h with h | h
    · obtain ⟨j, h1, h2, h3⟩ := ih (i + 1) c h
      exact ⟨j, by omega, by omega, h3⟩
    · exact ⟨i + 1, by omega, by omega, h⟩

/-- The queries of the map built on a chain. -/
theorem mem_chainAcc_values (d : Nat → ReportGenerationQuery) :
    ∀ (k i : Nat) (q : ReportGenerationQuery), q ∈ (chainAcc d i k).values ↔
      ∃ j, i < j ∧ j ≤ i + k ∧ q = d j := by
  intro k
  induction k with
  | zero =>
    intro i q
    simp only [chainAcc, Accumulator.values, List.map_nil, List.not_mem_nil, false_iff]
    rintro ⟨j, h1, h2, _⟩
    omega
  | succ k ih =>
    intro i q
    have ih1 := ih (i + 1) q
    simp only [Accumulator.values] at ih1
    simp only [chainAcc, Accumulator.values, List.map_append, List.map_cons, List.map_nil,
      List.mem_append, List.mem_singleton, ih1]
    constructor
    · rintro (⟨j, h1, h2, h3⟩ | h)
      · exact ⟨j, by omega, by omega, h3⟩
      · exact ⟨i + 1, by omega, by omega, h⟩
    · rintro ⟨j, h1, h2, h3⟩
      by_cases hj : j = i + 1
      · right
        rw [h3, hj]
      · left
        exact ⟨j, by omega, by omega, h3⟩

/-- On a simple chain of `n < 100` dependencies, the call at depth `i` on the
query at position `i` returns the map of the queries below it. -/
theorem chain_memoized_ok {σ : Type} (queryGetter : reportGenerationQueryGetter σ) (n : Nat)
    (d : Nat → ReportGenerationQuery) (ns : String) (hn : n < 100)
    (hns : ∀ i, i ≤ n → (d i).Namespace = ns)
    (hrefs : ∀ i, i < n → (d i).Spec.ReportQueries = [(d (i + 1)).Name])
    (hlast : (d n).Spec.ReportQueries = [])
    (hget : ∀ i, 1 ≤ i → i ≤ n → ∀ s, (queryGetter ns (d i).Name s).1 = .ok (d i))
    (hdistinct : ∀ i j, i ≤ n → j ≤ n → d i = d j → i = j) :
    ∀ (k i : Nat), i + k = n → ∀ s : σ, ∃ s1,
      GetDependentGenerationQueriesMemoized queryGetter (d i) i 100 [] false s =
        (.ok (chainAcc d i k), s1) := by
  intro k
  induction k with
  | zero =>
    intro i hi s
    have hi : i = n := by omega
    subst hi
    exact ⟨s, memoized_leaf _ _ _ _ _ _ _ hn (by simp [selectQueries, hlast])⟩
  | succ k ih =>
    intro i hi s
    obtain ⟨s2, h2⟩ := ih (i + 1) (by omega) (queryGetter ns (d (i + 1)).Name s).2
    refine ⟨s2, ?_⟩
    rw [memoized_eq, if_neg (by omega)]
    have hsel : selectQueries (d i) false = [(d (i + 1)).Name] := by
      simp [selectQueries, hrefs i (by omega)]
    have hstep := visitQuery_get_ok queryGetter ns i 100 false (d (i + 1)).Name []
      (chainAcc d (i + 1) k) s _ s2 (d (i + 1)) (by simp [Accumulator.contains])
      (pair_of_fst _ _ (hget (i + 1) (by omega) (by omega) s)) h2
    have hnew : (d (i + 1)).Name ∉ (chainAcc d (i + 1) k).keys := by
      intro hmem
      obtain ⟨j, h1, h2, h3⟩ := mem_chainAcc_keys d k (i + 1) _ hmem
      have e1 := hget (i + 1) (by omega) (by omega) s
      have e2 := hget j (by omega) (by omega) s
      rw [h3, e2] at e1
      injection e1 with e1
      have := hdistinct j (i + 1) (by omega) (by omega) e1
      omega
    rw [insert_of_not_mem _ _ _ hnew] at hstep
    rw [hsel, hns i (by omega)]
    simp only [rangeQueries, hstep, chainAcc]

/-- On a simple chain of `n ≥ 100` dependencies, the call at depth `depth` on
the query at that position fails at depth 100, on the query at position
100. -/
theorem chain_memoized_error {σ : Type} (queryGetter : reportGenerationQueryGetter σ) (n : Nat)
    (d : Nat → ReportGenerationQuery) (ns : String) (hn : 100 ≤ n)
    (hns : ∀ i, i ≤ n → (d i).Namespace = ns)
    (hrefs : ∀ i, i < n → (d i).Spec.ReportQueries = [(d (i + 1)).Name])
    (hget : ∀ i, 1 ≤ i → i ≤ n → ∀ s, (queryGetter ns (d i).Name s).1 = .ok (d i)) :
    ∀ (m depth : Nat), depth + m = 100 → ∀ s : σ, ∃ s1,
      GetDependentGenerationQueriesMemoized queryGetter (d depth) depth 100 [] false s =
        (.error (cycleError 100 (d 100).Name), s1) := by
  intro m
  induction m with
  | zero =>
    intro depth hd s
    have hd : depth = 100 := by omega
    subst hd
    refine ⟨s, ?_⟩
    rw [memoized_eq, if_pos (by omega)]
  | succ m ih =>
    intro depth hd s
    obtain ⟨s2, h2⟩ := ih (depth + 1) (by omega) (queryGetter ns (d (depth + 1)).Name s).2
    refine ⟨s2, ?_⟩
    rw [memoized_eq, if_neg (by omega)]
    have hsel : selectQueries (d depth) false = [(d (depth + 1)).Name] := by
      simp [selectQueries, hrefs depth (by omega)]
    have hstep := visitQuery_rec_error queryGetter ns depth 100 false (d (depth + 1)).Name []
      s _ s2 (d (depth + 1)) _ (by simp [Accumulator.contains])
      (pair_of_fst _ _ (hget (depth + 1) (by omega) (by omega) s)) h2
    rw [hsel, hns depth (by omega)]
    simp only [rangeQueries, hstep]

/-- Claim C18. For every `n ≥ 0` and every simple chain
`d 0 → d 1 → … → d n` of distinct queries of one namespace (the ordinary list
of `d i` is the name of `d (i+1)`, that of `d n` is empty, and the getter
resolves the name of each dependency to it), with root `d 0`:
`GetDependentViewGenerationQueries` succeeds, returning exactly
`d 1, …, d n`, each once, if `n < 100`; for `n ≥ 100` it fails with the error
"detected a cycle at depth 100 for generationQuery " followed by the name of
`d 100`, although the chain is acyclic; so it succeeds if and only if
`n < 100`. -/
theorem C18_chain_succeeds_iff_shorter_than_100 {σ : Type}
    (queryGetter : reportGenerationQueryGetter σ) (n : Nat) (d : Nat → ReportGenerationQuery)
    (ns : String) (hns : ∀ i, i ≤ n → (d i).Namespace = ns)
    (hrefs : ∀ i, i < n → (d i).Spec.ReportQueries = [(d (i + 1)).Name])
    (hlast : (d n).Spec.ReportQueries = [])
    (hget : ∀ i, 1 ≤ i → i ≤ n → ∀ s, (queryGetter ns (d i).Name s).1 = .ok (d i))
    (hdistinct : ∀ i j, i ≤ n → j ≤ n → d i = d j → i = j) (s : σ) :
    (n < 100 → ∃ result s1,
      GetDependentViewGenerationQueries queryGetter (d 0) s = (.ok result, s1) ∧ result.Nodup ∧
      ∀ q, q ∈ result ↔ ∃ i, 1 ≤ i ∧ i ≤ n ∧ q = d i) ∧
    (100 ≤ n → ∃ s1, GetDependentViewGenerationQueries queryGetter (d 0) s =
      (.error ⟨"detected a cycle at depth 100 for generationQuery " ++ (d 100).Name⟩, s1)) ∧
    ((∃ result s1, GetDependentViewGenerationQueries queryGetter (d 0) s = (.ok result, s1)) ↔
      n < 100) := by
  have hok : n < 100 → ∃ result s1,
      GetDependentViewGenerationQueries queryGetter (d 0) s = (.ok result, s1) ∧ result.Nodup ∧
      ∀ q, q ∈ result ↔ ∃ i, 1 ≤ i ∧ i ≤ n ∧ q = d i := by
    intro hn
    obtain ⟨s1, h⟩ := chain_memoized_ok queryGetter n d ns hn hns hrefs hlast hget hdistinct
      n 0 (by omega) s
    refine ⟨_, s1, view_of_ok _ _ _ _ _ h, ?_, ?_⟩
    · have hwk := memoized_wellKeyed queryGetter false 100 _ 0 rfl (d 0) [] _ s s1
        ⟨by simp [Accumulator.keys], by simp⟩ h
      exact List.Nodup.of_map _ hwk.nodup_names
    · intro q
      rw [mem_chainAcc_values]
      constructor
      · rintro ⟨j, h1, h2, h3⟩
        exact ⟨j, by omega, by omega, h3⟩
      · rintro ⟨j, h1, h2, h3⟩
        exact ⟨j, by omega, by omega, h3⟩
  have herr : 100 ≤ n → ∃ s1, GetDependentViewGenerationQueries queryGetter (d 0) s =
      (.error ⟨"detected a cycle at depth 100 for generationQuery " ++ (d 100).Name⟩, s1) := by
    intro hn
    obtain ⟨s1, h⟩ := chain_memoized_error queryGetter n d ns hn hns hrefs hget 100 0
      (by omega) s
    rw [cycleError_maxDepth] at h
    exact ⟨s1, view_of_error _ _ _ _ _ h⟩
  refine ⟨hok, herr, ?_⟩
  constructor
  · rintro ⟨result, s1, h⟩
    by_contra hn
    obtain ⟨s2, h2⟩ := herr (by omega)
    rw [h] at h2
    cases h2
  · intro hn
    obtain ⟨result, s1, h, _⟩ := hok hn
    exact ⟨result, s1, h⟩

/-- The name at position `i` of the example chain has `i` letters. -/
theorem chainName_length (i : Nat) : (chainName i).length = i := by
  simp [chainName, String.length]

/-- The name of the query at position `i` of the example chain. -/
theorem chainNode_name (n i : Nat) : (chainNode n i).Name = chainName i := rfl

/-- The getter of the example chain resolves the name of each query to it. -/
theorem chainGet_name (n i : Nat) : chainGet n "ns" (chainNode n i).Name = .ok (chainNode n i) := by
  simp [chainGet, chainNode_name, chainName_length]

/-- The queries of the example chain are pairwise distinct. -/
theorem chainNode_injective (n i j : Nat) (h : chainNode n i = chainNode n j) : i = j := by
  have h1 : (chainNode n i).Name = (chainNode n j).Name := by rw [h]
  rw [chainNode_name, chainNode_name] at h1
  have h2 := congrArg String.length h1
  rwa [chainName_length, chainName_length] at h2

/-- Claim C18, witness: the example chain of 2 dependencies is traversed
successfully, and the example chain of 100 dependencies fails at depth 100 on
its last query, the one at position 100. -/
theorem C18_chain_succeeds_iff_shorter_than_100_witness :
    (∃ result s1, GetDependentViewGenerationQueries (pureGetter (chainGet 2)) (chainNode 2 0) () =
        (.ok result, s1) ∧ result.Nodup ∧
      ∀ q, q ∈ result ↔ ∃ i, 1 ≤ i ∧ i ≤ 2 ∧ q = chainNode 2 i) ∧
    (∃ s1, GetDependentViewGenerationQueries (pureGetter (chainGet 100)) (chainNode 100 0) () =
      (.error ⟨"detected a cycle at depth 100 for generationQuery " ++
        (chainNode 100 100).Name⟩, s1)) :=
  ⟨(C18_chain_succeeds_iff_shorter_than_100 (pureGetter (chainGet 2)) 2 (chainNode 2) "ns"
      (fun _ _ => rfl)
      (by intro i hi; simp [chainNode, leafQuery, hi])
      (by simp [chainNode, leafQuery])
      (by intro i _ _ s; simp [pureGetter, chainGet_name])
      (fun i j _ _ h => chainNode_injective 2 i j h) ()).1 (by omega),
   (C18_chain_succeeds_iff_shorter_than_100 (pureGetter (chainGet 100)) 100 (chainNode 100) "ns"
      (fun _ _ => rfl)
      (by intro i hi; simp [chainNode, leafQuery, hi])
      (by simp [chainNode, leafQuery])
      (by intro i _ _ s; simp [pureGetter, chainGet_name])
      (fun i j _ _ h => chainNode_injective 100 i j h) ()).2.1 (by omega)⟩

/-! ### The depth at which a cycle is reported -/

/-- On a pure cycle traversed with a logged getter, the call at depth
`100 - m` fails at depth 100 after `m` further calls of the getter. -/
theorem cycle_memoized_log {σ : Type} (queryGetter : reportGenerationQueryGetter σ) (k : Nat)
    (n : Nat → ReportGenerationQuery) (ns : String) (hk : 1 ≤ k)
    (hns : ∀ i, i < k → (n i).Namespace = ns)
    (hrefs : ∀ i, i < k → (n i).Spec.ReportQueries = [(n ((i + 1) % k)).Name])
    (hget : ∀ i, i < k → ∀ s, (queryGetter ns (n i).Name s).1 = .ok (n i)) :
    ∀ (m depth i : Nat), depth + m = 100 → i < k → ∀ (s : σ) (log : List (String × String)),
      ∃ s1 log1, GetDependentGenerationQueriesMemoized (recording queryGetter) (n i) depth 100 []
          false (s, log) = (.error (cycleError 100 (n ((i + m) % k)).Name), (s1, log1)) ∧
        log1.length = log.length + m := by
  intro m
  induction m with
  | zero =>
    intro depth i hd hi s log
    have hd : depth = 100 := by omega
    subst hd
    refine ⟨s, log, ?_, rfl⟩
    rw [memoized_eq, if_pos (by omega)]
    simp [Nat.mod_eq_of_lt hi]
  | succ m ih =>
    intro depth i hd hi s log
    have hj : (i + 1) % k < k := Nat.mod_lt _ (by omega)
    obtain ⟨s2, log2, h2, hlen⟩ := ih (depth + 1) ((i + 1) % k) (by omega) hj
      (queryGetter ns (n ((i + 1) % k)).Name s).2 (log ++ [(ns, (n ((i + 1) % k)).Name)])
    refine ⟨s2, log2, ?_, by rw [hlen]; simp; omega⟩
    have hmod : ((i + 1) % k + m) % k = (i + (m + 1)) % k := by
      rw [Nat.mod_add_mod]; congr 1; omega
    rw [hmod] at h2
    rw [memoized_eq, if_neg (by omega)]
    have hsel : selectQueries (n i) false = [(n ((i + 1) % k)).Name] := by
      simp [selectQueries, hrefs i hi]
    have hcall : recording queryGetter ns (n ((i + 1) % k)).Name (s, log) =
        (.ok (n ((i + 1) % k)), ((queryGetter ns (n ((i + 1) % k)).Name s).2,
          log ++ [(ns, (n ((i + 1) % k)).Name)])) := by
      simp only [recording, hget _ hj s]
    have hstep := visitQuery_rec_error (recording queryGetter) ns depth 100 false
      (n ((i + 1) % k)).Name [] (s, log) _ (s2, log2) (n ((i + 1) % k)) _
      (by simp [Accumulator.contains]) hcall h2
    rw [hsel, hns i hi]
    simp only [rangeQueries, hstep]

/-- The texts of the cycle error for the depths 100 and 102 differ, whatever
the names. -/
theorem cycleError_100_ne_102 (name1 name2 : String) :
    cycleError 100 name1 ≠ cycleError 102 name2 := by
  intro h
  have h100 : (toString 100 : String) = "100" := by decide
  have h102 : (toString 102 : String) = "102" := by decide
  simp only [cycleError, h100, h102, Error.mk.injEq] at h
  have hd := congrArg String.data h
  simp only [String.data_append] at hd
  have hp := congrArg (List.take 29) hd
  simp at hp

/-- Claim C19, counterexample: for the cycle `A → B → C → A` of period 3, for
which `ceil(100/3) * 3 = 102`, the traversal from `A` fails with the error
that reports depth 100, and with no error that reports depth 102. -/
theorem C19_counterexample :
    (100 + 3 - 1) / 3 * 3 = 102 ∧
    (∃ s1, GetDependentViewGenerationQueries (pureGetter cycle3Get) (cycle3 0) () =
      (.error (cycleError 100 "B"), s1)) ∧
    ¬ ∃ name s1, GetDependentViewGenerationQueries (pureGetter cycle3Get) (cycle3 0) () =
      (.error (cycleError ((100 + 3 - 1) / 3 * 3) name), s1) := by
  have hrun : ∃ s1, GetDependentViewGenerationQueries (pureGetter cycle3Get) (cycle3 0) () =
      (.error (cycleError 100 "B"), s1) := by
    obtain ⟨s1, h⟩ := cycle_memoized (pureGetter cycle3Get) 3 cycle3 "ns" (by decide)
      (by intro i hi; interval_cases i <;> simp [cycle3, leafQuery])
      (by intro i hi; interval_cases i <;> simp [cycle3, leafQuery])
      (by intro i hi s; interval_cases i <;> simp [cycle3, leafQuery, pureGetter, cycle3Get])
      100 0 0 (by omega) (by omega) ()
    exact ⟨s1, view_of_error _ _ _ _ _ h⟩
  refine ⟨by decide, hrun, ?_⟩
  rintro ⟨name, s1, h⟩
  obtain ⟨s2, h2⟩ := hrun
  rw [h2] at h
  simp only [Prod.mk.injEq, Except.error.injEq] at h
  exact cycleError_100_ne_102 _ _ h.1

/-- Claim C19, amended. For every `k` with `1 ≤ k ≤ 100` and every pure cycle
of period `k` of ordinary references containing the root, the traversal
started by `GetDependentViewGenerationQueries` fails after exactly 100
descents (100 calls of the getter), and the depth reached and reported when
the failure fires is 100, whatever `k` is; this is `ceil(100/k) * k` exactly
when `k` divides 100. -/
theorem C19_cycle_fails_after_100_descents {σ : Type}
    (queryGetter : reportGenerationQueryGetter σ) (k : Nat) (n : Nat → ReportGenerationQuery)
    (ns : String) (hk : 1 ≤ k) (_hk100 : k ≤ 100)
    (hns : ∀ i, i < k → (n i).Namespace = ns)
    (hrefs : ∀ i, i < k → (n i).Spec.ReportQueries = [(n ((i + 1) % k)).Name])
    (hget : ∀ i, i < k → ∀ s, (queryGetter ns (n i).Name s).1 = .ok (n i)) (s : σ) :
    ∃ s1 log, GetDependentViewGenerationQueries (recording queryGetter) (n 0) (s, []) =
        (.error (cycleError 100 (n (100 % k)).Name), (s1, log)) ∧
      log.length = 100 ∧ ((100 + k - 1) / k * k = 100 ↔ k ∣ 100) := by
  obtain ⟨s1, log, h, hlen⟩ := cycle_memoized_log queryGetter k n ns hk hns hrefs hget 100 0 0
    (by omega) (by omega) s []
  rw [Nat.zero_add] at h
  refine ⟨s1, log, view_of_error _ _ _ _ _ h, by simpa using hlen, ?_⟩
  constructor
  · intro hc
    exact Dvd.intro_left _ hc
  · rintro ⟨q, hq⟩
    have h1 : 100 + k - 1 = k * q + (k - 1) := by omega
    rw [h1, Nat.mul_add_div (by omega), Nat.div_eq_of_lt (by omega), Nat.add_zero, Nat.mul_comm]
    exact hq.symm

/-- Claim C19, witness: on the cycle `A → B → C → A` the traversal from `A`
fails after 100 calls of the getter, reporting depth 100 and the query `B`. -/
theorem C19_cycle_fails_after_100_descents_witness :
    ∃ s1 log, GetDependentViewGenerationQueries (recording (pureGetter cycle3Get)) (cycle3 0)
        ((), []) = (.error (cycleError 100 (cycle3 (100 % 3)).Name), (s1, log)) ∧
      log.length = 100 ∧ ((100 + 3 - 1) / 3 * 3 = 100 ↔ 3 ∣ 100) :=
  C19_cycle_fails_after_100_descents (pureGetter cycle3Get) 3 cycle3 "ns" (by decide) (by decide)
    (by intro i hi; interval_cases i <;> simp [cycle3, leafQuery])
    (by intro i hi; interval_cases i <;> simp [cycle3, leafQuery])
    (by intro i hi s; interval_cases i <;> simp [cycle3, leafQuery, pureGetter, cycle3Get]) ()

/-! ### Ordinary and dynamic results of one root -/

/-- With a name-faithful getter, the end of a chain is the start or a query of
the namespace of the start that the getter returns for its own name. -/
theorem Chain.get_end {get : String → String → Except Error ReportGenerationQuery} {dyn : Bool}
    (hf : NameFaithful get) {n : Nat} {a b : ReportGenerationQuery} (h : Chain get dyn n a b) :
    (n = 0 ∧ a = b) ∨ (b.Namespace = a.Namespace ∧ get a.Namespace b.Name = .ok b) := by
  induction h with
  | refl q => exact Or.inl ⟨rfl, rfl⟩
  | @step n a w b hab _ ih =>
    right
    obtain ⟨c, _, hg⟩ := hab
    obtain ⟨hname, hns⟩ := hf _ _ _ hg
    rcases ih with ⟨_, rfl⟩ | ⟨h1, h2⟩
    · exact ⟨hns, by rw [hname]; exact hg⟩
    · rw [hns] at h1 h2
      exact ⟨h1, h2⟩

/-- With a name-faithful getter, a query reachable from the root is the query
the getter returns for its name in the namespace of the root. -/
theorem Reachable.get_name {get : String → String → Except Error ReportGenerationQuery}
    {dyn : Bool} (hf : NameFaithful get) {root q : ReportGenerationQuery}
    (h : Reachable get dyn root q) : get root.Namespace q.Name = .ok q := by
  obtain ⟨n, hn⟩ := h
  rcases hn.get_end hf with ⟨h0, _⟩ | ⟨_, h2⟩
  · omega
  · exact h2

/-- With a name-faithful pure getter, every name the root lists is, after a
successful traversal, the name of a query of the result. -/
theorem traversal_children {σ : Type}
    (get : String → String → Except Error ReportGenerationQuery) (hf : NameFaithful get)
    (dyn : Bool) (maxDepth : Nat) (root : ReportGenerationQuery) (acc1 : Accumulator) (s s1 : σ)
    (h : GetDependentGenerationQueriesMemoized (pureGetter get) root 0 maxDepth [] dyn s =
      (.ok acc1, s1)) :
    ∀ c, c ∈ selectQueries root dyn → c ∈ acc1.values.map ReportGenerationQuery.Name := by
  obtain ⟨htopo, hch, _⟩ :=
    memoized_sound get hf root.Namespace dyn maxDepth _ 0 rfl root [] acc1 s s1 rfl
      TopoAcc.nil h
  intro c hc
  obtain ⟨v, hv⟩ := exists_of_mem_keys acc1 c (hch c hc)
  have hname := (hf _ _ _ (htopo.get_eq c v hv)).1
  simp only [Accumulator.values, List.map_map, List.mem_map]
  exact ⟨(c, v), hv, hname⟩

/-- Claim C16, counterexample: the root lists `A` as its only ordinary
dependency and `B` as its only dynamic dependency, so its two lists have no
name in common; `A` lists `B` as an ordinary dependency. The getter is
name-faithful, both traversals succeed, and the name `B` occurs in both
results. -/
theorem C16_counterexample :
    NameFaithful overlapGet ∧
    (∀ name, ¬ (name ∈ (refQuery "R" ["A"] ["B"]).Spec.ReportQueries ∧
      name ∈ (refQuery "R" ["A"] ["B"]).Spec.DynamicReportQueries)) ∧
    GetDependentViewGenerationQueries (pureGetter overlapGet) (refQuery "R" ["A"] ["B"]) () =
      (.ok [refQuery "B" [] [], refQuery "A" ["B"] []], ()) ∧
    GetDependentDynamicGenerationQueries (pureGetter overlapGet) (refQuery "R" ["A"] ["B"]) () =
      (.ok [refQuery "B" [] []], ()) ∧
    "B" ∈ [refQuery "B" [] [], refQuery "A" ["B"] []].map ReportGenerationQuery.Name ∧
    "B" ∈ [refQuery "B" [] []].map ReportGenerationQuery.Name := by
  refine ⟨?_, ?_, ?_, ?_, by simp [refQuery], by simp [refQuery]⟩
  · intro ns name q h
    simp only [overlapGet] at h
    split_ifs at h with h1 h2
    · injection h with h
      subst h
      exact ⟨h1.2.symm, h1.1.symm⟩
    · injection h with h
      subst h
      exact ⟨h2.2.symm, h2.1.symm⟩
  · intro name
    simp only [refQuery, List.mem_singleton]
    rintro ⟨rfl, h⟩
    simp at h
  · simp [GetDependentViewGenerationQueries, memoized_eq, rangeQueries, visitQuery,
      selectQueries, pureGetter, overlapGet, refQuery, Accumulator.contains, Accumulator.insert,
      Accumulator.values, reporting.maxDepth]
  · simp [GetDependentDynamicGenerationQueries, memoized_eq, rangeQueries, visitQuery,
      selectQueries, pureGetter, overlapGet, refQuery, Accumulator.contains, Accumulator.insert,
      Accumulator.values, reporting.maxDepth]

/-- Claim C16, amended. For every name-faithful pure getter and every root on
which both `GetDependentViewGenerationQueries` and
`GetDependentDynamicGenerationQueries` succeed: a name occurs in both results
if and only if it is the name of a query reachable from the root both through
ordinary references and through dynamic references; hence the results are
disjoint when no query is reachable both ways; and every name that the
ordinary and the dynamic list of the root have in common occurs in both
results. -/
theorem C16_common_names_of_the_two_results {σ : Type}
    (get : String → String → Except Error ReportGenerationQuery) (hf : NameFaithful get)
    (root : ReportGenerationQuery) (s : σ) (views dyns : List ReportGenerationQuery) (s1 s2 : σ)
    (hv : GetDependentViewGenerationQueries (pureGetter get) root s = (.ok views, s1))
    (hd : GetDependentDynamicGenerationQueries (pureGetter get) root s = (.ok dyns, s2)) :
    (∀ name, (name ∈ views.map ReportGenerationQuery.Name ∧
        name ∈ dyns.map ReportGenerationQuery.Name) ↔
      ∃ q, q.Name = name ∧ Reachable get false root q ∧ Reachable get true root q) ∧
    ((∀ q, ¬ (Reachable get false root q ∧ Reachable get true root q)) →
      ∀ name, ¬ (name ∈ views.map ReportGenerationQuery.Name ∧
        name ∈ dyns.map ReportGenerationQuery.Name)) ∧
    (∀ name, name ∈ root.Spec.ReportQueries → name ∈ root.Spec.DynamicReportQueries →
      name ∈ views.map ReportGenerationQuery.Name ∧
        name ∈ dyns.map ReportGenerationQuery.Name) := by
  obtain ⟨acc1, hm1, rfl⟩ := view_ok_inv _ _ _ _ _ hv
  obtain ⟨acc2, hm2, rfl⟩ := dynamic_ok_inv _ _ _ _ _ hd
  obtain ⟨_, hmem1, _⟩ := traversal_sound get hf false 100 root acc1 s s1 hm1
  obtain ⟨_, hmem2, _⟩ := traversal_sound get hf true 100 root acc2 s s2 hm2
  have key : ∀ name, (name ∈ acc1.values.map ReportGenerationQuery.Name ∧
        name ∈ acc2.values.map ReportGenerationQuery.Name) ↔
      ∃ q, q.Name = name ∧ Reachable get false root q ∧ Reachable get true root q := by
    intro name
    constructor
    · rintro ⟨h1, h2⟩
      obtain ⟨q1, hq1, rfl⟩ := List.mem_map.mp h1
      obtain ⟨q2, hq2, hname⟩ := List.mem_map.mp h2
      have r1 := (hmem1 q1).mp hq1
      have r2 := (hmem2 q2).mp hq2
      have e1 := r1.get_name hf
      have e2 := r2.get_name hf
      rw [hname, e1] at e2
      injection e2 with e2
      subst e2
      exact ⟨q1, rfl, r1, r2⟩
    · rintro ⟨q, rfl, r1, r2⟩
      exact ⟨List.mem_map.mpr ⟨q, (hmem1 q).mpr r1, rfl⟩,
        List.mem_map.mpr ⟨q, (hmem2 q).mpr r2, rfl⟩⟩
  refine ⟨key, ?_, ?_⟩
  · intro hno name hboth
    obtain ⟨q, _, r1, r2⟩ := (key name).mp hboth
    exact hno q ⟨r1, r2⟩
  · intro name h1 h2
    exact ⟨traversal_children get hf false 100 root acc1 s s1 hm1 name
        (by simpa [selectQueries] using h1),
      traversal_children get hf true 100 root acc2 s s2 hm2 name
        (by simpa [selectQueries] using h2)⟩

/-- The getter that knows `A` and `B` is name-faithful. -/
theorem overlapGet_faithful : NameFaithful overlapGet := by
  intro ns name q h
  simp only [overlapGet] at h
  split_ifs at h with h1 h2
  · injection h with h
    subst h
    exact ⟨h1.2.symm, h1.1.symm⟩
  · injection h with h
    subst h
    exact ⟨h2.2.symm, h2.1.symm⟩

/-- Claim C16, witness: a root whose ordinary and dynamic lists both hold the
name `B`; both traversals succeed, and `B` occurs in both results. -/
theorem C16_common_names_of_the_two_results_witness :
    "B" ∈ (refQuery "R" ["B"] ["B"]).Spec.ReportQueries ∧
    "B" ∈ (refQuery "R" ["B"] ["B"]).Spec.DynamicReportQueries ∧
    GetDependentViewGenerationQueries (pureGetter overlapGet) (refQuery "R" ["B"] ["B"]) () =
      (.ok [refQuery "B" [] []], ()) ∧
    GetDependentDynamicGenerationQueries (pureGetter overlapGet) (refQuery "R" ["B"] ["B"]) () =
      (.ok [refQuery "B" [] []], ()) ∧
    "B" ∈ [refQuery "B" [] []].map ReportGenerationQuery.Name ∧
    "B" ∈ [refQuery "B" [] []].map ReportGenerationQuery.Name :=
  have hv : GetDependentViewGenerationQueries (pureGetter overlapGet)
      (refQuery "R" ["B"] ["B"]) () = (.ok [refQuery "B" [] []], ()) := by
    simp [GetDependentViewGenerationQueries, memoized_eq, rangeQueries, visitQuery,
      selectQueries, pureGetter, overlapGet, refQuery, Accumulator.contains, Accumulator.insert,
      Accumulator.values, reporting.maxDepth]
  have hd : GetDependentDynamicGenerationQueries (pureGetter overlapGet)
      (refQuery "R" ["B"] ["B"]) () = (.ok [refQuery "B" [] []], ()) := by
    simp [GetDependentDynamicGenerationQueries, memoized_eq, rangeQueries, visitQuery,
      selectQueries, pureGetter, overlapGet, refQuery, Accumulator.contains, Accumulator.insert,
      Accumulator.values, reporting.maxDepth]
  ⟨by simp [refQuery], by simp [refQuery], hv, hd,
    (C16_common_names_of_the_two_results overlapGet overlapGet_faithful
      (refQuery "R" ["B"] ["B"]) () _ _ () () hv hd).2.2 "B" (by simp [refQuery])
      (by simp [refQuery])⟩

/-! ### The reference class is selected at every node -/

/-- Maps with the same keys answer the membership test alike. -/
theorem contains_congr (a1 a2 : Accumulator) (c : String) (h : a1.keys = a2.keys) :
    a1.contains c = a2.contains c := by
  cases h1 : a1.contains c with
  | true =>
    have := (contains_iff a1 c).mp h1
    rw [h] at this
    exact ((contains_iff a2 c).mpr this).symm
  | false =>
    cases h2 : a2.contains c with
    | false => rfl
    | true =>
      have := (contains_iff a2 c).mp h2
      rw [← h] at this
      rw [(contains_iff a1 c).mpr this] at h1
      cases h1

/-- Two traversals of the same class run in lockstep: with getters that agree,
on queries that agree and maps with the same keys, the two calls leave the
same state and both fail or both return maps with the same keys. -/
theorem memoized_lockstep {σ : Type} (g1 g2 : reportGenerationQueryGetter σ) (dyn : Bool)
    (maxDepth : Nat) (hag : GettersAgree dyn g1 g2) :
    ∀ (n depth : Nat), maxDepth - depth = n →
    ∀ (q1 q2 : ReportGenerationQuery) (acc1 acc2 : Accumulator) (s : σ), Similar dyn q1 q2 →
      acc1.keys = acc2.keys →
      SameOutcome SameKeys
        (GetDependentGenerationQueriesMemoized g1 q1 depth maxDepth acc1 dyn s)
        (GetDependentGenerationQueriesMemoized g2 q2 depth maxDepth acc2 dyn s) := by
  intro n
  induction n with
  | zero =>
    intro depth hd q1 q2 acc1 acc2 s _ _
    rw [memoized_eq, memoized_eq, if_pos (by omega), if_pos (by omega)]
    exact ⟨rfl, Or.inl ⟨_, _, rfl, rfl⟩⟩
  | succ n ih =>
    intro depth hd q1 q2 acc1 acc2 s hsim hkeys
    rw [memoized_eq, memoized_eq, if_neg (by omega), if_neg (by omega), ← hsim.2.1, ← hsim.2.2]
    have loop : ∀ (queries : List String) (acc1 acc2 : Accumulator) (s : σ),
        acc1.keys = acc2.keys →
        SameOutcome SameKeys
          (rangeQueries (visitQuery g1 q1.Namespace depth maxDepth dyn) queries acc1 s)
          (rangeQueries (visitQuery g2 q1.Namespace depth maxDepth dyn) queries acc2 s) := by
      intro queries
      induction queries with
      | nil =>
        intro acc1 acc2 s hkeys
        exact ⟨rfl, Or.inr ⟨acc1, acc2, rfl, rfl, hkeys⟩⟩
      | cons c queries ihq =>
        intro acc1 acc2 s hkeys
        have hstep : SameOutcome SameKeys
            (visitQuery g1 q1.Namespace depth maxDepth dyn c acc1 s)
            (visitQuery g2 q1.Namespace depth maxDepth dyn c acc2 s) := by
          cases hc : acc1.contains c with
          | true =>
            rw [visitQuery_contains _ _ _ _ _ _ _ _ hc,
              visitQuery_contains _ _ _ _ _ _ _ _ (by rw [← contains_congr _ _ c hkeys]; exact hc)]
            exact ⟨rfl, Or.inr ⟨acc1, acc2, rfl, rfl, hkeys⟩⟩
          | false =>
            have hc2 : acc2.contains c = false := by
              rw [← contains_congr _ _ c hkeys]; exact hc
            obtain ⟨hst, hres⟩ := hag q1.Namespace c s
            rcases hres with ⟨e1, e2, he1, he2⟩ | ⟨v1, v2, hv1, hv2, hvsim⟩
            · rw [visitQuery_get_error _ _ _ _ _ _ _ _ _ _ hc (pair_of_fst _ _ he1),
                visitQuery_get_error _ _ _ _ _ _ _ _ _ _ hc2 (pair_of_fst _ _ he2)]
              exact ⟨hst, Or.inl ⟨e1, e2, rfl, rfl⟩⟩
            · have hrec := ih (depth + 1) (by omega) v1 v2 acc1 acc2 (g1 q1.Namespace c s).2
                hvsim hkeys
              rcases hm1 : GetDependentGenerationQueriesMemoized g1 v1 (depth + 1) maxDepth acc1
                dyn (g1 q1.Namespace c s).2 with ⟨x1, u1⟩
              rcases hm2 : GetDependentGenerationQueriesMemoized g2 v2 (depth + 1) maxDepth acc2
                dyn (g1 q1.Namespace c s).2 with ⟨x2, u2⟩
              rw [hm1, hm2] at hrec
              obtain ⟨hu, hx⟩ := hrec
              simp only at hu hx
              subst hu
              rw [hst] at hm2
              rcases hx with ⟨e1, e2, rfl, rfl⟩ | ⟨a1, a2, rfl, rfl, ha⟩
              · rw [visitQuery_rec_error _ _ _ _ _ _ _ _ _ _ _ _ hc (pair_of_fst _ _ hv1) hm1,
                  visitQuery_rec_error _ _ _ _ _ _ _ _ _ _ _ _ hc2 (pair_of_fst _ _ hv2) hm2]
                exact ⟨rfl, Or.inl ⟨e1, e2, rfl, rfl⟩⟩
              · rw [visitQuery_get_ok _ _ _ _ _ _ _ _ _ _ _ _ hc (pair_of_fst _ _ hv1) hm1,
                  visitQuery_get_ok _ _ _ _ _ _ _ _ _ _ _ _ hc2 (pair_of_fst _ _ hv2) hm2]
                refine ⟨rfl, Or.inr ⟨_, _, rfl, rfl, ?_⟩⟩
                simp only [SameKeys] at ha ⊢
                rw [insert_keys, insert_keys, hvsim.1, ha]
        obtain ⟨hst, hres⟩ := hstep
        rcases hb1 : visitQuery g1 q1.Namespace depth maxDepth dyn c acc1 s with ⟨x1, u1⟩
        rcases hb2 : visitQuery g2 q1.Namespace depth maxDepth dyn c acc2 s with ⟨x2, u2⟩
        rw [hb1, hb2] at hst hres
        simp only at hst hres
        subst hst
        rcases hres with ⟨e1, e2, rfl, rfl⟩ | ⟨a1, a2, rfl, rfl, ha⟩
        · simp only [rangeQueries, hb1, hb2]
          exact ⟨rfl, Or.inl ⟨e1, e2, rfl, rfl⟩⟩
        · simp only [rangeQueries, hb1, hb2]
          exact ihq a1 a2 u1 ha
    exact loop _ acc1 acc2 s hkeys

/-- The names of the queries of a well-keyed map are its keys. -/
theorem WellKeyed.names_eq_keys {acc : Accumulator} (h : WellKeyed acc) :
    acc.values.map ReportGenerationQuery.Name = acc.keys := by
  simp only [Accumulator.values, Accumulator.keys, List.map_map]
  apply List.map_congr_left
  intro e he
  exact h.2 e he

/-- With getters that agree on roots that agree, the two traversals of the
class `dyn` from the empty map leave the same state, and both fail or both
return maps whose queries have the same names. -/
theorem traversal_lockstep {σ : Type} (g1 g2 : reportGenerationQueryGetter σ) (dyn : Bool)
    (hag : GettersAgree dyn g1 g2) (root1 root2 : ReportGenerationQuery) (s : σ)
    (hsim : Similar dyn root1 root2) :
    SameOutcome (fun a1 a2 => SameNames a1.values a2.values)
      (GetDependentGenerationQueriesMemoized g1 root1 0 100 [] dyn s)
      (GetDependentGenerationQueriesMemoized g2 root2 0 100 [] dyn s) := by
  have h := memoized_lockstep g1 g2 dyn 100 hag _ 0 rfl root1 root2 [] [] s hsim rfl
  have hnil : WellKeyed [] := ⟨by simp [Accumulator.keys], by simp⟩
  rcases hm1 : GetDependentGenerationQueriesMemoized g1 root1 0 100 [] dyn s with ⟨x1, u1⟩
  rcases hm2 : GetDependentGenerationQueriesMemoized g2 root2 0 100 [] dyn s with ⟨x2, u2⟩
  rw [hm1, hm2] at h
  obtain ⟨hu, hx⟩ := h
  simp only at hu hx
  subst hu
  rcases hx with ⟨e1, e2, rfl, rfl⟩ | ⟨a1, a2, rfl, rfl, ha⟩
  · exact ⟨rfl, Or.inl ⟨e1, e2, rfl, rfl⟩⟩
  · refine ⟨rfl, Or.inr ⟨a1, a2, rfl, rfl, ?_⟩⟩
    intro name
    rw [(memoized_wellKeyed g1 dyn 100 _ 0 rfl root1 [] a1 s u1 hnil hm1).names_eq_keys,
      (memoized_wellKeyed g2 dyn 100 _ 0 rfl root2 [] a2 s u1 hnil hm2).names_eq_keys, ha]

/-- With getters that agree for dynamic references on roots that agree, the
two dynamic traversals have the same outcome. -/
theorem dynamic_lockstep {σ : Type} (g1 g2 : reportGenerationQueryGetter σ)
    (hag : GettersAgree true g1 g2) (root1 root2 : ReportGenerationQuery) (s : σ)
    (hsim : Similar true root1 root2) :
    SameOutcome SameNames (GetDependentDynamicGenerationQueries g1 root1 s)
      (GetDependentDynamicGenerationQueries g2 root2 s) := by
  have h := traversal_lockstep g1 g2 true hag root1 root2 s hsim
  rcases hm1 : GetDependentGenerationQueriesMemoized g1 root1 0 100 [] true s with ⟨x1, u1⟩
  rcases hm2 : GetDependentGenerationQueriesMemoized g2 root2 0 100 [] true s with ⟨x2, u2⟩
  rw [hm1, hm2] at h
  obtain ⟨hu, hx⟩ := h
  simp only at hu hx
  subst hu
  rcases hx with ⟨e1, e2, rfl, rfl⟩ | ⟨a1, a2, rfl, rfl, ha⟩
  · rw [dynamic_of_error _ _ _ _ _ hm1, dynamic_of_error _ _ _ _ _ hm2]
    exact ⟨rfl, Or.inl ⟨e1, e2, rfl, rfl⟩⟩
  · rw [dynamic_of_ok _ _ _ _ _ hm1, dynamic_of_ok _ _ _ _ _ hm2]
    exact ⟨rfl, Or.inr ⟨_, _, rfl, rfl, ha⟩⟩

/-- With getters that agree for ordinary references on roots that agree, the
two ordinary traversals have the same outcome. -/
theorem view_lockstep {σ : Type} (g1 g2 : reportGenerationQueryGetter σ)
    (hag : GettersAgree false g1 g2) (root1 root2 : ReportGenerationQuery) (s : σ)
    (hsim : Similar false root1 root2) :
    SameOutcome SameNames (GetDependentViewGenerationQueries g1 root1 s)
      (GetDependentViewGenerationQueries g2 root2 s) := by
  have h := traversal_lockstep g1 g2 false hag root1 root2 s hsim
  rcases hm1 : GetDependentGenerationQueriesMemoized g1 root1 0 100 [] false s with ⟨x1, u1⟩
  rcases hm2 : GetDependentGenerationQueriesMemoized g2 root2 0 100 [] false s with ⟨x2, u2⟩
  rw [hm1, hm2] at h
  obtain ⟨hu, hx⟩ := h
  simp only at hu hx
  subst hu
  rcases hx with ⟨e1, e2, rfl, rfl⟩ | ⟨a1, a2, rfl, rfl, ha⟩
  · rw [view_of_error _ _ _ _ _ hm1, view_of_error _ _ _ _ _ hm2]
    exact ⟨rfl, Or.inl ⟨e1, e2, rfl, rfl⟩⟩
  · rw [view_of_ok _ _ _ _ _ hm1, view_of_ok _ _ _ _ _ hm2]
    exact ⟨rfl, Or.inr ⟨_, _, rfl, rfl, ha⟩⟩

/-- The pure getters of two worlds that agree are getters that agree. -/
theorem gettersAgree_pure (σ : Type) (dyn : Bool)
    (get1 get2 : String → String → Except Error ReportGenerationQuery)
    (root1 root2 : ReportGenerationQuery) (h : WorldsAgree dyn get1 get2 root1 root2) :
    GettersAgree dyn (pureGetter get1 : reportGenerationQueryGetter σ) (pureGetter get2) := by
  intro ns name s
  exact ⟨rfl, h.2 ns name⟩

/-- Logging the calls of two getters that agree gives getters that agree. -/
theorem gettersAgree_recording {σ : Type} (dyn : Bool) (g1 g2 : reportGenerationQueryGetter σ)
    (h : GettersAgree dyn g1 g2) : GettersAgree dyn (recording g1) (recording g2) := by
  intro ns name s
  obtain ⟨hst, hres⟩ := h ns name s.1
  refine ⟨?_, hres⟩
  simp only [recording, hst]

/-- Claim C20. The reference class is selected at every node of a traversal:
for any two worlds (a root and a pure getter each) that agree on the name, the
namespace and the dynamic list of the root and of every query the getters
return, and may differ arbitrarily in the ordinary lists,
`GetDependentDynamicGenerationQueries` has the same outcome in both: both
fail, or both succeed with the same set of names; with logged getters the two
traversals also leave the same log, so which names the dynamic traversal
fetches does not depend on any ordinary list. Symmetrically
`GetDependentViewGenerationQueries` is unaffected by the dynamic lists. -/
theorem C20_reference_class_selected_at_every_node {σ : Type}
    (get1 get2 : String → String → Except Error ReportGenerationQuery)
    (root1 root2 : ReportGenerationQuery) (s : σ) :
    (WorldsAgree true get1 get2 root1 root2 →
      SameOutcome SameNames
        (GetDependentDynamicGenerationQueries (pureGetter get1) root1 s)
        (GetDependentDynamicGenerationQueries (pureGetter get2) root2 s) ∧
      SameOutcome SameNames
        (GetDependentDynamicGenerationQueries (recording (pureGetter get1)) root1 (s, []))
        (GetDependentDynamicGenerationQueries (recording (pureGetter get2)) root2 (s, []))) ∧
    (WorldsAgree false get1 get2 root1 root2 →
      SameOutcome SameNames
        (GetDependentViewGenerationQueries (pureGetter get1) root1 s)
        (GetDependentViewGenerationQueries (pureGetter get2) root2 s) ∧
      SameOutcome SameNames
        (GetDependentViewGenerationQueries (recording (pureGetter get1)) root1 (s, []))
        (GetDependentViewGenerationQueries (recording (pureGetter get2)) root2 (s, []))) := by
  constructor
  · intro h
    have hp := gettersAgree_pure σ true get1 get2 root1 root2 h
    exact ⟨dynamic_lockstep _ _ hp root1 root2 s h.1,
      dynamic_lockstep _ _ (gettersAgree_recording true _ _ hp) root1 root2 (s, []) h.1⟩
  · intro h
    have hp := gettersAgree_pure σ false get1 get2 root1 root2 h
    exact ⟨view_lockstep _ _ hp root1 root2 s h.1,
      view_lockstep _ _ (gettersAgree_recording false _ _ hp) root1 root2 (s, []) h.1⟩

/-- The two example worlds agree for dynamic references. -/
theorem worlds_agree :
    WorldsAgree true worldGet1 worldGet2 (refQuery "R" ["X"] ["Z"]) (refQuery "R" [] ["Z"]) := by
  refine ⟨⟨rfl, rfl, rfl⟩, ?_⟩
  intro ns name
  by_cases h1 : ns = "ns" ∧ name = "Z"
  · right
    exact ⟨refQuery "Z" ["O"] [], refQuery "Z" [] [], by simp [worldGet1, h1],
      by simp [worldGet2, h1], rfl, rfl, rfl⟩
  · by_cases h2 : ns = "ns" ∧ name = "O"
    · right
      exact ⟨refQuery "O" [] [], refQuery "O" ["Z"] [], by simp [worldGet1, h1, h2],
        by simp [worldGet2, h1, h2], rfl, rfl, rfl⟩
    · left
      exact ⟨⟨"NotFound"⟩, ⟨"NotFound"⟩, by simp [worldGet1, h1, h2],
        by simp [worldGet2, h1, h2]⟩

/-- Claim C20, witness: in a world where the dynamic dependency `Z` of the
root lists the ordinary dependency `O`, the dynamic traversal fetches `Z`
only, and it has the same outcome and log as in the world where `Z` lists no
ordinary dependency and the root lists none either. -/
theorem C20_reference_class_selected_at_every_node_witness :
    GetDependentDynamicGenerationQueries (recording (pureGetter worldGet1))
        (refQuery "R" ["X"] ["Z"]) ((), []) =
      (.ok [refQuery "Z" ["O"] []], ((), [("ns", "Z")])) ∧
    SameOutcome SameNames
      (GetDependentDynamicGenerationQueries (recording (pureGetter worldGet1))
        (refQuery "R" ["X"] ["Z"]) ((), []))
      (GetDependentDynamicGenerationQueries (recording (pureGetter worldGet2))
        (refQuery "R" [] ["Z"]) ((), [])) :=
  ⟨by
    simp [GetDependentDynamicGenerationQueries, memoized_eq, rangeQueries, visitQuery,
      selectQueries, pureGetter, recording, worldGet1, refQuery, Accumulator.contains,
      Accumulator.insert, Accumulator.values, reporting.maxDepth],
   ((C20_reference_class_selected_at_every_node worldGet1 worldGet2 (refQuery "R" ["X"] ["Z"])
      (refQuery "R" [] ["Z"]) ()).1 worlds_agree).2⟩

end reporting

namespace hive

/-! ### Drop, then create -/

/-- A logged queryer that executes a query appends it to the log. -/
theorem recordingQueryer_none {σ : Type} (queryer : Queryer σ) (query : String) (s : σ)
    (log : List String) (h : (queryer query s).1 = none) :
    recordingQueryer queryer query (s, log) = (none, ((queryer query s).2, log ++ [query])) := by
  simp only [recordingQueryer]
  generalize queryer query s = r at h ⊢
  obtain ⟨r1, r2⟩ := r
  simp only at h
  subst h
  rfl

/-- A logged queryer that fails on a query returns the error and leaves the
log as it is. -/
theorem recordingQueryer_some {σ : Type} (queryer : Queryer σ) (query : String) (s : σ)
    (log : List String) (err : reporting.Error) (h : (queryer query s).1 = some err) :
    recordingQueryer queryer query (s, log) = (some err, ((queryer query s).2, log)) := by
  simp only [recordingQueryer]
  generalize queryer query s = r at h ⊢
  obtain ⟨r1, r2⟩ := r
  simp only at h
  subst h
  rfl

/-- A run that returns the error of a failed drop query with an empty log, the
error of a failed create query with the log of the drop query, and no error
with the log of both queries, is a drop-then-create sequence. -/
theorem dropThenCreate_of {σ : Type} (queryer : Queryer σ) (dropQuery createQuery : String)
    (s : σ) (r : Option reporting.Error × (σ × List String))
    (h1 : ∀ e, (queryer dropQuery s).1 = some e → r = (some e, ((queryer dropQuery s).2, [])))
    (h2 : (queryer dropQuery s).1 = none → ∀ e,
      (queryer createQuery (queryer dropQuery s).2).1 = some e →
      r = (some e, ((queryer createQuery (queryer dropQuery s).2).2, [dropQuery])))
    (h3 : (queryer dropQuery s).1 = none →
      (queryer createQuery (queryer dropQuery s).2).1 = none →
      r = (none, ((queryer createQuery (queryer dropQuery s).2).2, [dropQuery, createQuery]))) :
    DropThenCreate queryer dropQuery createQuery s r := by
  cases hd : (queryer dropQuery s).1 with
  | some e =>
    rw [h1 e hd]
    constructor
    · intro h
      cases h
    · intro err h
      simp only [Option.some.injEq] at h
      subst h
      exact Or.inl ⟨rfl, hd⟩
  | none =>
    cases hc : (queryer createQuery (queryer dropQuery s).2).1 with
    | some e =>
      rw [h2 hd e hc]
      constructor
      · intro h
        cases h
      · intro err h
        simp only [Option.some.injEq] at h
        subst h
        exact Or.inr ⟨rfl, hd, hc⟩
    | none =>
      rw [h3 hd hc]
      constructor
      · intro _
        rfl
      · intro err h
        cases h

/-- The function `CreateLocalReportTable` is a drop-then-create sequence. -/
theorem createLocal_sequence {σ Column : Type} (dropTable : String → Bool → Bool → String)
    (createTable : String → String → String → String → List (String × String) → List Column →
      List Column → Bool → Bool → String)
    (queryer : Queryer σ) (tableName : String) (columns : List Column) (s : σ) :
    DropThenCreate queryer (dropTable tableName true true)
      (createTable tableName "" "" "" [] columns [] false true) s
      (CreateLocalReportTable dropTable createTable (recordingQueryer queryer) tableName columns
        (s, [])) := by
  apply dropThenCreate_of
  · intro e he
    simp only [CreateLocalReportTable, recordingQueryer_some queryer _ s [] e he]
  · intro hd e hc
    simp only [CreateLocalReportTable, recordingQueryer_none queryer _ s [] hd,
      recordingQueryer_some queryer _ _ _ e hc, List.nil_append]
  · intro hd hc
    simp only [CreateLocalReportTable, recordingQueryer_none queryer _ s [] hd,
      recordingQueryer_none queryer _ _ _ hc, List.nil_append, List.singleton_append]

/-- The function `CreateReportTable`, once the location is built, is a
drop-then-create sequence. -/
theorem createReport_sequence {σ Column : Type}
    (s3Location : String → String → Except reporting.Error String)
    (dropTable : String → Bool → Bool → String)
    (createTable : String → String → String → String → List (String × String) → List Column →
      List Column → Bool → Bool → String)
    (queryer : Queryer σ) (tableName bucket prefix_ location : String) (columns : List Column)
    (s : σ) (h : s3Location bucket prefix_ = .ok location) :
    DropThenCreate queryer (dropTable tableName true true)
      (createTable tableName location "" "" [] columns [] false false) s
      (CreateReportTable s3Location dropTable createTable (recordingQueryer queryer) tableName
        bucket prefix_ columns (s, [])) := by
  apply dropThenCreate_of
  · intro e he
    simp only [CreateReportTable, h, recordingQueryer_some queryer _ s [] e he]
  · intro hd e hc
    simp only [CreateReportTable, h, recordingQueryer_none queryer _ s [] hd,
      recordingQueryer_some queryer _ _ _ e hc, List.nil_append]
  · intro hd hc
    simp only [CreateReportTable, h, recordingQueryer_none queryer _ s [] hd,
      recordingQueryer_none queryer _ _ _ hc, List.nil_append, List.singleton_append]

/-- Claim C21, counterexample: with a queryer that executes the first query
and fails on the second, `CreateLocalReportTable` and `CreateReportTable`
return an error, and yet the drop query has been executed successfully: the
table is dropped and not created again. -/
theorem C21_counterexample :
    CreateLocalReportTable exampleDropTable exampleCreateTable (recordingQueryer failAfterFirst)
        "t" [] (0, []) = (some ⟨"query failed"⟩, (2, ["DROP TABLE t"])) ∧
    CreateReportTable exampleLocation exampleDropTable exampleCreateTable
        (recordingQueryer failAfterFirst) "t" "b" "p" [] (0, []) =
      (some ⟨"query failed"⟩, (2, ["DROP TABLE t"])) :=
  ⟨rfl, rfl⟩

/-- Claim C21, amended. For every queryer (run with the log of the queries it
executed successfully), table name and column list, `CreateLocalReportTable`
and `CreateReportTable` run the drop-table query and then the create-table
query: when no error is returned, exactly the drop-table query followed by
the create-table query have been executed; when an error is returned, either
no query has been executed (the location could not be built, or the drop-table
query failed with that error), or the drop-table query has been executed and
the create-table query failed with that error, so that the table is dropped
and not created. -/
theorem C21_drop_then_create {σ Column : Type}
    (s3Location : String → String → Except reporting.Error String)
    (dropTable : String → Bool → Bool → String)
    (createTable : String → String → String → String → List (String × String) → List Column →
      List Column → Bool → Bool → String)
    (queryer : Queryer σ) (tableName bucket prefix_ : String) (columns : List Column) (s : σ) :
    DropThenCreate queryer (dropTable tableName true true)
      (createTable tableName "" "" "" [] columns [] false true) s
      (CreateLocalReportTable dropTable createTable (recordingQueryer queryer) tableName columns
        (s, [])) ∧
    (∀ err, s3Location bucket prefix_ = .error err →
      CreateReportTable s3Location dropTable createTable (recordingQueryer queryer) tableName
        bucket prefix_ columns (s, []) = (some err, (s, []))) ∧
    (∀ location, s3Location bucket prefix_ = .ok location →
      DropThenCreate queryer (dropTable tableName true true)
        (createTable tableName location "" "" [] columns [] false false) s
        (CreateReportTable s3Location dropTable createTable (recordingQueryer queryer) tableName
          bucket prefix_ columns (s, []))) := by
  refine ⟨createLocal_sequence dropTable createTable queryer tableName columns s, ?_, ?_⟩
  · intro err h
    simp only [CreateReportTable, h]
  · intro location h
    exact createReport_sequence s3Location dropTable createTable queryer tableName bucket prefix_
      location columns s h

/-- Claim C21, witness: with a queryer that executes every query,
`CreateLocalReportTable` returns no error and the log holds the drop-table
query followed by the create-table query. -/
theorem C21_drop_then_create_witness :
    (CreateLocalReportTable exampleDropTable exampleCreateTable (recordingQueryer alwaysOk)
      "t" [] ((), [])).1 = none ∧
    (CreateLocalReportTable exampleDropTable exampleCreateTable (recordingQueryer alwaysOk)
      "t" [] ((), [])).2.2 = ["DROP TABLE t", "CREATE TABLE t LOCATION "] :=
  ⟨rfl, (C21_drop_then_create exampleLocation exampleDropTable exampleCreateTable alwaysOk
    "t" "b" "p" [] ()).1.1 rfl⟩

end hive
